import Mathlib

set_option maxHeartbeats 2000000
set_option maxRecDepth 8000

/-!
Verification development for the `track17.py` parcel-tracking CLI
(17TRACK client with a local store, webhook ingestion and spooling).

The Python source is shallowly embedded below: JSON values become an
inductive type, the SQLite tables become lists of rows inside a `Store`
structure, `hashlib.sha256` / `hashlib.sha1` are implemented over byte
lists, and each Python function of interest becomes an executable Lean
definition that follows the source line by line.  Wall-clock time and
the filesystem are passed explicitly.
-/

namespace Track17

/-- JSON values as produced by Python `json.loads` on the subset of JSON
exercised by the tracker (null, booleans, integers, strings, arrays,
objects).  Python object identity of `json.loads` output is irrelevant;
objects keep their key order like Python dicts. -/
inductive JsonVal where
  | null
  | bool (b : Bool)
  | num (n : Int)
  | str (s : String)
  | arr (items : List JsonVal)
  | obj (fields : List (String × JsonVal))
deriving Repr

/-- Structural boolean equality on JSON values (derivation of
`DecidableEq` does not handle the nested induction, so it is spelled
out and reflected by hand). -/
def JsonVal.beq : JsonVal → JsonVal → Bool
  | .null, .null => true
  | .bool a, .bool b => a == b
  | .num a, .num b => a == b
  | .str a, .str b => a == b
  | .arr a, .arr b => go a b
  | .obj a, .obj b => goF a b
  | _, _ => false
where
  /-- Elementwise equality on JSON arrays. -/
  go : List JsonVal → List JsonVal → Bool
    | [], [] => true
    | x :: xs, y :: ys => JsonVal.beq x y && go xs ys
    | _, _ => false
  /-- Elementwise equality on JSON object field lists. -/
  goF : List (String × JsonVal) → List (String × JsonVal) → Bool
    | [], [] => true
    | (k, x) :: xs, (l, y) :: ys => k == l && (JsonVal.beq x y && goF xs ys)
    | _, _ => false

theorem JsonVal.beq_iff : ∀ a b : JsonVal, (JsonVal.beq a b = true ↔ a = b) :=
  JsonVal.beq.induct
    (fun x y => (JsonVal.beq.go x y = true ↔ x = y))
    (fun a b => (JsonVal.beq a b = true ↔ a = b))
    (fun x y => (JsonVal.beq.goF x y = true ↔ x = y))
    (by simp [JsonVal.beq])
    (by intro a b; simp [JsonVal.beq])
    (by intro a b; simp [JsonVal.beq])
    (by intro a b; simp [JsonVal.beq])
    (by intro a b ih; simp [JsonVal.beq, ih])
    (by intro a b ih; simp [JsonVal.beq, ih])
    (by intro t x h1 h2 h3 h4 h5 h6; cases t <;> cases x <;> simp_all [JsonVal.beq])
    (by simp [JsonVal.beq.go])
    (by intro x xs y ys ih1 ih2; simp [JsonVal.beq.go, ih1, ih2])
    (by intro t x h1 h2; cases t with
        | nil => cases x with
          | nil => exact (h1 rfl rfl).elim
          | cons b bs => simp [JsonVal.beq.go]
        | cons a as => cases x with
          | nil => simp [JsonVal.beq.go]
          | cons b bs => exact (h2 a as b bs rfl rfl).elim)
    (by simp [JsonVal.beq.goF])
    (by intro k x xs l y ys ih1 ih2; simp [JsonVal.beq.goF, ih1, ih2, and_assoc])
    (by intro t x h1 h2; cases t with
        | nil => cases x with
          | nil => exact (h1 rfl rfl).elim
          | cons b bs => simp [JsonVal.beq.goF]
        | cons a as => cases x with
          | nil => simp [JsonVal.beq.goF]
          | cons b bs => exact (h2 a.1 a.2 as b.1 b.2 bs (by simp) (by simp)).elim)

instance jsonValDecEq : DecidableEq JsonVal :=
  fun a b => decidable_of_iff (JsonVal.beq a b = true) (JsonVal.beq_iff a b)

namespace JsonVal

/-- Python truthiness of a JSON value: `None`, `False`, `0`, `""`, `[]`
and `{}` are falsy, everything else truthy. -/
def truthy : JsonVal → Bool
  | .null => false
  | .bool b => b
  | .num n => n != 0
  | .str s => s != ""
  | .arr l => !l.isEmpty
  | .obj l => !l.isEmpty

/-- Raw dict field lookup (first binding wins, like a Python dict where
keys are unique).  Returns `none` when the value is not an object or the
key is missing. -/
def fieldRaw : JsonVal → String → Option JsonVal
  | .obj fs, k => (fs.find? (fun p => p.1 == k)).map (fun p => p.2)
  | _, _ => none

/-- Python `d.get(k)`: a JSON `null` value is Python `None`, which
`dict.get` also returns for a missing key, so the two collapse. -/
def get? (v : JsonVal) (k : String) : Option JsonVal :=
  match v.fieldRaw k with
  | some .null => none
  | r => r

/-- Python dict assignment `d[k] = v`: overwrite in place or append. -/
def setField (v : JsonVal) (k : String) (x : JsonVal) : JsonVal :=
  match v with
  | .obj fs =>
      if fs.any (fun p => p.1 == k) then
        .obj (fs.map (fun p => if p.1 == k then (k, x) else p))
      else
        .obj (fs ++ [(k, x)])
  | w => w

end JsonVal

/-- Python `a or b` where both operands came from `dict.get` (so Python
`None` is `none`): the first operand is returned when truthy, otherwise
the second. -/
def pyOrJ (a b : Option JsonVal) : Option JsonVal :=
  match a with
  | some v => if v.truthy then some v else b
  | none => b

/-- Python `a or b` on optional strings (Python `None` or `str`): the
empty string is falsy. -/
def pyOrS (a b : Option String) : Option String :=
  match a with
  | some s => if s == "" then b else some s
  | none => b

/-- Truthiness of an optional Python string. -/
def truthyS : Option String → Bool
  | none => false
  | some s => s != ""

/-- Left brace character, kept out of string literals. -/
def lbrace : Char := Char.ofNat 123

/-- Right brace character, kept out of string literals. -/
def rbrace : Char := Char.ofNat 125

/-- Python `str(x)` for JSON values.  Scalars follow Python exactly
(`None`, `True`, `False`, decimal integers, the string itself);
containers get a best-effort JSON-style rendering — no claim below
evaluates `str` on a container. -/
def pyStr : JsonVal → String
  | .null => "None"
  | .bool true => "True"
  | .bool false => "False"
  | .num n => toString n
  | .str s => s
  | .arr l => "[" ++ String.intercalate ", " (l.map pyStrAux) ++ "]"
  | .obj fs =>
      String.mk [lbrace] ++
        String.intercalate ", " (fs.map (fun p => p.1 ++ ": " ++ pyStrAux p.2)) ++
        String.mk [rbrace]
where
  /-- Depth-one helper rendering for container elements. -/
  pyStrAux : JsonVal → String
    | .null => "None"
    | .bool true => "True"
    | .bool false => "False"
    | .num n => toString n
    | .str s => s
    | .arr _ => "[...]"
    | .obj _ => String.mk [lbrace, '.', '.', '.', rbrace]

/-- Python `int(x)` on a JSON value: integers stay, booleans become 0/1,
digit strings (with optional sign, surrounding spaces stripped) parse;
everything else raises, modelled as `none`. -/
def pyInt : JsonVal → Option Int
  | .num n => some n
  | .bool b => some (if b then 1 else 0)
  | .str s =>
      let t := s.trim
      let core := if t.startsWith "-" || t.startsWith "+" then t.drop 1 else t
      if core != "" && core.all Char.isDigit then
        if t.startsWith "-" then some (-(core.toNat!)) else some (core.toNat! : Int)
      else none
  | _ => none

/-! ## Bytes, UTF-8 and hashes -/

/-- A byte string is a list of naturals below 256. -/
abbrev Bytes := List Nat

/-- UTF-8 encoding of one character. -/
def charUtf8 (c : Char) : Bytes :=
  let n := c.toNat
  if n < 128 then [n]
  else if n < 2048 then [192 + n / 64, 128 + n % 64]
  else if n < 65536 then [224 + n / 4096, 128 + (n / 64) % 64, 128 + n % 64]
  else [240 + n / 262144, 128 + (n / 4096) % 64, 128 + (n / 64) % 64, 128 + n % 64]

/-- Python `s.encode("utf-8")`. -/
def utf8Bytes (s : String) : Bytes :=
  s.data.foldr (fun c acc => charUtf8 c ++ acc) []

/-- Whether a code point is a valid Unicode scalar value. -/
def validScalar (n : Nat) : Bool :=
  n < 55296 || (57344 ≤ n && n < 1114112)

/-- Strict UTF-8 decoding, fuel-driven; `none` models Python raising
`UnicodeDecodeError` from `bytes.decode("utf-8")`. -/
def utf8DecodeAux : Nat → Bytes → Option (List Char)
  | _, [] => some []
  | 0, _ => none
  | fuel + 1, b :: rest =>
      if b < 128 then
        (utf8DecodeAux fuel rest).map (fun cs => Char.ofNat b :: cs)
      else if b < 192 then none
      else if b < 224 then
        match rest with
        | b2 :: rest2 =>
            if 128 ≤ b2 && b2 < 192 then
              let n := (b - 192) * 64 + (b2 - 128)
              if 128 ≤ n && validScalar n then
                (utf8DecodeAux fuel rest2).map (fun cs => Char.ofNat n :: cs)
              else none
            else none
        | _ => none
      else if b < 240 then
        match rest with
        | b2 :: b3 :: rest2 =>
            if (128 ≤ b2 && b2 < 192) && (128 ≤ b3 && b3 < 192) then
              let n := (b - 224) * 4096 + (b2 - 128) * 64 + (b3 - 128)
              if 2048 ≤ n && validScalar n then
                (utf8DecodeAux fuel rest2).map (fun cs => Char.ofNat n :: cs)
              else none
            else none
        | _ => none
      else if b < 248 then
        match rest with
        | b2 :: b3 :: b4 :: rest2 =>
            if (128 ≤ b2 && b2 < 192) && ((128 ≤ b3 && b3 < 192) && (128 ≤ b4 && b4 < 192)) then
              let n := (b - 240) * 262144 + (b2 - 128) * 4096 + (b3 - 128) * 64 + (b4 - 128)
              if 65536 ≤ n && validScalar n then
                (utf8DecodeAux fuel rest2).map (fun cs => Char.ofNat n :: cs)
              else none
            else none
        | _ => none
      else none

/-- Python `bytes.decode("utf-8")` (strict). -/
def utf8Decode (l : Bytes) : Option String :=
  (utf8DecodeAux (l.length + 1) l).map String.mk

/-- Python `bytes.decode("utf-8", errors="replace")`: undecodable bytes
become U+FFFD. -/
def utf8DecodeReplaceAux : Nat → Bytes → List Char
  | _, [] => []
  | 0, _ => []
  | fuel + 1, b :: rest =>
      if b < 128 then Char.ofNat b :: utf8DecodeReplaceAux fuel rest
      else if 194 ≤ b && b < 224 then
        match rest with
        | b2 :: rest2 =>
            if 128 ≤ b2 && b2 < 192 then
              Char.ofNat ((b - 192) * 64 + (b2 - 128)) :: utf8DecodeReplaceAux fuel rest2
            else Char.ofNat 65533 :: utf8DecodeReplaceAux fuel rest
        | _ => [Char.ofNat 65533]
      else if 224 ≤ b && b < 240 then
        match rest with
        | b2 :: b3 :: rest2 =>
            if (128 ≤ b2 && b2 < 192) && (128 ≤ b3 && b3 < 192) then
              let n := (b - 224) * 4096 + (b2 - 128) * 64 + (b3 - 128)
              if 2048 ≤ n && validScalar n then
                Char.ofNat n :: utf8DecodeReplaceAux fuel rest2
              else Char.ofNat 65533 :: utf8DecodeReplaceAux fuel rest
            else Char.ofNat 65533 :: utf8DecodeReplaceAux fuel rest
        | _ => [Char.ofNat 65533]
      else Char.ofNat 65533 :: utf8DecodeReplaceAux fuel rest

/-- Total replacement decoding used where the source passes
`errors="replace"`. -/
def utf8DecodeReplace (l : Bytes) : String :=
  String.mk (utf8DecodeReplaceAux (l.length + 1) l)

/-- Truncation to a 32-bit word. -/
def w32 (n : Nat) : Nat := n % 4294967296

/-- 32-bit rotate right. -/
def rotr32 (x n : Nat) : Nat := w32 ((x >>> n) ||| (x <<< (32 - n)))

/-- 32-bit rotate left. -/
def rotl32 (x n : Nat) : Nat := w32 ((x <<< n) ||| (x >>> (32 - n)))

/-- Big-endian bytes of a natural, fixed width. -/
def natToBytes : Nat → Nat → Bytes
  | 0, _ => []
  | k + 1, n => natToBytes k (n / 256) ++ [n % 256]

/-- Group bytes into big-endian 32-bit words. -/
def bytesToWords : Bytes → List Nat
  | b0 :: b1 :: b2 :: b3 :: rest =>
      (((b0 * 256 + b1) * 256 + b2) * 256 + b3) :: bytesToWords rest
  | _ => []

/-- Merkle–Damgård padding shared by SHA-1 and SHA-256. -/
def shaPad (msg : Bytes) : Bytes :=
  let len := msg.length
  msg ++ [128] ++ List.replicate ((119 - len % 64) % 64) 0 ++
    natToBytes 8 ((len * 8) % 18446744073709551616)

/-- Split a padded message into 64-byte blocks (fuel-driven so that the
kernel can evaluate it; the fuel is always sufficient below). -/
def chunks64Aux : Nat → Bytes → List Bytes
  | _, [] => []
  | 0, _ => []
  | fuel + 1, l => l.take 64 :: chunks64Aux fuel (l.drop 64)

/-- Split a padded message into 64-byte blocks. -/
def chunks64 (l : Bytes) : List Bytes :=
  chunks64Aux l.length l

/-- SHA-256 round constants. -/
def sha256K : List Nat :=
  [1116352408, 1899447441, 3049323471, 3921009573, 961987163, 1508970993, 2453635748, 2870763221,
   3624381080, 310598401, 607225278, 1426881987, 1925078388, 2162078206, 2614888103, 3248222580,
   3835390401, 4022224774, 264347078, 604807628, 770255983, 1249150122, 1555081692, 1996064986,
   2554220882, 2821834349, 2952996808, 3210313671, 3336571891, 3584528711, 113926993, 338241895,
   666307205, 773529912, 1294757372, 1396182291, 1695183700, 1986661051, 2177026350, 2456956037,
   2730485921, 2820302411, 3259730800, 3345764771, 3516065817, 3600352804, 4094571909, 275423344,
   430227734, 506948616, 659060556, 883997877, 958139571, 1322822218, 1537002063, 1747873779,
   1955562222, 2024104815, 2227730452, 2361852424, 2428436474, 2756734187, 3204031479, 3329325298]

/-- SHA-256 initial hash state. -/
def sha256Init : List Nat :=
  [1779033703, 3144134277, 1013904242, 2773480762, 1359893119, 2600822924, 528734635, 1541459225]

/-- SHA-256 message-schedule extension from 16 to 64 words. -/
def sha256Extend (ws : List Nat) : List Nat :=
  (List.range 48).foldl (fun w _ =>
    let n := w.length
    let w15 := w.getD (n - 15) 0
    let w2 := w.getD (n - 2) 0
    let w16 := w.getD (n - 16) 0
    let w7 := w.getD (n - 7) 0
    let s0 := (rotr32 w15 7) ^^^ (rotr32 w15 18) ^^^ (w15 >>> 3)
    let s1 := (rotr32 w2 17) ^^^ (rotr32 w2 19) ^^^ (w2 >>> 10)
    w ++ [w32 (w16 + s0 + w7 + s1)]) ws

/-- One SHA-256 compression step over a 64-byte block. -/
def sha256Compress (h : List Nat) (block : Bytes) : List Nat :=
  let ws := sha256Extend (bytesToWords block)
  let final := (List.zip ws sha256K).foldl (fun st wk =>
    match st with
    | [a, b, c, d, e, f, g, hh] =>
        let s1 := (rotr32 e 6) ^^^ (rotr32 e 11) ^^^ (rotr32 e 25)
        let ch := (e &&& f) ^^^ ((e ^^^ 4294967295) &&& g)
        let t1 := w32 (hh + s1 + ch + wk.2 + wk.1)
        let s0 := (rotr32 a 2) ^^^ (rotr32 a 13) ^^^ (rotr32 a 22)
        let mj := (a &&& b) ^^^ (a &&& c) ^^^ (b &&& c)
        let t2 := w32 (s0 + mj)
        [w32 (t1 + t2), a, b, c, w32 (d + t1), e, f, g]
    | o => o) h
  match h, final with
  | [h0, h1, h2, h3, h4, h5, h6, h7], [a, b, c, d, e, f, g, hh] =>
      [w32 (h0 + a), w32 (h1 + b), w32 (h2 + c), w32 (h3 + d),
       w32 (h4 + e), w32 (h5 + f), w32 (h6 + g), w32 (h7 + hh)]
  | _, _ => h

/-- SHA-256 digest as eight 32-bit words. -/
def sha256Words (msg : Bytes) : List Nat :=
  (chunks64 (shaPad msg)).foldl sha256Compress sha256Init

/-- Lower-case hexadecimal digit. -/
def hexDigit (n : Nat) : Char :=
  Char.ofNat (if n < 10 then 48 + n else 87 + (n % 16))

/-- Eight-character hex rendering of a 32-bit word. -/
def hex8 (n : Nat) : String :=
  String.mk ((List.range 8).map (fun i => hexDigit ((n >>> (28 - 4 * i)) &&& 15)))

/-- Python `hashlib.sha256(msg).hexdigest()`. -/
def sha256hex (msg : Bytes) : String :=
  String.join ((sha256Words msg).map hex8)

/-- SHA-1 initial hash state. -/
def sha1Init : List Nat :=
  [1732584193, 4023233417, 2562383102, 271733878, 3285377520]

/-- SHA-1 message-schedule extension from 16 to 80 words. -/
def sha1Extend (ws : List Nat) : List Nat :=
  (List.range 64).foldl (fun w _ =>
    let n := w.length
    let x := (w.getD (n - 3) 0) ^^^ (w.getD (n - 8) 0) ^^^
             (w.getD (n - 14) 0) ^^^ (w.getD (n - 16) 0)
    w ++ [rotl32 x 1]) ws

/-- One SHA-1 compression step over a 64-byte block. -/
def sha1Compress (h : List Nat) (block : Bytes) : List Nat :=
  let ws := sha1Extend (bytesToWords block)
  let final := (List.zip ws (List.range 80)).foldl (fun st wi =>
    match st with
    | [a, b, c, d, e] =>
        let i := wi.2
        let f :=
          if i < 20 then (b &&& c) ||| ((b ^^^ 4294967295) &&& d)
          else if i < 40 then b ^^^ c ^^^ d
          else if i < 60 then (b &&& c) ||| (b &&& d) ||| (c &&& d)
          else b ^^^ c ^^^ d
        let k :=
          if i < 20 then 1518500249
          else if i < 40 then 1859775393
          else if i < 60 then 2400959708
          else 3395469782
        let tmp := w32 (rotl32 a 5 + f + e + k + wi.1)
        [tmp, a, rotl32 b 30, c, d]
    | o => o) h
  match h, final with
  | [h0, h1, h2, h3, h4], [a, b, c, d, e] =>
      [w32 (h0 + a), w32 (h1 + b), w32 (h2 + c), w32 (h3 + d), w32 (h4 + e)]
  | _, _ => h

/-- Python `hashlib.sha1(msg).hexdigest()`. -/
def sha1hex (msg : Bytes) : String :=
  String.join (((chunks64 (shaPad msg)).foldl sha1Compress sha1Init).map hex8)

example : sha256hex (utf8Bytes "abc") =
    "ba7816bf8f01cfea414140de5dae2223b00361a396177a9cb410ff61f20015ad" := by decide

example : sha1hex (utf8Bytes "abc") = "a9993e364706816aba3e25717850c26c9cd0d89d" := by decide

/-! ## JSON text: `json.loads` / `json.dumps` on the exercised subset -/

/-- Skip JSON whitespace bytes. -/
def skipWs : Bytes → Bytes
  | [] => []
  | b :: rest => if b == 32 || b == 9 || b == 10 || b == 13 then skipWs rest else b :: rest

/-- Read the body of a JSON string after the opening quote, returning
the characters and the remainder after the closing quote.  Handles the
plain ASCII range and the short escapes; anything else (stray control
bytes, `\u`, raw multi-byte UTF-8) is outside the modelled subset. -/
def readJsonChars : Bytes → Option (List Char × Bytes)
  | [] => none
  | b :: rest =>
      if b == 34 then some ([], rest)
      else if b == 92 then
        match rest with
        | [] => none
        | e :: rest2 =>
            let c? : Option Char :=
              if e == 34 then some (Char.ofNat 34)
              else if e == 92 then some (Char.ofNat 92)
              else if e == 47 then some (Char.ofNat 47)
              else if e == 110 then some (Char.ofNat 10)
              else if e == 116 then some (Char.ofNat 9)
              else if e == 114 then some (Char.ofNat 13)
              else if e == 98 then some (Char.ofNat 8)
              else if e == 102 then some (Char.ofNat 12)
              else none
            match c? with
            | some c => (readJsonChars rest2).map (fun p => (c :: p.1, p.2))
            | none => none
      else if 32 ≤ b && b < 128 then
        (readJsonChars rest).map (fun p => (Char.ofNat b :: p.1, p.2))
      else none

/-- Read a run of decimal digits. -/
def readDigits : Bytes → (List Nat × Bytes)
  | [] => ([], [])
  | b :: rest =>
      if 48 ≤ b && b ≤ 57 then
        let p := readDigits rest
        ((b - 48) :: p.1, p.2)
      else ([], b :: rest)

/-- Natural number denoted by a digit list. -/
def digitsToNat (ds : List Nat) : Nat :=
  ds.foldl (fun acc d => acc * 10 + d) 0

mutual

/-- Parse one JSON value (fuel-driven recursive descent). -/
def parseVal : Nat → Bytes → Option (JsonVal × Bytes)
  | 0, _ => none
  | fuel + 1, l =>
      match skipWs l with
      | [] => none
      | b :: rest =>
          if b == 110 then
            if rest.take 3 == [117, 108, 108] then some (.null, rest.drop 3) else none
          else if b == 116 then
            if rest.take 3 == [114, 117, 101] then some (.bool true, rest.drop 3) else none
          else if b == 102 then
            if rest.take 4 == [97, 108, 115, 101] then some (.bool false, rest.drop 4) else none
          else if b == 34 then
            (readJsonChars rest).map (fun p => (.str (String.mk p.1), p.2))
          else if b == 45 || (48 ≤ b && b ≤ 57) then
            let (neg, l2) := if b == 45 then (true, rest) else (false, b :: rest)
            match l2 with
            | [] => none
            | d :: _ =>
                if 48 ≤ d && d ≤ 57 then
                  let p := readDigits l2
                  let stop : Bool := match p.2 with
                    | c :: _ => c == 46 || c == 101 || c == 69
                    | [] => false
                  if stop then none
                  else
                    let v : Int := digitsToNat p.1
                    some (.num (if neg then -v else v), p.2)
                else none
          else if b == 91 then parseArrTail fuel rest
          else if b == 123 then parseObjTail fuel rest
          else none

/-- Parse the rest of an array after the opening bracket. -/
def parseArrTail : Nat → Bytes → Option (JsonVal × Bytes)
  | 0, _ => none
  | fuel + 1, l =>
      match skipWs l with
      | [] => none
      | b :: rest =>
          if b == 93 then some (.arr [], rest)
          else (parseItems fuel (b :: rest)).map (fun p => (.arr p.1, p.2))

/-- Parse one or more comma-separated items and the closing bracket. -/
def parseItems : Nat → Bytes → Option (List JsonVal × Bytes)
  | 0, _ => none
  | fuel + 1, l =>
      match parseVal fuel l with
      | none => none
      | some (v, r) =>
          match skipWs r with
          | [] => none
          | b :: r2 =>
              if b == 44 then (parseItems fuel r2).map (fun p => (v :: p.1, p.2))
              else if b == 93 then some ([v], r2)
              else none

/-- Parse the rest of an object after the opening brace. -/
def parseObjTail : Nat → Bytes → Option (JsonVal × Bytes)
  | 0, _ => none
  | fuel + 1, l =>
      match skipWs l with
      | [] => none
      | b :: rest =>
          if b == 125 then some (.obj [], rest)
          else (parseFieldList fuel (b :: rest)).map (fun p => (.obj p.1, p.2))

/-- Parse one or more `"key": value` fields and the closing brace. -/
def parseFieldList : Nat → Bytes → Option (List (String × JsonVal) × Bytes)
  | 0, _ => none
  | fuel + 1, l =>
      match skipWs l with
      | [] => none
      | b :: rest =>
          if b == 34 then
            match readJsonChars rest with
            | none => none
            | some (kcs, r) =>
                match skipWs r with
                | [] => none
                | c :: r2 =>
                    if c == 58 then
                      match parseVal fuel r2 with
                      | none => none
                      | some (v, r3) =>
                          match skipWs r3 with
                          | [] => none
                          | d :: r4 =>
                              if d == 44 then
                                (parseFieldList fuel r4).map
                                  (fun p => ((String.mk kcs, v) :: p.1, p.2))
                              else if d == 125 then some ([(String.mk kcs, v)], r4)
                              else none
                    else none
          else none

end

/-- Python `json.loads` over raw bytes, on the JSON subset the tracker
exchanges (objects, arrays, strings, integers, booleans, null);
`none` models `json.loads` raising. -/
def jsonLoads (l : Bytes) : Option JsonVal :=
  match parseVal (2 * l.length + 8) l with
  | some (v, r) => if skipWs r == [] then some v else none
  | none => none

/-- Escape one character for a JSON string literal. -/
def jsonEscape (c : Char) : String :=
  if c == Char.ofNat 34 then String.mk [Char.ofNat 92, Char.ofNat 34]
  else if c == Char.ofNat 92 then String.mk [Char.ofNat 92, Char.ofNat 92]
  else if c == Char.ofNat 10 then String.mk [Char.ofNat 92, Char.ofNat 110]
  else if c == Char.ofNat 9 then String.mk [Char.ofNat 92, Char.ofNat 116]
  else if c == Char.ofNat 13 then String.mk [Char.ofNat 92, Char.ofNat 114]
  else String.mk [c]

/-- JSON string literal for a Lean string. -/
def jsonQuote (s : String) : String :=
  String.mk [Char.ofNat 34] ++ String.join (s.data.map jsonEscape) ++ String.mk [Char.ofNat 34]

/-- Python `json.dumps(v, ensure_ascii=False)` with the default
separators `", "` and `": "`. -/
def jsonDump : JsonVal → String
  | .null => "null"
  | .bool true => "true"
  | .bool false => "false"
  | .num n => toString n
  | .str s => jsonQuote s
  | .arr l => "[" ++ String.intercalate ", " (go l) ++ "]"
  | .obj fs =>
      String.mk [lbrace] ++
        String.intercalate ", " (goF fs) ++
        String.mk [rbrace]
where
  /-- Render array elements. -/
  go : List JsonVal → List String
    | [] => []
    | x :: xs => jsonDump x :: go xs
  /-- Render object fields. -/
  goF : List (String × JsonVal) → List String
    | [] => []
    | (k, v) :: xs => (jsonQuote k ++ ": " ++ jsonDump v) :: goF xs

example :
    jsonLoads (utf8Bytes (jsonDump (JsonVal.obj
      [("event", .str "TRACKING_UPDATED"),
       ("data", .obj [("number", .str "RR1"), ("carrier", .num 7), ("ok", .bool true)]),
       ("xs", .arr [.num (-3), .null])]))) =
    some (JsonVal.obj
      [("event", .str "TRACKING_UPDATED"),
       ("data", .obj [("number", .str "RR1"), ("carrier", .num 7), ("ok", .bool true)]),
       ("xs", .arr [.num (-3), .null])]) := by decide

/-! ## The persistent store (SQLite tables as lists of rows) -/

/-- One row of the `packages` table. -/
structure PackageRow where
  id : Nat
  created_at : String
  updated_at : String
  label : Option String
  number : String
  carrier : Int
  param : String
  tag : String
  lang : String
  api_registered : Bool
  tracking_status : Option String
  package_status : Option String
  last_status : Option String
  last_sub_status : Option String
  last_event_time_utc : Option String
  last_event_desc : Option String
  last_location : Option String
  last_update_at : Option String
  last_payload_sha : Option String
  archived : Bool
deriving Repr, DecidableEq

/-- One row of the `events` table.  SQLite is dynamically typed, so the
columns filled straight from `dict.get` keep their JSON value. -/
structure EventRow where
  id : Nat
  package_id : Nat
  provider_key : Option JsonVal
  time_utc : Option JsonVal
  time_iso : Option JsonVal
  description : Option JsonVal
  location : Option JsonVal
  stage : Option JsonVal
  sub_status : Option JsonVal
  raw_json : String
  event_hash : String
  created_at : String
deriving Repr, DecidableEq

/-- One row of the `payloads` table. -/
structure PayloadRow where
  id : Nat
  received_at : String
  source : String
  event_type : Option JsonVal
  number : Option JsonVal
  carrier : Option JsonVal
  signature : Option String
  signature_valid : Option Bool
  sha256 : String
  raw_json : String
deriving Repr, DecidableEq

/-- The whole SQLite database, with the next AUTOINCREMENT ids. -/
structure Store where
  packages : List PackageRow
  events : List EventRow
  payloads : List PayloadRow
  nextPackageId : Nat
  nextEventId : Nat
  nextPayloadId : Nat
deriving Repr, DecidableEq

/-- The empty, freshly initialised database. -/
def Store.empty : Store := ⟨[], [], [], 1, 1, 1⟩

/-- Python `\s` whitespace on the ASCII range. -/
def isPyWs (c : Char) : Bool :=
  c == Char.ofNat 32 || c == Char.ofNat 9 || c == Char.ofNat 10 ||
  c == Char.ofNat 13 || c == Char.ofNat 11 || c == Char.ofNat 12

/-- Source `_normalise_number`: strip all whitespace from the tracking
number (`re.sub(r"\s+", "", n.strip())`). -/
def normalise_number (n : String) : String :=
  String.mk (n.data.filter (fun c => !isPyWs c))

/-- Row lookup by the unique (number, carrier, param) key
(`SELECT ... fetchone()`, first row in storage order). -/
def findByKey (ps : List PackageRow) (n : String) (c : Int) (pa : String) :
    Option PackageRow :=
  ps.find? (fun r => r.number == n && r.carrier == c && r.param == pa)

/-- Row lookup by key with `ORDER BY id DESC LIMIT 1`: the matching row
with the greatest id. -/
def findByKeyDesc (ps : List PackageRow) (n : String) (c : Int) (pa : String) :
    Option PackageRow :=
  (ps.filter (fun r => r.number == n && r.carrier == c && r.param == pa)).foldl
    (fun acc r =>
      match acc with
      | none => some r
      | some a => if r.id > a.id then some r else some a)
    none

/-- The per-row UPDATE of `upsert_package`: overwrite only the
supplied optional fields and refresh `updated_at`. -/
def upsertUpd (label tag lang : Option String) (ar : Option Bool) (now : String)
    (r : PackageRow) : PackageRow :=
  let r := match label with | some l => { r with label := some l } | none => r
  let r := match tag with | some t => { r with tag := t } | none => r
  let r := match lang with | some lg => { r with lang := lg } | none => r
  let r := match ar with | some a => { r with api_registered := a } | none => r
  { r with updated_at := now }

/-- Source `upsert_package`: create the row if absent (with column
defaults), else update only the supplied optional fields, always
refreshing `updated_at`; returns the resulting row.  `envLang` is the
`TRACK17_LANG` environment variable. -/
def upsert_package (st : Store) (now : String) (number : String) (carrier : Int)
    (param : String) (label : Option String) (tag : Option String) (lang : Option String)
    (api_registered : Option Bool) (envLang : Option String) : Store × PackageRow :=
  match findByKey st.packages (normalise_number number) carrier param with
  | some existing =>
      let packages := st.packages.map (fun r =>
        if r.number == normalise_number number && r.carrier == carrier && r.param == param then
          upsertUpd label tag lang api_registered now r
        else r)
      ({ st with packages := packages }, upsertUpd label tag lang api_registered now existing)
  | none =>
      let row : PackageRow :=
        { id := st.nextPackageId
          created_at := now
          updated_at := now
          label := label
          number := normalise_number number
          carrier := carrier
          param := param
          tag := match tag with | some t => if t == "" then "" else t | none => ""
          lang := (pyOrS lang (pyOrS envLang (some "en"))).getD "en"
          api_registered := match api_registered with | some a => a | none => false
          tracking_status := none
          package_status := none
          last_status := none
          last_sub_status := none
          last_event_time_utc := none
          last_event_desc := none
          last_location := none
          last_update_at := none
          last_payload_sha := none
          archived := false }
      ({ st with packages := st.packages ++ [row], nextPackageId := st.nextPackageId + 1 },
       row)

/-! ## Field extraction (`extract_latest_fields`, `iter_events`, `event_hash`) -/

/-- Source `_safe_get` restricted to string paths: walk nested dicts,
returning the default on any miss or non-dict step. -/
def safeGet : JsonVal → List String → JsonVal → JsonVal
  | d, [], _ => d
  | d, k :: ks, dflt =>
      match d with
      | .obj fs =>
          match fs.find? (fun p => p.1 == k) with
          | some p => safeGet p.2 ks dflt
          | none => dflt
      | _ => dflt

/-- Python `a or b` on plain values. -/
def pyOrV (a b : JsonVal) : JsonVal := if a.truthy then a else b

/-- Python `str(x or "")`. -/
def pyStrOrEmpty : Option JsonVal → String
  | some v => if v.truthy then pyStr v else ""
  | none => ""

/-- The five extracted "latest" fields. -/
structure LatestFields where
  last_status : Option String
  last_sub_status : Option String
  last_event_time_utc : Option String
  last_event_desc : Option String
  last_location : Option String
deriving Repr, DecidableEq

/-- Source `extract_latest_fields`.  Returns `none` when the source
would raise `AttributeError` (a truthy non-dict `latest_status` or
`latest_event`, on which `.get` is called). -/
def extract_latest_fields (track_info : JsonVal) : Option LatestFields :=
  let ls := pyOrV (safeGet track_info ["latest_status"] (.obj [])) (.obj [])
  let le := pyOrV (safeGet track_info ["latest_event"] (.obj [])) (.obj [])
  match ls, le with
  | .obj lsf, .obj lef =>
      let lso := JsonVal.obj lsf
      let leo := JsonVal.obj lef
      let evt_desc :=
        match pyOrJ (leo.get? "description_translation") (leo.get? "description") with
        | some (.obj df) =>
            pyOrJ ((JsonVal.obj df).get? "description") ((JsonVal.obj df).get? "translated")
        | x => x
      let evt_loc :=
        match leo.get? "location" with
        | some (.obj lf) =>
            pyOrJ ((JsonVal.obj lf).get? "address")
              (pyOrJ ((JsonVal.obj lf).get? "city") ((JsonVal.obj lf).get? "country"))
        | x => x
      some
        { last_status := (lso.get? "status").map pyStr
          last_sub_status := (lso.get? "sub_status").map pyStr
          last_event_time_utc :=
            (pyOrJ (leo.get? "time_utc") (leo.get? "time_iso")).map pyStr
          last_event_desc := evt_desc.map pyStr
          last_location := evt_loc.map pyStr }
  | _, _ => none

/-- Source `iter_events`: flatten `track_info.tracking.providers[*].events[*]`,
skipping non-dict providers/events, and stamp each event with its
provider key under `_provider_key`. -/
def iter_events (track_info : JsonVal) : List JsonVal :=
  match safeGet track_info ["tracking", "providers"] (.arr []) with
  | .arr ps =>
      ps.foldr (fun p acc =>
        match p with
        | .obj pf =>
            let po := JsonVal.obj pf
            let pk := po.get? "key"
            let evs := pyOrV (match po.get? "events" with | some v => v | none => .null) (.arr [])
            match evs with
            | .arr es =>
                (es.filterMap (fun e =>
                  match e with
                  | .obj _ =>
                      some (e.setField "_provider_key"
                        (match pk with | some v => v | none => .null))
                  | _ => none)) ++ acc
            | _ => acc
        | _ => acc) []
  | _ => []

/-- Source `event_hash`: SHA-1 over `provider_key|time|description|location`
as extracted from the event dict. -/
def event_hash (event : JsonVal) : String :=
  let provider_key := pyStrOrEmpty (event.get? "_provider_key")
  let time_utc := pyStrOrEmpty (pyOrJ (event.get? "time_utc") (event.get? "time_iso"))
  let d0 := event.get? "description_translation"
  let d1 := match d0 with
    | some (.obj df) => (JsonVal.obj df).get? "description"
    | x => x
  let d2 := match d1 with
    | none => event.get? "description"
    | x => x
  let desc_s := pyStrOrEmpty d2
  let l0 := event.get? "location"
  let l1 := match l0 with
    | some (.obj lf) =>
        pyOrJ ((JsonVal.obj lf).get? "address")
          (pyOrJ ((JsonVal.obj lf).get? "city") ((JsonVal.obj lf).get? "country"))
    | x => x
  let loc_s := pyStrOrEmpty l1
  sha1hex (utf8Bytes (String.intercalate "|" [provider_key, time_utc, desc_s, loc_s]))

/-- The four extracted event-identity fields (what `event_hash` hashes). -/
def eventHashInput (event : JsonVal) : List String :=
  let provider_key := pyStrOrEmpty (event.get? "_provider_key")
  let time_utc := pyStrOrEmpty (pyOrJ (event.get? "time_utc") (event.get? "time_iso"))
  let d0 := event.get? "description_translation"
  let d1 := match d0 with
    | some (.obj df) => (JsonVal.obj df).get? "description"
    | x => x
  let d2 := match d1 with
    | none => event.get? "description"
    | x => x
  let desc_s := pyStrOrEmpty d2
  let l0 := event.get? "location"
  let l1 := match l0 with
    | some (.obj lf) =>
        pyOrJ ((JsonVal.obj lf).get? "address")
          (pyOrJ ((JsonVal.obj lf).get? "city") ((JsonVal.obj lf).get? "country"))
    | x => x
  let loc_s := pyStrOrEmpty l1
  [provider_key, time_utc, desc_s, loc_s]

theorem event_hash_eq_of_input_eq (e1 e2 : JsonVal)
    (h : eventHashInput e1 = eventHashInput e2) : event_hash e1 = event_hash e2 := by
  have : event_hash e1 = sha1hex (utf8Bytes (String.intercalate "|" (eventHashInput e1))) := rfl
  rw [this, h]; rfl

/-! ## Payload storage and the reconciliation merge -/

/-- Source `store_payload`: insert the payload row keyed by the SHA-256
of the raw bytes; a duplicate key raises `sqlite3.IntegrityError`,
which is caught and ignored.  Returns the hash. -/
def store_payload (st : Store) (now : String) (raw_body : Bytes) (source : String)
    (event_type : Option JsonVal) (number : Option JsonVal) (carrier : Option JsonVal)
    (signature : Option String) (signature_valid : Option Bool) : Store × String :=
  let sha := sha256hex raw_body
  if st.payloads.any (fun p => p.sha256 == sha) then
    (st, sha)
  else
    ({ st with
        payloads := st.payloads ++
          [{ id := st.nextPayloadId
             received_at := now
             source := source
             event_type := event_type
             number := number
             carrier := carrier
             signature := signature
             signature_valid := signature_valid
             sha256 := sha
             raw_json := utf8DecodeReplace raw_body }]
        nextPayloadId := st.nextPayloadId + 1 },
     sha)

/-- Value stored in the events `description` column (conditional
expression at the INSERT site). -/
def descColumn (e : JsonVal) : Option JsonVal :=
  match e.get? "description_translation" with
  | some (.obj df) => (JsonVal.obj df).get? "description"
  | _ => pyOrJ (e.get? "description_translation") (e.get? "description")

/-- Value stored in the events `location` column: dict locations are
serialised to JSON text, everything else is stored as-is. -/
def locColumn (e : JsonVal) : Option JsonVal :=
  match e.get? "location" with
  | some (.obj lf) => some (.str (jsonDump (JsonVal.obj lf)))
  | x => x

/-- One idempotent event INSERT (`INSERT ... UNIQUE(package_id, event_hash)`
with `IntegrityError` swallowed).  State is (rows, next id, inserted count). -/
def insertEventStep (pkg_id : Nat) (now : String)
    (acc : List EventRow × Nat × Nat) (e : JsonVal) : List EventRow × Nat × Nat :=
  let (rows, nid, cnt) := acc
  let eh := event_hash e
  if rows.any (fun r => r.package_id == pkg_id && r.event_hash == eh) then acc
  else
    (rows ++
      [{ id := nid
         package_id := pkg_id
         provider_key := e.get? "_provider_key"
         time_utc := e.get? "time_utc"
         time_iso := e.get? "time_iso"
         description := descColumn e
         location := locColumn e
         stage := e.get? "stage"
         sub_status := e.get? "sub_status"
         raw_json := jsonDump e
         event_hash := eh
         created_at := now }],
     nid + 1, cnt + 1)

/-- The `track_info` sub-object of a response item (`{}` unless it is a
dict). -/
def trackInfoOf (response_item : JsonVal) : JsonVal :=
  match response_item.get? "track_info" with
  | some (.obj fs) => JsonVal.obj fs
  | _ => JsonVal.obj []

/-- The merged package row written by the UPDATE statement of
`apply_update_from_trackinfo`: statuses are overwritten when present in
the item, the five "latest" fields and the payload hash follow Python
`or` (fill if truthy, else keep). -/
def mergedPackageRow (prev : PackageRow) (latest : LatestFields)
    (tracking_status package_status : Option JsonVal) (raw_payload_sha : Option String)
    (now : String) : PackageRow :=
  { prev with
    updated_at := now
    tracking_status :=
      match tracking_status with
      | some v => some (pyStr v)
      | none => prev.tracking_status
    package_status :=
      match package_status with
      | some v => some (pyStr v)
      | none => prev.package_status
    last_status := pyOrS latest.last_status prev.last_status
    last_sub_status := pyOrS latest.last_sub_status prev.last_sub_status
    last_event_time_utc := pyOrS latest.last_event_time_utc prev.last_event_time_utc
    last_event_desc := pyOrS latest.last_event_desc prev.last_event_desc
    last_location := pyOrS latest.last_location prev.last_location
    last_update_at := some now
    last_payload_sha := pyOrS raw_payload_sha prev.last_payload_sha }

/-- The one-line summary built at the end of
`apply_update_from_trackinfo`. -/
def updateSummary (package_row : PackageRow) (latest : LatestFields)
    (tracking_status package_status : Option JsonVal) (inserted_events : Nat)
    (changed : Bool) (source : String) : String :=
  let label :=
    match package_row.label with
    | some l => if l == "" then package_row.number else l
    | none => package_row.number
  let statusTail2 :=
    match tracking_status with
    | some v => if v.truthy then pyStr v else "unknown"
    | none => "unknown"
  let statusTail1 :=
    match package_status with
    | some v => if v.truthy then pyStr v else statusTail2
    | none => statusTail2
  let status :=
    match latest.last_status with
    | some s => if s == "" then statusTail1 else s
    | none => statusTail1
  let bits :=
    [label ++ ": " ++ status] ++
    (match latest.last_event_time_utc with
     | some t => if t == "" then [] else ["@ " ++ t]
     | none => []) ++
    (match latest.last_event_desc with
     | some d => if d == "" then [] else ["- " ++ d]
     | none => [])
  let summary := String.intercalate " " bits
  let summary :=
    if inserted_events != 0 && changed then
      summary ++ " (+" ++ toString inserted_events ++ " events)"
    else summary
  if source == "webhook" then "[webhook] " ++ summary else summary

/-- Source `apply_update_from_trackinfo`: merge one provider response
item or webhook `data` object into the store and report
`(changed, summary)`.  Returns `none` exactly where the source raises:
when no row with the package id exists (the later `prev[...]`
dereferences), when `extract_latest_fields` raises, or in the
no-payload-hash fallback loop (`prev.get` on an `sqlite3.Row` raises
`AttributeError` as soon as a truthy latest field is reached). -/
def apply_update_from_trackinfo (st : Store) (package_row : PackageRow)
    (response_item : JsonVal) (raw_payload_sha : Option String) (source : String)
    (now : String) : Option (Store × Bool × String) :=
  (extract_latest_fields (trackInfoOf response_item)).bind fun latest =>
  (st.packages.find? (fun r => r.id == package_row.id)).bind fun prev =>
  let changed :=
    match raw_payload_sha with
    | some s => s != "" && prev.last_payload_sha != some s
    | none => false
  if !truthyS raw_payload_sha &&
      (truthyS latest.last_event_time_utc || truthyS latest.last_event_desc ||
       truthyS latest.last_status || truthyS latest.last_sub_status) then
    none
  else
    let newRow := mergedPackageRow prev latest (response_item.get? "tracking_status")
      (response_item.get? "package_status") raw_payload_sha now
    let st1 := { st with packages := st.packages.map (fun (r : PackageRow) => if r.id == package_row.id then newRow else r) }
    let folded := (iter_events (trackInfoOf response_item)).foldl (insertEventStep package_row.id now)
      (st1.events, st1.nextEventId, 0)
    let st2 := { st1 with events := folded.1, nextEventId := folded.2.1 }
    some (st2, changed,
      updateSummary package_row latest (response_item.get? "tracking_status")
        (response_item.get? "package_status") folded.2.2 changed source)

/-! ## Webhook signatures and payload ingestion -/

/-- Source `compute_webhook_signature`:
`sha256(body.decode("utf-8") + "/" + secret)` in hex.  `none` models the
`UnicodeDecodeError` on undecodable bodies. -/
def compute_webhook_signature (raw_body : Bytes) (secret : String) : Option String :=
  (utf8Decode raw_body).map (fun txt => sha256hex (utf8Bytes (txt ++ "/" ++ secret)))

/-- Exact candidate header names tried first by `guess_signature_header`. -/
def signatureHeaderCandidates : List String :=
  ["signature", "Signature", "SIGNATURE", "sign", "Sign",
   "x-signature", "X-Signature", "x-17track-signature", "X-17Track-Signature"]

/-- ASCII lowering of a string (structural; Python `str.lower()` on
the ASCII range). -/
def strToLower (s : String) : String := String.mk (s.data.map Char.toLower)

/-- Character-count prefix of a string (Python slicing `s[:n]`). -/
def strTake (s : String) (n : Nat) : String := String.mk (s.data.take n)

/-- Dict lookup in a header map (first binding wins). -/
def headerGet (headers : List (String × String)) (k : String) : Option String :=
  (headers.find? (fun p => p.1 == k)).map (fun p => p.2)

/-- Source `guess_signature_header`: try the exact candidates in order,
then a case-insensitive scan (via a lowered dict in which a later
duplicate lowered key overwrites an earlier one).  Only truthy
(non-empty) values match.  Returns (header name, value). -/
def guess_signature_header (headers : List (String × String)) :
    Option (String × String) :=
  match signatureHeaderCandidates.findSome? (fun key =>
    match headerGet headers key with
    | some v => if v == "" then none else some (key, v)
    | none => none) with
  | some kv => some kv
  | none =>
      let lower := headers.foldl
        (fun (acc : List (String × (String × String))) p =>
          let lk := strToLower p.1
          if acc.any (fun q => q.1 == lk) then
            acc.map (fun q => if q.1 == lk then (lk, p) else q)
          else acc ++ [(lk, p)])
        []
      ["signature", "sign", "x-signature", "x-17track-signature"].findSome? (fun key =>
        match (lower.find? (fun q => q.1 == key)).map (fun q => q.2) with
        | some kv => if kv.2 == "" then none else some kv
        | none => none)

/-- The payload-row basics UPDATE of `ingest_payload` (event type and
extracted number/carrier written onto the row with the payload's
hash). -/
def payloadBasicsUpdate (st1 : Store) (payload : JsonVal) (payload_sha : String) : Store :=
  { st1 with
      payloads := st1.payloads.map (fun p =>
        if p.sha256 == payload_sha then
          { p with
              event_type := payload.get? "event"
              number :=
                match payload.get? "data" with
                | some (.obj df) => (JsonVal.obj df).get? "number"
                | _ => none
              carrier :=
                match payload.get? "data" with
                | some (.obj df) => (JsonVal.obj df).get? "carrier"
                | _ => none }
        else p) }

/-- The ensure-package-exists step of `ingest_payload`: take the newest
matching row or create one via `upsert_package`. -/
def ensurePackage (st2 : Store) (number_s : String) (carrier_i : Int)
    (param tag : String) (envLang : Option String) (now : String) : Store × PackageRow :=
  match findByKeyDesc st2.packages number_s carrier_i param with
  | some p => (st2, p)
  | none =>
      upsert_package st2 now number_s carrier_i param none (some tag)
        (some ((pyOrS envLang (some "en")).getD "en")) (some true) envLang

/-- Everything `ingest_payload` does after the payload row is stored
and the body parsed: update the payload row basics, ensure the package
row, merge via `apply_update_from_trackinfo`, and apply the signature
`annotate` prefix to the summary of the merge path only (the early
no-data-object return of the source is before the annotation code). -/
def ingest_obj (st1 : Store) (payload : JsonVal) (df : List (String × JsonVal))
    (payload_sha : String) (source : String) (envLang : Option String) (now : String)
    (annotate : String → String) : Store × Except String (Bool × String) :=
  match pyInt (pyOrV (match (JsonVal.obj df).get? "carrier" with
                      | some v => v
                      | none => .null) (.num 0)) with
  | none => (payloadBasicsUpdate st1 payload payload_sha, .error "TypeError: int() on carrier")
  | some carrier_i =>
      match apply_update_from_trackinfo
          (ensurePackage (payloadBasicsUpdate st1 payload payload_sha)
            (normalise_number (pyStrOrEmpty ((JsonVal.obj df).get? "number"))) carrier_i
            (pyStrOrEmpty ((JsonVal.obj df).get? "param"))
            (pyStrOrEmpty ((JsonVal.obj df).get? "tag")) envLang now).1
          (ensurePackage (payloadBasicsUpdate st1 payload payload_sha)
            (normalise_number (pyStrOrEmpty ((JsonVal.obj df).get? "number"))) carrier_i
            (pyStrOrEmpty ((JsonVal.obj df).get? "param"))
            (pyStrOrEmpty ((JsonVal.obj df).get? "tag")) envLang now).2
          (JsonVal.obj df) (some payload_sha) source now with
      | none =>
          ((ensurePackage (payloadBasicsUpdate st1 payload payload_sha)
            (normalise_number (pyStrOrEmpty ((JsonVal.obj df).get? "number"))) carrier_i
            (pyStrOrEmpty ((JsonVal.obj df).get? "param"))
            (pyStrOrEmpty ((JsonVal.obj df).get? "tag")) envLang now).1,
           .error "AttributeError in apply_update_from_trackinfo")
      | some (st4, changed, summary) => (st4, .ok (changed, annotate summary))

/-- Dispatch on the shape of the top-level `data` field. -/
def ingest_parsed (st1 : Store) (payload : JsonVal) (payload_sha : String) (source : String)
    (envLang : Option String) (now : String) (annotate : String → String) :
    Store × Except String (Bool × String) :=
  match payload.get? "data" with
  | some (.obj df) => ingest_obj st1 payload df payload_sha source envLang now annotate
  | _ => (payloadBasicsUpdate st1 payload payload_sha,
          .ok (false, "Stored payload " ++ payload_sha ++ " (no data object)"))

/-- Everything `ingest_payload` does after the payload row is stored:
parse the body then run `ingest_parsed` on the decoded value. -/
def ingest_tail (st1 : Store) (raw_body : Bytes) (payload_sha : String) (source : String)
    (envLang : Option String) (now : String) (annotate : String → String) :
    Store × Except String (Bool × String) :=
  match jsonLoads raw_body with
  | none => (st1, .error "Invalid JSON payload")
  | some payload => ingest_parsed st1 payload payload_sha source envLang now annotate

/-- Value of the guessed signature header. -/
def sigValueOf (headers : List (String × String)) : Option String :=
  (guess_signature_header headers).map (fun p => p.2)

/-- Name of the guessed signature header. -/
def sigHeaderNameOf (headers : List (String × String)) : Option String :=
  (guess_signature_header headers).map (fun p => p.1)

/-- Source condition `if secret and sig_value:` gating verification. -/
def verifyFlag (secret : Option String) (headers : List (String × String)) : Bool :=
  truthyS secret && truthyS (sigValueOf headers)

/-- Expected signature, computed only when verification happens
(`none` when skipped, and also when the body is undecodable — in that
case the source raises, handled in `ingest_payload`). -/
def expectedSig (secret : Option String) (headers : List (String × String))
    (raw_body : Bytes) : Option String :=
  if verifyFlag secret headers then
    match secret, sigValueOf headers with
    | some sec, some _ => compute_webhook_signature raw_body sec
    | _, _ => none
  else none

/-- The `sig_valid` tri-state: `none` when verification was skipped,
otherwise a case-insensitive comparison of expected and provided. -/
def sigValidOf (secret : Option String) (headers : List (String × String))
    (raw_body : Bytes) : Option Bool :=
  match expectedSig secret headers raw_body, sigValueOf headers with
  | some expected, some sv => some (strToLower expected == strToLower sv)
  | _, _ => none

/-- The summary annotation applied on the merge path of
`ingest_payload`. -/
def annotateSummary (secret : Option String) (headers : List (String × String))
    (raw_body : Bytes) : String → String := fun summary =>
  if verifyFlag secret headers then
    "[" ++ (if (sigValidOf secret headers raw_body).getD false then "valid" else "INVALID") ++
      " signature via " ++ (sigHeaderNameOf headers).getD "" ++ "] " ++ summary
  else if truthyS secret && !truthyS (sigValueOf headers) then
    "[no signature header] " ++ summary
  else summary

/-- Source `ingest_payload`: verify the signature when a secret and a
signature header are both present (an undecodable body then raises
`UnicodeDecodeError` before anything is stored), store the raw payload,
then run the rest of the pipeline (`ingest_tail`).  The returned
`Except` carries `Track17Error`/crash messages; the store on the left
keeps whatever had already been committed when the source raises. -/
def ingest_payload (st : Store) (raw_body : Bytes) (headers : List (String × String))
    (source : String) (secret : Option String) (envLang : Option String) (now : String) :
    Store × Except String (Bool × String) :=
  if verifyFlag secret headers && (expectedSig secret headers raw_body).isNone then
    (st, .error "UnicodeDecodeError: cannot decode webhook body")
  else
    let sp := store_payload st now raw_body source none none none (sigValueOf headers)
      (sigValidOf secret headers raw_body)
    ingest_tail sp.1 raw_body sp.2 source envLang now (annotateSummary secret headers raw_body)

/-! ## The add command (registration with carrier correction) -/

/-- Arguments of `track17 add` that reach the database logic. -/
structure AddArgs where
  number : String
  carrier : Option Int
  param : Option String
  label : Option String
  tag : Option String
  lang : Option String
deriving Repr, DecidableEq

/-- Source `_parse_gettrackinfo_response_items`: check the top-level
code and split `data` into accepted/rejected item lists. -/
def parse_response_items (resp : JsonVal) : Except String (List JsonVal × List JsonVal) :=
  let code := resp.get? "code"
  if !(code == some (.num 0) || code == some (.str "0")) then
    .error "17TRACK API error code"
  else
    match pyOrV (match resp.get? "data" with | some v => v | none => .null) (.obj []) with
    | .obj df =>
        let dataO := JsonVal.obj df
        let accepted :=
          match pyOrV (match dataO.get? "accepted" with | some v => v | none => .null) (.arr []) with
          | .arr xs => xs
          | _ => []
        let rejected :=
          match pyOrV (match dataO.get? "rejected" with | some v => v | none => .null) (.arr []) with
          | .arr xs => xs
          | _ => []
        .ok (accepted, rejected)
    | _ => .error "AttributeError: response data is not a dict"

/-- The tail of the add command after the provider resolved a carrier:
archive-and-supersede when a row for the resolved key already exists,
rename the registered row in place otherwise, and mark
`api_registered` when the carrier did not change. -/
def cmd_add_resolved (st1 : Store) (row : PackageRow) (number param : String)
    (label : Option String) (tag lang : String) (envLang : Option String)
    (now : String) (new_carrier : Int) : Store :=
  if row.carrier != new_carrier then
    match findByKey st1.packages number new_carrier param with
    | some existing =>
        let up2 := upsert_package st1 now number new_carrier param
          (pyOrS label existing.label)
          (some (if tag == "" then existing.tag else tag))
          (some (if lang == "" then existing.lang else lang))
          (some true) envLang
        { up2.1 with
            packages := up2.1.packages.map (fun (r : PackageRow) =>
              if r.id == row.id then { r with archived := true, updated_at := now }
              else r) }
    | none =>
        { st1 with
            packages := st1.packages.map (fun (r : PackageRow) =>
              if r.id == row.id then
                { r with carrier := new_carrier, api_registered := true,
                         updated_at := now }
              else r) }
  else
    { st1 with
        packages := st1.packages.map (fun (r : PackageRow) =>
          if r.id == row.id then
            { r with api_registered := true, updated_at := now }
          else r) }

/-- Source `cmd_add`, database portion: normalise the arguments, upsert
the (number, carrier, param) row unregistered, then apply the provider
register response `resp` via `cmd_add_resolved`; a rejected item
raises. -/
def cmd_add_db (st0 : Store) (a : AddArgs) (resp : JsonVal) (envLang : Option String)
    (now : String) : Except String Store :=
  let number := normalise_number a.number
  let carrier : Int := match a.carrier with | some c => c | none => 0
  let param := (a.param.getD "")
  let label := a.label
  let labelTag :=
    match label with
    | some l => if l == "" then "" else strTake l 32
    | none => ""
  let tag :=
    match a.tag with
    | some t => if t == "" then labelTag else t
    | none => labelTag
  let lang := (pyOrS a.lang (pyOrS envLang (some "en"))).getD "en"
  let up1 := upsert_package st0 now number carrier param label (some tag) (some lang)
    (some false) envLang
  let st1 := up1.1
  let row := up1.2
  match parse_response_items resp with
  | .error e => .error e
  | .ok (accepted, rejected) =>
    if !rejected.isEmpty then .error "Register failed"
    else
      match accepted with
      | [] => .error "IndexError: accepted[0]"
      | acc0 :: _ =>
        let rawNew :=
          pyOrJ (acc0.get? "carrier") (if carrier != 0 then some (.num carrier) else none)
        let newCarrier? :=
          match rawNew with
          | some v => pyInt v
          | none => some 0
        match newCarrier? with
        | none => .error "int conversion on resolved carrier"
        | some new_carrier =>
          .ok (cmd_add_resolved st1 row number param label tag lang envLang now new_carrier)

/-! ## Filenames, the spool directory and the inbox processor -/

/-- Whether `suf` is a suffix of `s` (so `*.json` globbing is
`strEndsWith name ".json"`). -/
def strEndsWith (s suf : String) : Bool := suf.data.isSuffixOf s.data

/-- Split a character list on dots (structural equivalent of Python
`str.split(".")`). -/
def splitDots (cs : List Char) : List (List Char) :=
  cs.foldr (fun c acc =>
    match acc with
    | [] => if c == Char.ofNat 46 then [[], []] else [[c]]
    | g :: gs => if c == Char.ofNat 46 then [] :: g :: gs else (c :: g) :: gs) [[]]

/-- Split a filename at its last dot: (pathlib `stem`, suffix). -/
def splitLastDot (n : String) : String × String :=
  let parts := splitDots n.data
  match parts with
  | [] => (n, "")
  | [_] => (n, "")
  | _ => (String.mk (List.intercalate [Char.ofNat 46] parts.dropLast),
          "." ++ String.mk (parts.getLastD []))

/-- Pathlib `stem`. -/
def str_stem (n : String) : String := (splitLastDot n).1

/-- Pathlib `with_suffix`: replace the last suffix. -/
def withSuffix (n : String) (suf : String) : String := str_stem n ++ suf

/-- Lexicographic code-point order on char lists (structural model of
Python string comparison). -/
def lexLe : List Char → List Char → Bool
  | [], _ => true
  | _ :: _, [] => false
  | x :: xs, y :: ys =>
      if x.toNat < y.toNat then true
      else if x.toNat == y.toNat then lexLe xs ys else false

/-- Boolean string order used by Python `sorted` on filenames. -/
def strLeB (a b : String) : Bool := lexLe a.data b.data

/-- Insert into a sorted name list. -/
def insertSorted (x : String) : List String → List String
  | [] => [x]
  | y :: ys => if strLeB x y then x :: y :: ys else y :: insertSorted x ys

/-- Structural insertion sort modelling Python `sorted` on names. -/
def sortNames (l : List String) : List String := l.foldr insertSorted []

/-- Overwriting filesystem write (`write_bytes` / `write_text`). -/
def fsWrite (files : List (String × Bytes)) (n : String) (c : Bytes) :
    List (String × Bytes) :=
  if files.any (fun p => p.1 == n) then
    files.map (fun p => if p.1 == n then (n, c) else p)
  else files ++ [(n, c)]

/-- Sidecar contents: `json.dumps(headers)` as UTF-8. -/
def headersDumpBytes (headers : List (String × String)) : Bytes :=
  utf8Bytes (jsonDump (.obj (headers.map (fun p => (p.1, JsonVal.str p.2)))))

/-- The spooled payload filename: timestamp plus a short content hash. -/
def spoolFname (raw_body : Bytes) (ts : String) : String :=
  ts ++ "_" ++ strTake (sha256hex raw_body) 16 ++ ".json"

/-- Sorted names matching the `*.json` glob (note that the glob matches
the `.headers.json` sidecars too). -/
def sortedJsonNames (files : List (String × Bytes)) : List String :=
  sortNames ((files.map (fun p => p.1)).filter (fun n => strEndsWith n ".json"))

/-- Deletion of one evicted spool file and its sidecar if present. -/
def evictStep (fs : List (String × Bytes)) (old : String) : List (String × Bytes) :=
  let fs2 := fs.filter (fun p => p.1 != old)
  let side := withSuffix old ".headers.json"
  if fs2.any (fun p => p.1 == side) then fs2.filter (fun p => p.1 != side) else fs2

/-- Deletion pass over the evicted names. -/
def deleteOld (files : List (String × Bytes)) (olds : List String) :
    List (String × Bytes) :=
  olds.foldl evictStep files

/-- Source `WebhookServer.spool`: derive the payload filename from the
timestamp and a short content hash; never overwrite an existing name;
when the directory holds at least `max_files` entries matching `*.json`,
delete the `len - max_files + 1` lexicographically smallest such names
(and for each, its sidecar if still present); finally write the payload
and its headers sidecar. -/
def spool (files : List (String × Bytes)) (raw_body : Bytes)
    (headers : List (String × String)) (ts : String) (max_files : Nat) :
    List (String × Bytes) :=
  let fname := spoolFname raw_body ts
  if files.any (fun p => p.1 == fname) then files
  else
    let existing := sortedJsonNames files
    let files1 :=
      if existing.length ≥ max_files then
        deleteOld files (existing.take (existing.length - max_files + 1))
      else files
    fsWrite (fsWrite files1 fname raw_body)
      (str_stem fname ++ ".headers.json") (headersDumpBytes headers)

/-- Inbox/processed directories as the inbox processor sees them. -/
structure FsState where
  inbox : List (String × Bytes)
  processed : List (String × Bytes)
deriving Repr, DecidableEq

/-- Accumulated state of one `process-inbox` run. -/
structure InboxRun where
  st : Store
  fs : FsState
  changed_count : Nat
  summaries : List String
  failures : List String
  crashed : Bool
deriving Repr, DecidableEq

/-- Move one file from inbox to processed (no-op when absent). -/
def moveToProcessed (fs : FsState) (n : String) : FsState :=
  match fs.inbox.find? (fun p => p.1 == n) with
  | some pr =>
      { inbox := fs.inbox.filter (fun p => p.1 != n), processed := fs.processed ++ [pr] }
  | none => fs

/-- Headers recovered from a payload's `.headers.json` sidecar (empty
when the sidecar is missing or does not hold a JSON dict of strings). -/
def sidecarHeaders (inbox : List (String × Bytes)) (fname : String) : List (String × String) :=
  match inbox.find? (fun p => p.1 == withSuffix fname ".headers.json") with
  | some sp =>
      match jsonLoads sp.2 with
      | some (.obj fields) =>
          fields.filterMap (fun kv =>
            match kv.2 with
            | .str s => some (kv.1, s)
            | _ => none)
      | _ => []
  | none => []

/-- Source `cmd_process_inbox` loop body for one globbed filename: read
the payload (a vanished file would raise outside the `try`, flagged as
`crashed`; unreachable because a sidecar always sorts before its
payload), parse the optional headers sidecar, ingest, and on success
move payload and sidecar to the processed directory; an ingest failure
is recorded and processing continues. -/
def process_file (secret envLang : Option String) (now : String)
    (acc : InboxRun) (fname : String) : InboxRun :=
  if acc.crashed then acc
  else
    match acc.fs.inbox.find? (fun p => p.1 == fname) with
    | none => { acc with crashed := true }
    | some pr =>
        let raw := pr.2
        let sidecar := withSuffix fname ".headers.json"
        let headers := sidecarHeaders acc.fs.inbox fname
        let r := ingest_payload acc.st raw headers "webhook" secret envLang now
        match r.2 with
        | .ok (changed, summary) =>
            let fs1 := moveToProcessed acc.fs fname
            let fs2 :=
              if fs1.inbox.any (fun p => p.1 == sidecar) then moveToProcessed fs1 sidecar
              else fs1
            { acc with
                st := r.1
                fs := fs2
                changed_count := acc.changed_count + (if changed then 1 else 0)
                summaries := acc.summaries ++ (if changed then [summary] else []) }
        | .error e =>
            { acc with
                st := r.1
                failures := acc.failures ++ ["Failed to process " ++ fname ++ ": " ++ e] }

/-- Fold of `process_file` over an explicit filename list. -/
def process_inbox_list (secret envLang : Option String) (now : String)
    (init : InboxRun) (files : List String) : InboxRun :=
  files.foldl (process_file secret envLang now) init

/-- Source `cmd_process_inbox`: process every `*.json` file of the inbox
in sorted filename order. -/
def process_inbox (st : Store) (fs : FsState) (secret envLang : Option String)
    (now : String) : InboxRun :=
  process_inbox_list secret envLang now ⟨st, fs, 0, [], [], false⟩
    (sortNames ((fs.inbox.map (fun p => p.1)).filter (fun n => strEndsWith n ".json")))

/-! ## The HTTP client -/

/-- One network interaction as `urllib.request.urlopen` resolves it. -/
inductive NetOutcome where
  | success (body : Bytes)
  | httpError (code : Nat) (body : Bytes)
  | urlError (msg : String)
deriving Repr, DecidableEq

/-- Outcome of `_http_json_post`: a decoded JSON document, or one of the
three `Track17Error` raises (HTTP error with status and body prefix,
network-level failure, undecodable body). -/
inductive PostResult where
  | ok (v : JsonVal)
  | raisedHttp (code : Nat) (bodyHead : Bytes)
  | raisedNetwork (msg : String)
  | raisedParse (bodyHead : Bytes)
deriving Repr, DecidableEq

/-- Source `_http_json_post`.  The environment is a map from attempt
index to network outcome; the single `urlopen` call inside the one
`try` block consumes attempt 0 and the second component records how
many attempts were made (always exactly one — the source contains no
retry loop, no sleep and no backoff). -/
def http_json_post (net : Nat → NetOutcome) : PostResult × Nat :=
  match net 0 with
  | .success body =>
      match jsonLoads body with
      | some v => (.ok v, 1)
      | none => (.raisedParse (body.take 500), 1)
  | .httpError code body => (.raisedHttp code (body.take 500), 1)
  | .urlError msg => (.raisedNetwork msg, 1)

/-! ## Supporting lemmas -/

/-- Number of payload rows carrying a given content hash. -/
def countPayloadSha (ps : List PayloadRow) (sha : String) : Nat :=
  (ps.filter (fun p => p.sha256 == sha)).length

theorem any_sha_eq_count (ps : List PayloadRow) (sha : String) :
    (ps.any (fun p => p.sha256 == sha)) = (countPayloadSha ps sha != 0) := by
  induction ps with
  | nil => rfl
  | cons p t ih =>
      by_cases h : p.sha256 == sha
      · simp [countPayloadSha, List.filter_cons, h]
      · simp only [List.any_cons, h, Bool.false_or, ih, countPayloadSha, List.filter_cons]
        simp [h]

theorem countPayloadSha_append (ps qs : List PayloadRow) (sha : String) :
    countPayloadSha (ps ++ qs) sha = countPayloadSha ps sha + countPayloadSha qs sha := by
  simp [countPayloadSha, List.filter_append]

/-! ## Claim C1: retry/backoff of the HTTP client -/

/-- A network in which attempt 0 returns HTTP 500 and every later
attempt would succeed. -/
def c1net : Nat → NetOutcome := fun i =>
  if i = 0 then .httpError 500 (utf8Bytes "oops") else .success (utf8Bytes "0")

/-- C1, counterexample: on a network whose first answer is HTTP 500
(and which would succeed if retried), `_http_json_post` makes exactly
one attempt — it is not retried — and raises `Track17Error` instead of
returning the last observed status/payload to the caller. -/
theorem c1_counterexample :
    (http_json_post c1net).1 = PostResult.raisedHttp 500 (utf8Bytes "oops") ∧
    (http_json_post c1net).2 = 1 ∧ ¬ 2 ≤ (http_json_post c1net).2 := by
  decide

/-- C1 (amended): `_http_json_post` contains no retry loop at all — it
makes exactly one attempt, and an HTTP error status (500/503 included)
raises `Track17Error` carrying the status and a 500-byte body prefix,
while a network-level failure raises `Track17Error` with the error
message; nothing is returned to the caller on failure. -/
theorem c1_no_retry_single_attempt (net : Nat → NetOutcome) :
    (http_json_post net).2 = 1 ∧
    (∀ code body, net 0 = NetOutcome.httpError code body →
      (http_json_post net).1 = PostResult.raisedHttp code (body.take 500)) ∧
    (∀ msg, net 0 = NetOutcome.urlError msg →
      (http_json_post net).1 = PostResult.raisedNetwork msg) := by
  refine ⟨?_, ?_, ?_⟩
  · cases h : net 0 with
    | success body => cases hj : jsonLoads body <;> simp [http_json_post, h, hj]
    | httpError code body => simp [http_json_post, h]
    | urlError msg => simp [http_json_post, h]
  · intro code body h
    unfold http_json_post
    rw [h]
  · intro msg h
    unfold http_json_post
    rw [h]

/-- C1 witness: the amended statement evaluated on the concrete
500-then-success network. -/
theorem c1_no_retry_single_attempt_witness :
    (http_json_post c1net).2 = 1 ∧
    (http_json_post c1net).1 = PostResult.raisedHttp 500 ((utf8Bytes "oops").take 500) :=
  ⟨(c1_no_retry_single_attempt c1net).1,
   (c1_no_retry_single_attempt c1net).2.1 500 (utf8Bytes "oops") (by decide)⟩

/-! ## Claim C6: idempotent payload ingestion -/

theorem store_payload_hit (st : Store) (now : String) (raw : Bytes) (src : String)
    (et n c : Option JsonVal) (sg : Option String) (sv : Option Bool)
    (h : (st.payloads.any fun p => p.sha256 == sha256hex raw) = true) :
    store_payload st now raw src et n c sg sv = (st, sha256hex raw) := by
  rw [show store_payload st now raw src et n c sg sv =
      (if (st.payloads.any fun p => p.sha256 == sha256hex raw) = true then (st, sha256hex raw)
      else
        ({ st with
            payloads := st.payloads ++
              [{ id := st.nextPayloadId, received_at := now, source := src, event_type := et,
                 number := n, carrier := c, signature := sg, signature_valid := sv,
                 sha256 := sha256hex raw, raw_json := utf8DecodeReplace raw }]
            nextPayloadId := st.nextPayloadId + 1 }, sha256hex raw)) from rfl]
  rw [if_pos h]

theorem store_payload_miss (st : Store) (now : String) (raw : Bytes) (src : String)
    (et n c : Option JsonVal) (sg : Option String) (sv : Option Bool)
    (h : (st.payloads.any fun p => p.sha256 == sha256hex raw) = false) :
    store_payload st now raw src et n c sg sv =
      ({ st with
          payloads := st.payloads ++
            [{ id := st.nextPayloadId, received_at := now, source := src, event_type := et,
               number := n, carrier := c, signature := sg, signature_valid := sv,
               sha256 := sha256hex raw, raw_json := utf8DecodeReplace raw }]
          nextPayloadId := st.nextPayloadId + 1 }, sha256hex raw) := by
  rw [show store_payload st now raw src et n c sg sv =
      (if (st.payloads.any fun p => p.sha256 == sha256hex raw) = true then (st, sha256hex raw)
      else
        ({ st with
            payloads := st.payloads ++
              [{ id := st.nextPayloadId, received_at := now, source := src, event_type := et,
                 number := n, carrier := c, signature := sg, signature_valid := sv,
                 sha256 := sha256hex raw, raw_json := utf8DecodeReplace raw }]
            nextPayloadId := st.nextPayloadId + 1 }, sha256hex raw)) from rfl]
  rw [if_neg (by rw [h]; exact Bool.false_ne_true)]

/-- C6: storing byte-identical raw payloads twice stores exactly one
row in the payloads table, keyed by the SHA-256 of the raw bytes; the
second insertion hits the unique content hash, is treated as a no-op
(the store is unchanged and the hash is still returned normally), and
is never reported as an error. -/
theorem c6_payload_ingestion_idempotent
    (st : Store) (raw : Bytes) (now1 now2 source1 source2 : String)
    (et1 et2 n1 n2 ca1 ca2 : Option JsonVal)
    (sg1 sg2 : Option String) (sv1 sv2 : Option Bool)
    (h0 : countPayloadSha st.payloads (sha256hex raw) = 0) :
    countPayloadSha (store_payload st now1 raw source1 et1 n1 ca1 sg1 sv1).1.payloads
      (sha256hex raw) = 1 ∧
    (store_payload (store_payload st now1 raw source1 et1 n1 ca1 sg1 sv1).1
        now2 raw source2 et2 n2 ca2 sg2 sv2).1 =
      (store_payload st now1 raw source1 et1 n1 ca1 sg1 sv1).1 ∧
    (store_payload st now1 raw source1 et1 n1 ca1 sg1 sv1).2 = sha256hex raw ∧
    (store_payload (store_payload st now1 raw source1 et1 n1 ca1 sg1 sv1).1
        now2 raw source2 et2 n2 ca2 sg2 sv2).2 = sha256hex raw := by
  have hany : (st.payloads.any (fun p => p.sha256 == sha256hex raw)) = false := by
    rw [any_sha_eq_count, h0]
    rfl
  have h1 := store_payload_miss st now1 raw source1 et1 n1 ca1 sg1 sv1 hany
  have hc1 : countPayloadSha
      (store_payload st now1 raw source1 et1 n1 ca1 sg1 sv1).1.payloads (sha256hex raw) = 1 := by
    rw [h1, countPayloadSha_append, h0]
    simp [countPayloadSha]
  have hany2 : ((store_payload st now1 raw source1 et1 n1 ca1 sg1 sv1).1.payloads.any
      (fun p => p.sha256 == sha256hex raw)) = true := by
    rw [any_sha_eq_count, hc1]
    rfl
  have h2 := store_payload_hit (store_payload st now1 raw source1 et1 n1 ca1 sg1 sv1).1
    now2 raw source2 et2 n2 ca2 sg2 sv2 hany2
  refine ⟨hc1, ?_, ?_, ?_⟩
  · rw [h2]
  · rw [h1]
  · rw [h2]

/-- Concrete data for the C6 witness. -/
def c6raw : Bytes := utf8Bytes (jsonDump (.obj [("event", .str "X")]))

/-- C6 witness: the idempotence statement evaluated on a concrete
payload over the empty store. -/
theorem c6_payload_ingestion_idempotent_witness :
    countPayloadSha Store.empty.payloads (sha256hex c6raw) = 0 ∧
    (countPayloadSha (store_payload Store.empty "t1" c6raw "webhook" none none none none none).1.payloads
        (sha256hex c6raw) = 1 ∧
     (store_payload (store_payload Store.empty "t1" c6raw "webhook" none none none none none).1
        "t2" c6raw "webhook" none none none none none).1 =
       (store_payload Store.empty "t1" c6raw "webhook" none none none none none).1 ∧
     (store_payload Store.empty "t1" c6raw "webhook" none none none none none).2 = sha256hex c6raw ∧
     (store_payload (store_payload Store.empty "t1" c6raw "webhook" none none none none none).1
        "t2" c6raw "webhook" none none none none none).2 = sha256hex c6raw) :=
  ⟨by decide,
   c6_payload_ingestion_idempotent Store.empty c6raw "t1" "t2" "webhook" "webhook"
     none none none none none none none none none none (by decide)⟩

/-! ## Claim C2: the merge never regresses a latest field -/

theorem pyOrS_props (l p : Option String) :
    (l = none → pyOrS l p = p) ∧ (pyOrS l p ≠ p → l ≠ none) ∧ (p ≠ none → pyOrS l p ≠ none) := by
  refine ⟨?_, ?_, ?_⟩
  · intro h; subst h; rfl
  · intro h hl; subst hl; exact h rfl
  · intro hp
    cases l with
    | none => simpa [pyOrS]
    | some s =>
        by_cases hs : s == ""
        · simpa [pyOrS, hs]
        · simp [pyOrS, hs]

theorem find_update_by_id (ps : List PackageRow) (i : Nat) (nr : PackageRow)
    (hnr : nr.id = i) (prev : PackageRow)
    (h : ps.find? (fun r => r.id == i) = some prev) :
    (ps.map (fun r => if r.id == i then nr else r)).find? (fun r => r.id == i) = some nr := by
  induction ps with
  | nil => simp [List.find?] at h
  | cons a t ih =>
      by_cases ha : a.id = i
      · have h1 : (if a.id == i then nr else a) = nr := by simp [ha]
        simp only [List.map_cons, h1]
        have h2 : (nr.id == i) = true := by simp [hnr]
        simp [List.find?, h2]
      · have h1 : (if a.id == i then nr else a) = a := by simp [ha]
        simp only [List.map_cons, h1]
        have hpa : (a.id == i) = false := by simp [ha]
        simp only [List.find?, hpa]
        apply ih
        simpa [List.find?, hpa] using h

theorem apply_update_success_shape
    (st : Store) (pkg : PackageRow) (item : JsonVal) (sha : String) (src now : String)
    (latest : LatestFields) (prev : PackageRow)
    (hex : extract_latest_fields (trackInfoOf item) = some latest)
    (hfind : st.packages.find? (fun r => r.id == pkg.id) = some prev)
    (hsha : sha ≠ "") :
    apply_update_from_trackinfo st pkg item (some sha) src now =
      some
        ({ st with
            packages := st.packages.map (fun (r : PackageRow) =>
              if r.id == pkg.id then
                mergedPackageRow prev latest (item.get? "tracking_status")
                  (item.get? "package_status") (some sha) now
              else r)
            events := ((iter_events (trackInfoOf item)).foldl (insertEventStep pkg.id now)
              (st.events, st.nextEventId, 0)).1
            nextEventId := ((iter_events (trackInfoOf item)).foldl (insertEventStep pkg.id now)
              (st.events, st.nextEventId, 0)).2.1 },
         (sha != "" && prev.last_payload_sha != some sha),
         updateSummary pkg latest (item.get? "tracking_status") (item.get? "package_status")
           ((iter_events (trackInfoOf item)).foldl (insertEventStep pkg.id now)
              (st.events, st.nextEventId, 0)).2.2
           (sha != "" && prev.last_payload_sha != some sha) src) := by
  have ht : truthyS (some sha) = true := by
    simp [truthyS, bne_iff_ne]
    exact hsha
  simp only [apply_update_from_trackinfo, hex, Option.some_bind, hfind, ht, Bool.not_true,
    Bool.false_and, Bool.false_eq_true, if_false]

/-- C2: in the reconciliation merge, each of the five "latest" fields
(last_status, last_sub_status, last_event_time_utc, last_event_desc,
last_location) is replaced only when the incoming item extracts a
present value for it; a field extracted as absent leaves the stored
value unchanged, and a non-null stored value is never overwritten with
an absence. -/
theorem c2_merge_fill_if_present
    (st : Store) (pkg : PackageRow) (item : JsonVal) (sha : String) (src now : String)
    (latest : LatestFields) (prev : PackageRow) (st' : Store) (changed : Bool) (summary : String)
    (hex : extract_latest_fields (trackInfoOf item) = some latest)
    (hfind : st.packages.find? (fun r => r.id == pkg.id) = some prev)
    (hsha : sha ≠ "")
    (happly : apply_update_from_trackinfo st pkg item (some sha) src now =
      some (st', changed, summary)) :
    ∃ prev', st'.packages.find? (fun r => r.id == pkg.id) = some prev' ∧
      ((latest.last_status = none → prev'.last_status = prev.last_status) ∧
       (prev'.last_status ≠ prev.last_status → latest.last_status ≠ none) ∧
       (prev.last_status ≠ none → prev'.last_status ≠ none)) ∧
      ((latest.last_sub_status = none → prev'.last_sub_status = prev.last_sub_status) ∧
       (prev'.last_sub_status ≠ prev.last_sub_status → latest.last_sub_status ≠ none) ∧
       (prev.last_sub_status ≠ none → prev'.last_sub_status ≠ none)) ∧
      ((latest.last_event_time_utc = none → prev'.last_event_time_utc = prev.last_event_time_utc) ∧
       (prev'.last_event_time_utc ≠ prev.last_event_time_utc → latest.last_event_time_utc ≠ none) ∧
       (prev.last_event_time_utc ≠ none → prev'.last_event_time_utc ≠ none)) ∧
      ((latest.last_event_desc = none → prev'.last_event_desc = prev.last_event_desc) ∧
       (prev'.last_event_desc ≠ prev.last_event_desc → latest.last_event_desc ≠ none) ∧
       (prev.last_event_desc ≠ none → prev'.last_event_desc ≠ none)) ∧
      ((latest.last_location = none → prev'.last_location = prev.last_location) ∧
       (prev'.last_location ≠ prev.last_location → latest.last_location ≠ none) ∧
       (prev.last_location ≠ none → prev'.last_location ≠ none)) := by
  have hshape := apply_update_success_shape st pkg item sha src now latest prev hex hfind hsha
  rw [happly] at hshape
  simp only [Option.some.injEq, Prod.mk.injEq] at hshape
  obtain ⟨hst, hrest⟩ := hshape
  have hprevid : prev.id = pkg.id := by
    have h := List.find?_some hfind
    simpa using h
  have hnrid : (mergedPackageRow prev latest (item.get? "tracking_status")
      (item.get? "package_status") (some sha) now).id = pkg.id := by
    simpa [mergedPackageRow] using hprevid
  refine ⟨mergedPackageRow prev latest (item.get? "tracking_status")
      (item.get? "package_status") (some sha) now, ?_, ?_, ?_, ?_, ?_, ?_⟩
  · rw [hst]
    exact find_update_by_id st.packages pkg.id _ hnrid prev hfind
  · exact pyOrS_props latest.last_status prev.last_status
  · exact pyOrS_props latest.last_sub_status prev.last_sub_status
  · exact pyOrS_props latest.last_event_time_utc prev.last_event_time_utc
  · exact pyOrS_props latest.last_event_desc prev.last_event_desc
  · exact pyOrS_props latest.last_location prev.last_location

/-- Concrete package row for the C2 witness (a known stored
`last_event_desc`, as in the spec's example). -/
def c2pkg : PackageRow :=
  ⟨1, "t0", "t0", some "L", "RR1", 7, "", "", "en", true, none, none, some "InTransit",
   none, none, some "Departed facility", none, none, some "prevsha", false⟩

/-- Concrete store for the C2 witness. -/
def c2st : Store := { Store.empty with packages := [c2pkg], nextPackageId := 2 }

/-- Concrete response item for the C2 witness: no `track_info`, so all
five latest fields are extracted as absent. -/
def c2item : JsonVal := .obj [("number", .str "RR1")]

/-- All-absent extraction result for the C2 witness. -/
def c2latest : LatestFields := ⟨none, none, none, none, none⟩

/-- Evaluated apply result for the C2 witness. -/
def c2out : Store × Bool × String :=
  (apply_update_from_trackinfo c2st c2pkg c2item (some "s") "poll" "t1").getD
    (Store.empty, false, "")

/-- C2 witness: the merge statement evaluated on a concrete store in
which `last_event_desc` is "Departed facility" and an update extracting
no latest fields. -/
theorem c2_merge_fill_if_present_witness :
    extract_latest_fields (trackInfoOf c2item) = some c2latest ∧
    c2st.packages.find? (fun r => r.id == c2pkg.id) = some c2pkg ∧
    ("s" : String) ≠ "" ∧
    (∃ prev', c2out.1.packages.find? (fun r => r.id == c2pkg.id) = some prev' ∧
      ((c2latest.last_status = none → prev'.last_status = c2pkg.last_status) ∧
       (prev'.last_status ≠ c2pkg.last_status → c2latest.last_status ≠ none) ∧
       (c2pkg.last_status ≠ none → prev'.last_status ≠ none)) ∧
      ((c2latest.last_sub_status = none → prev'.last_sub_status = c2pkg.last_sub_status) ∧
       (prev'.last_sub_status ≠ c2pkg.last_sub_status → c2latest.last_sub_status ≠ none) ∧
       (c2pkg.last_sub_status ≠ none → prev'.last_sub_status ≠ none)) ∧
      ((c2latest.last_event_time_utc = none → prev'.last_event_time_utc = c2pkg.last_event_time_utc) ∧
       (prev'.last_event_time_utc ≠ c2pkg.last_event_time_utc → c2latest.last_event_time_utc ≠ none) ∧
       (c2pkg.last_event_time_utc ≠ none → prev'.last_event_time_utc ≠ none)) ∧
      ((c2latest.last_event_desc = none → prev'.last_event_desc = c2pkg.last_event_desc) ∧
       (prev'.last_event_desc ≠ c2pkg.last_event_desc → c2latest.last_event_desc ≠ none) ∧
       (c2pkg.last_event_desc ≠ none → prev'.last_event_desc ≠ none)) ∧
      ((c2latest.last_location = none → prev'.last_location = c2pkg.last_location) ∧
       (prev'.last_location ≠ c2pkg.last_location → c2latest.last_location ≠ none) ∧
       (c2pkg.last_location ≠ none → prev'.last_location ≠ none))) :=
  ⟨by decide, by decide, by decide,
   c2_merge_fill_if_present c2st c2pkg c2item "s" "poll" "t1" c2latest c2pkg
     c2out.1 c2out.2.1 c2out.2.2 (by decide) (by decide) (by decide) (by decide)⟩

/-! ## Claim C10: payloads without a data object -/

theorem store_payload_parts (st : Store) (now : String) (raw : Bytes) (src : String)
    (et n c : Option JsonVal) (sg : Option String) (sv : Option Bool) :
    (store_payload st now raw src et n c sg sv).2 = sha256hex raw ∧
    (store_payload st now raw src et n c sg sv).1.packages = st.packages ∧
    (store_payload st now raw src et n c sg sv).1.events = st.events ∧
    (store_payload st now raw src et n c sg sv).1.nextPackageId = st.nextPackageId ∧
    (store_payload st now raw src et n c sg sv).1.nextEventId = st.nextEventId ∧
    ∃ p, p ∈ (store_payload st now raw src et n c sg sv).1.payloads ∧
      p.sha256 = sha256hex raw := by
  by_cases h : (st.payloads.any fun p => p.sha256 == sha256hex raw) = true
  · rw [store_payload_hit st now raw src et n c sg sv h]
    refine ⟨rfl, rfl, rfl, rfl, rfl, ?_⟩
    obtain ⟨p, hmem, hp⟩ := List.any_eq_true.mp h
    exact ⟨p, hmem, by simpa using hp⟩
  · have h' : (st.payloads.any fun p => p.sha256 == sha256hex raw) = false :=
      Bool.eq_false_iff.mpr h
    rw [store_payload_miss st now raw src et n c sg sv h']
    refine ⟨rfl, rfl, rfl, rfl, rfl,
      ⟨{ id := st.nextPayloadId, received_at := now, source := src, event_type := et,
         number := n, carrier := c, signature := sg, signature_valid := sv,
         sha256 := sha256hex raw, raw_json := utf8DecodeReplace raw }, ?_, rfl⟩⟩
    simp

/-- Whether an optional JSON value is a dict. -/
def isObjOpt : Option JsonVal → Bool
  | some (.obj _) => true
  | _ => false

theorem payloadBasicsUpdate_parts (st1 : Store) (payload : JsonVal) (sha : String) :
    (payloadBasicsUpdate st1 payload sha).packages = st1.packages ∧
    (payloadBasicsUpdate st1 payload sha).events = st1.events ∧
    (payloadBasicsUpdate st1 payload sha).nextPackageId = st1.nextPackageId ∧
    (payloadBasicsUpdate st1 payload sha).nextEventId = st1.nextEventId ∧
    (payloadBasicsUpdate st1 payload sha).nextPayloadId = st1.nextPayloadId :=
  ⟨rfl, rfl, rfl, rfl, rfl⟩

theorem payloadBasicsUpdate_mem (st1 : Store) (payload : JsonVal) (sha : String)
    (p : PayloadRow) (hp : p ∈ st1.payloads) :
    ∃ q, q ∈ (payloadBasicsUpdate st1 payload sha).payloads ∧
      q.sha256 = p.sha256 ∧ q.signature_valid = p.signature_valid ∧
      q.signature = p.signature := by
  unfold payloadBasicsUpdate
  refine ⟨_, List.mem_map_of_mem _ hp, ?_, ?_, ?_⟩ <;>
    by_cases hc : (p.sha256 == sha) = true <;> simp [hc]

theorem ingest_tail_no_data (st1 : Store) (raw : Bytes) (sha src : String)
    (envLang : Option String) (now : String) (ann : String → String) (payload : JsonVal)
    (hparse : jsonLoads raw = some payload)
    (hdata : isObjOpt (payload.get? "data") = false) :
    ingest_tail st1 raw sha src envLang now ann =
      (payloadBasicsUpdate st1 payload sha,
       .ok (false, "Stored payload " ++ sha ++ " (no data object)")) := by
  cases hd : payload.get? "data" with
  | none => simp only [ingest_tail, ingest_parsed, hparse, hd]
  | some v =>
      cases v with
      | obj df => rw [hd] at hdata; exact absurd hdata (by simp [isObjOpt])
      | null => simp only [ingest_tail, ingest_parsed, hparse, hd]
      | bool b => simp only [ingest_tail, ingest_parsed, hparse, hd]
      | num nn => simp only [ingest_tail, ingest_parsed, hparse, hd]
      | str s => simp only [ingest_tail, ingest_parsed, hparse, hd]
      | arr xs => simp only [ingest_tail, ingest_parsed, hparse, hd]

/-- C10: ingesting a syntactically valid JSON payload whose top-level
`data` field is absent or not an object returns `changed = false` with
a summary noting the missing data object, stores the payload row, and
leaves the packages and events tables completely unchanged.  (The side
condition rules out the earlier `UnicodeDecodeError` raise of the
signature step, which cannot trigger on a body that parsed as JSON.) -/
theorem c10_no_data_object
    (st : Store) (raw : Bytes) (headers : List (String × String)) (src : String)
    (secret envLang : Option String) (now : String) (payload : JsonVal)
    (hparse : jsonLoads raw = some payload)
    (hdata : isObjOpt (payload.get? "data") = false)
    (hfront : truthyS secret = false ∨ guess_signature_header headers = none ∨
      (utf8Decode raw).isSome = true) :
    (ingest_payload st raw headers src secret envLang now).2 =
      .ok (false, "Stored payload " ++ sha256hex raw ++ " (no data object)") ∧
    (ingest_payload st raw headers src secret envLang now).1.packages = st.packages ∧
    (ingest_payload st raw headers src secret envLang now).1.events = st.events ∧
    ∃ p, p ∈ (ingest_payload st raw headers src secret envLang now).1.payloads ∧
      p.sha256 = sha256hex raw := by
  have hcond : (verifyFlag secret headers && (expectedSig secret headers raw).isNone) = false := by
    rcases hfront with h | h | h
    · simp [verifyFlag, h]
    · simp [verifyFlag, sigValueOf, h, truthyS]
    · by_cases hv : verifyFlag secret headers = true
      · have hsome : (expectedSig secret headers raw).isNone = false := by
          unfold expectedSig
          rw [if_pos hv]
          have hsec : ∃ sec, secret = some sec := by
            cases hs : secret with
            | none => rw [hs] at hv; simp [verifyFlag, truthyS] at hv
            | some sec => exact ⟨sec, rfl⟩
          obtain ⟨sec, rfl⟩ := hsec
          cases hsv : sigValueOf headers with
          | none => simp [verifyFlag, truthyS, hsv] at hv
          | some sv =>
              simp only [compute_webhook_signature]
              cases hu : utf8Decode raw with
              | none => rw [hu] at h; simp at h
              | some t => simp [hu]
        rw [hv, hsome]
        rfl
      · have hv' : verifyFlag secret headers = false := Bool.eq_false_iff.mpr hv
        simp [hv']
  have hmain : ingest_payload st raw headers src secret envLang now =
      ingest_tail (store_payload st now raw src none none none (sigValueOf headers)
          (sigValidOf secret headers raw)).1 raw
        (store_payload st now raw src none none none (sigValueOf headers)
          (sigValidOf secret headers raw)).2 src envLang now
        (annotateSummary secret headers raw) := by
    unfold ingest_payload
    rw [hcond]
    simp
  obtain ⟨hsha, hpk, hev, _, _, p, hpmem, hpsha⟩ := store_payload_parts st now raw src
    none none none (sigValueOf headers) (sigValidOf secret headers raw)
  rw [hmain, ingest_tail_no_data _ raw _ src envLang now _ payload hparse hdata]
  refine ⟨by rw [hsha], ?_, ?_, ?_⟩
  · exact (payloadBasicsUpdate_parts _ payload _).1.trans hpk
  · exact (payloadBasicsUpdate_parts _ payload _).2.1.trans hev
  · obtain ⟨q, hqmem, hqsha, _, _⟩ := payloadBasicsUpdate_mem _ payload _ p hpmem
    exact ⟨q, hqmem, hqsha.trans hpsha⟩

/-- Concrete body for the C10 witness: valid JSON whose `data` is a
string, not an object. -/
def c10raw : Bytes :=
  utf8Bytes (jsonDump (.obj [("event", .str "TRACKING_UPDATED"), ("data", .str "nope")]))

/-- Parsed form of the C10 witness body. -/
def c10payload : JsonVal := .obj [("event", .str "TRACKING_UPDATED"), ("data", .str "nope")]

/-- C10 witness: the statement evaluated on a concrete no-data payload
over the empty store. -/
theorem c10_no_data_object_witness :
    jsonLoads c10raw = some c10payload ∧
    ((ingest_payload Store.empty c10raw [] "webhook" none none "t1").2 =
      .ok (false, "Stored payload " ++ sha256hex c10raw ++ " (no data object)") ∧
     (ingest_payload Store.empty c10raw [] "webhook" none none "t1").1.packages =
       Store.empty.packages ∧
     (ingest_payload Store.empty c10raw [] "webhook" none none "t1").1.events =
       Store.empty.events ∧
     ∃ p, p ∈ (ingest_payload Store.empty c10raw [] "webhook" none none "t1").1.payloads ∧
       p.sha256 = sha256hex c10raw) :=
  ⟨by decide,
   c10_no_data_object Store.empty c10raw [] "webhook" none none "t1" c10payload
     (by decide) (by decide) (Or.inl (by decide))⟩

/-! ## Claim C4: idempotent event ingestion -/

/-- Number of event rows of a package carrying a given event hash. -/
def countEvents (evs : List EventRow) (pid : Nat) (h : String) : Nat :=
  (evs.filter (fun r => r.package_id == pid && r.event_hash == h)).length

theorem any_event_eq_count (rows : List EventRow) (pid : Nat) (h : String) :
    (rows.any (fun r => r.package_id == pid && r.event_hash == h)) =
      (countEvents rows pid h != 0) := by
  induction rows with
  | nil => rfl
  | cons r t ih =>
      by_cases hr : (r.package_id == pid && r.event_hash == h) = true
      · simp [countEvents, List.filter_cons, hr]
      · have hr' : (r.package_id == pid && r.event_hash == h) = false := Bool.eq_false_iff.mpr hr
        simp only [List.any_cons, hr', Bool.false_or, ih, countEvents, List.filter_cons]
        simp [hr']

theorem countEvents_append (xs ys : List EventRow) (pid : Nat) (h : String) :
    countEvents (xs ++ ys) pid h = countEvents xs pid h + countEvents ys pid h := by
  simp [countEvents, List.filter_append]

theorem insertEventStep_count (pid : Nat) (now : String)
    (rows : List EventRow) (nid cnt : Nat) (e : JsonVal) (h : String) :
    countEvents (insertEventStep pid now (rows, nid, cnt) e).1 pid h =
      if countEvents rows pid h == 0 && event_hash e == h then 1
      else countEvents rows pid h := by
  by_cases hany : (rows.any (fun r => r.package_id == pid && r.event_hash == event_hash e)) = true
  · have hc : countEvents rows pid (event_hash e) ≠ 0 := by
      have := (any_event_eq_count rows pid (event_hash e)).symm.trans hany
      simpa using this
    have hstep : (insertEventStep pid now (rows, nid, cnt) e).1 = rows := by
      simp only [insertEventStep, hany, if_true]
    rw [hstep]
    by_cases hhe : event_hash e = h
    · subst hhe
      have : (countEvents rows pid (event_hash e) == 0) = false := by
        simpa using hc
      simp [this]
    · have : (event_hash e == h) = false := by simpa using hhe
      simp [this]
  · have hany' : (rows.any (fun r => r.package_id == pid && r.event_hash == event_hash e)) = false :=
      Bool.eq_false_iff.mpr hany
    have hc : countEvents rows pid (event_hash e) = 0 := by
      have := (any_event_eq_count rows pid (event_hash e)).symm.trans hany'
      simpa using this
    have hstep : (insertEventStep pid now (rows, nid, cnt) e).1 =
        rows ++
          [{ id := nid, package_id := pid, provider_key := e.get? "_provider_key",
             time_utc := e.get? "time_utc", time_iso := e.get? "time_iso",
             description := descColumn e, location := locColumn e,
             stage := e.get? "stage", sub_status := e.get? "sub_status",
             raw_json := jsonDump e, event_hash := event_hash e, created_at := now }] := by
      simp only [insertEventStep, hany', Bool.false_eq_true, if_false]
    rw [hstep, countEvents_append]
    by_cases hhe : event_hash e = h
    · subst hhe
      rw [hc]
      simp [countEvents]
    · have hne : (event_hash e == h) = false := by simpa using hhe
      simp [countEvents, hne]

theorem foldl_insert_count (pid : Nat) (now : String) (evs : List JsonVal)
    (rows : List EventRow) (nid cnt : Nat) (h : String) :
    countEvents ((evs.foldl (insertEventStep pid now) (rows, nid, cnt)).1) pid h =
      if countEvents rows pid h == 0 && evs.any (fun e => event_hash e == h) then 1
      else countEvents rows pid h := by
  induction evs generalizing rows nid cnt with
  | nil => simp
  | cons e t ih =>
      have hstepEq : ∃ nid' cnt', t.foldl (insertEventStep pid now)
          (insertEventStep pid now (rows, nid, cnt) e) =
          t.foldl (insertEventStep pid now)
            ((insertEventStep pid now (rows, nid, cnt) e).1, nid', cnt') := by
        refine ⟨(insertEventStep pid now (rows, nid, cnt) e).2.1,
                (insertEventStep pid now (rows, nid, cnt) e).2.2, ?_⟩
        rfl
      obtain ⟨nid', cnt', hre⟩ := hstepEq
      rw [List.foldl_cons, hre, ih]
      rw [insertEventStep_count pid now rows nid cnt e h]
      by_cases h0 : countEvents rows pid h = 0
      · by_cases hhe : (event_hash e == h) = true
        · simp [h0, hhe]
        · have hhe' : (event_hash e == h) = false := Bool.eq_false_iff.mpr hhe
          simp [h0, hhe']
      · have h0' : (countEvents rows pid h == 0) = false := by simpa using h0
        simp [h0']

/-- The events component of a successful merge is the idempotent insert
fold over the item's events. -/
theorem apply_update_events_of_success
    (st : Store) (pkg : PackageRow) (item : JsonVal) (sha? : Option String)
    (src now : String) (st' : Store) (c : Bool) (sm : String)
    (happly : apply_update_from_trackinfo st pkg item sha? src now = some (st', c, sm)) :
    st'.events = ((iter_events (trackInfoOf item)).foldl (insertEventStep pkg.id now)
      (st.events, st.nextEventId, 0)).1 := by
  unfold apply_update_from_trackinfo at happly
  cases hex : extract_latest_fields (trackInfoOf item) with
  | none => rw [hex] at happly; simp at happly
  | some latest =>
      rw [hex, Option.some_bind] at happly
      cases hfind : st.packages.find? (fun r => r.id == pkg.id) with
      | none => rw [hfind] at happly; simp at happly
      | some prev =>
          rw [hfind, Option.some_bind] at happly
          by_cases hc : (!truthyS sha? &&
              (truthyS latest.last_event_time_utc || truthyS latest.last_event_desc ||
               truthyS latest.last_status || truthyS latest.last_sub_status)) = true
          · rw [if_pos hc] at happly; simp at happly
          · rw [if_neg hc] at happly
            simp only [Option.some.injEq, Prod.mk.injEq] at happly
            rw [← happly.1]

/-- C4: ingesting the same provider event twice — equal provider key,
event time, description and location as extracted for the per-package
event hash, whether within one applied item or across two separately
applied items — yields equal event hashes and exactly one row in the
events table for that package and hash; the re-insert is a no-op. -/
theorem c4_event_ingestion_idempotent
    (st st1 st2 : Store) (pkg : PackageRow) (item1 item2 : JsonVal)
    (sha1? sha2? : Option String) (src1 src2 now1 now2 : String)
    (c1 c2 : Bool) (s1 s2 : String) (e1 e2 : JsonVal)
    (h1 : apply_update_from_trackinfo st pkg item1 sha1? src1 now1 = some (st1, c1, s1))
    (h2 : apply_update_from_trackinfo st1 pkg item2 sha2? src2 now2 = some (st2, c2, s2))
    (he1 : e1 ∈ iter_events (trackInfoOf item1))
    (_he2 : e2 ∈ iter_events (trackInfoOf item2))
    (heq : eventHashInput e1 = eventHashInput e2)
    (h0 : countEvents st.events pkg.id (event_hash e1) = 0) :
    event_hash e1 = event_hash e2 ∧
    countEvents st1.events pkg.id (event_hash e1) = 1 ∧
    countEvents st2.events pkg.id (event_hash e1) = 1 := by
  have hh : event_hash e1 = event_hash e2 := event_hash_eq_of_input_eq e1 e2 heq
  have hev1 := apply_update_events_of_success st pkg item1 sha1? src1 now1 st1 c1 s1 h1
  have hev2 := apply_update_events_of_success st1 pkg item2 sha2? src2 now2 st2 c2 s2 h2
  have hany1 : ((iter_events (trackInfoOf item1)).any
      (fun e => event_hash e == event_hash e1)) = true :=
    List.any_eq_true.mpr ⟨e1, he1, by simp⟩
  have hcount1 : countEvents st1.events pkg.id (event_hash e1) = 1 := by
    rw [hev1, foldl_insert_count]
    simp [h0, hany1]
  have hcount2 : countEvents st2.events pkg.id (event_hash e1) = 1 := by
    rw [hev2, foldl_insert_count]
    have : (countEvents st1.events pkg.id (event_hash e1) == 0) = false := by
      simp [hcount1]
    simp [this, hcount1]
  exact ⟨hh, hcount1, hcount2⟩

/-- Plain active package row used by concrete witnesses. -/
def samplePkg (id : Nat) (number : String) (carrier : Int) : PackageRow :=
  ⟨id, "t0", "t0", none, number, carrier, "", "", "en", true, none, none, none, none, none,
   none, none, none, none, false⟩

/-- Response item with one provider event, for the C4 witness. -/
def c4item : JsonVal :=
  .obj [("track_info", .obj [("tracking", .obj [("providers", .arr
    [.obj [("key", .num 100), ("events", .arr
      [.obj [("time_utc", .str "2024-01-01T00:00:00Z"), ("description", .str "Departed"),
             ("location", .str "HK")]])]])])])]

/-- The stamped event as `iter_events` yields it, for the C4 witness. -/
def c4event : JsonVal :=
  .obj [("time_utc", .str "2024-01-01T00:00:00Z"), ("description", .str "Departed"),
        ("location", .str "HK"), ("_provider_key", .num 100)]

/-- Store for the C4 witness. -/
def c4st : Store := { Store.empty with packages := [samplePkg 1 "N" 7], nextPackageId := 2 }

/-- First apply result for the C4 witness. -/
def c4r1 : Store × Bool × String :=
  (apply_update_from_trackinfo c4st (samplePkg 1 "N" 7) c4item (some "sA") "poll" "t1").getD
    (Store.empty, false, "")

/-- Second apply result for the C4 witness. -/
def c4r2 : Store × Bool × String :=
  (apply_update_from_trackinfo c4r1.1 (samplePkg 1 "N" 7) c4item (some "sB") "poll" "t2").getD
    (Store.empty, false, "")

/-- C4 witness: applying the same one-event item twice leaves exactly
one matching event row. -/
theorem c4_event_ingestion_idempotent_witness :
    c4event ∈ iter_events (trackInfoOf c4item) ∧
    countEvents c4st.events 1 (event_hash c4event) = 0 ∧
    (event_hash c4event = event_hash c4event ∧
     countEvents c4r1.1.events (samplePkg 1 "N" 7).id (event_hash c4event) = 1 ∧
     countEvents c4r2.1.events (samplePkg 1 "N" 7).id (event_hash c4event) = 1) :=
  ⟨by decide, by decide,
   c4_event_ingestion_idempotent c4st c4r1.1 c4r2.1 (samplePkg 1 "N" 7) c4item c4item
     (some "sA") (some "sB") "poll" "poll" "t1" "t2" c4r1.2.1 c4r2.2.1 c4r1.2.2 c4r2.2.2
     c4event c4event (by decide) (by decide) (by decide) (by decide) rfl (by decide)⟩

/-! ## Claim C8: a per-file failure does not abort the inbox run -/

instance exceptDecEq {ε α : Type} [DecidableEq ε] [DecidableEq α] :
    DecidableEq (Except ε α)
  | .ok a, .ok b =>
      if h : a = b then isTrue (by rw [h])
      else isFalse (fun hh => by cases hh; exact h rfl)
  | .error a, .error b =>
      if h : a = b then isTrue (by rw [h])
      else isFalse (fun hh => by cases hh; exact h rfl)
  | .ok _, .error _ => isFalse (fun hh => Except.noConfusion hh)
  | .error _, .ok _ => isFalse (fun hh => Except.noConfusion hh)

/-- C8: during an inbox run, when the file `f` reached after the prefix
`fs1` fails to ingest (for example because its body is not valid JSON),
the failure is caught and recorded as a report line and the run
continues: processing the whole list equals recording the failure and
then processing every remaining file of `fs2` exactly as usual. -/
theorem c8_per_file_failure_does_not_abort
    (secret envLang : Option String) (now : String) (init : InboxRun)
    (fs1 : List String) (f : String) (fs2 : List String)
    (raw : Bytes) (st' : Store) (e : String)
    (hnc : (process_inbox_list secret envLang now init fs1).crashed = false)
    (hfile : (process_inbox_list secret envLang now init fs1).fs.inbox.find?
        (fun p => p.1 == f) = some (f, raw))
    (hing : ingest_payload (process_inbox_list secret envLang now init fs1).st raw
        (sidecarHeaders (process_inbox_list secret envLang now init fs1).fs.inbox f)
        "webhook" secret envLang now = (st', .error e)) :
    process_inbox_list secret envLang now init (fs1 ++ f :: fs2) =
      process_inbox_list secret envLang now
        { process_inbox_list secret envLang now init fs1 with
            st := st'
            failures := (process_inbox_list secret envLang now init fs1).failures ++
              ["Failed to process " ++ f ++ ": " ++ e] }
        fs2 := by
  have hsplit : process_inbox_list secret envLang now init (fs1 ++ f :: fs2) =
      process_inbox_list secret envLang now
        (process_file secret envLang now (process_inbox_list secret envLang now init fs1) f)
        fs2 := by
    unfold process_inbox_list
    rw [List.foldl_append, List.foldl_cons]
  rw [hsplit]
  have hstep : process_file secret envLang now
      (process_inbox_list secret envLang now init fs1) f =
      { process_inbox_list secret envLang now init fs1 with
          st := st'
          failures := (process_inbox_list secret envLang now init fs1).failures ++
            ["Failed to process " ++ f ++ ": " ++ e] } := by
    unfold process_file
    rw [if_neg (by rw [hnc]; exact Bool.false_ne_true)]
    rw [hfile]
    simp only [hing]
  rw [hstep]

/-- Invalid-JSON inbox file for the C8 witness. -/
def c8bad : Bytes := utf8Bytes "not json"

/-- Well-formed inbox file for the C8 witness. -/
def c8good : Bytes := utf8Bytes (jsonDump (.obj [("event", .str "X")]))

/-- Initial run state for the C8 witness: an inbox holding the failing
file followed by a healthy one. -/
def c8init : InboxRun :=
  ⟨Store.empty, ⟨[("a.json", c8bad), ("b.json", c8good)], []⟩, 0, [], [], false⟩

/-- Store state after the failing ingest of the C8 witness. -/
def c8stAfter : Store :=
  (ingest_payload Store.empty c8bad [] "webhook" none none "t1").1

/-- C8 witness: the continuation statement evaluated on the concrete
two-file inbox whose first file has an invalid JSON body. -/
theorem c8_per_file_failure_does_not_abort_witness :
    (process_inbox_list none none "t1" c8init []).crashed = false ∧
    (process_inbox_list none none "t1" c8init []).fs.inbox.find?
        (fun p => p.1 == "a.json") = some ("a.json", c8bad) ∧
    ingest_payload (process_inbox_list none none "t1" c8init []).st c8bad
        (sidecarHeaders (process_inbox_list none none "t1" c8init []).fs.inbox "a.json")
        "webhook" none none "t1" = (c8stAfter, .error "Invalid JSON payload") ∧
    process_inbox_list none none "t1" c8init ([] ++ "a.json" :: ["b.json"]) =
      process_inbox_list none none "t1"
        { process_inbox_list none none "t1" c8init [] with
            st := c8stAfter
            failures := (process_inbox_list none none "t1" c8init []).failures ++
              ["Failed to process " ++ "a.json" ++ ": " ++ "Invalid JSON payload"] }
        ["b.json"] :=
  ⟨by decide, by decide, by decide,
   c8_per_file_failure_does_not_abort none none "t1" c8init [] "a.json" ["b.json"]
     c8bad c8stAfter "Invalid JSON payload" (by decide) (by decide) (by decide)⟩

/-! ## Claims C7 and C9: signature handling machinery -/

/-- Two payload rows that agree on everything except the signature
columns. -/
def payloadRowEqExceptSig (p q : PayloadRow) : Prop :=
  p.id = q.id ∧ p.received_at = q.received_at ∧ p.source = q.source ∧
  p.event_type = q.event_type ∧ p.number = q.number ∧ p.carrier = q.carrier ∧
  p.sha256 = q.sha256 ∧ p.raw_json = q.raw_json

/-- Two stores that agree on everything except the signature columns of
their payload rows. -/
structure StoreRelSig (a b : Store) : Prop where
  pk : a.packages = b.packages
  ev : a.events = b.events
  npk : a.nextPackageId = b.nextPackageId
  nev : a.nextEventId = b.nextEventId
  npl : a.nextPayloadId = b.nextPayloadId
  pls : List.Forall₂ payloadRowEqExceptSig a.payloads b.payloads

theorem payloadRowEqExceptSig_refl (p : PayloadRow) : payloadRowEqExceptSig p p :=
  ⟨rfl, rfl, rfl, rfl, rfl, rfl, rfl, rfl⟩

theorem storeRelSig_refl (a : Store) : StoreRelSig a a :=
  ⟨rfl, rfl, rfl, rfl, rfl,
   (List.forall₂_same).mpr (fun p _ => payloadRowEqExceptSig_refl p)⟩

theorem forall2_sig_map (et nu ca : Option JsonVal) (sha : String) (ps qs : List PayloadRow)
    (h : List.Forall₂ payloadRowEqExceptSig ps qs) :
    List.Forall₂ payloadRowEqExceptSig
      (ps.map (fun p => if p.sha256 == sha then
        { p with event_type := et, number := nu, carrier := ca } else p))
      (qs.map (fun p => if p.sha256 == sha then
        { p with event_type := et, number := nu, carrier := ca } else p)) := by
  induction h with
  | nil => exact List.Forall₂.nil
  | @cons p q ps' qs' hpq htl ih =>
      simp only [List.map_cons]
      refine List.Forall₂.cons ?_ ih
      obtain ⟨h1, h2, h3, h4, h5, h6, h7, h8⟩ := hpq
      by_cases hc : (p.sha256 == sha) = true
      · have hc' : (q.sha256 == sha) = true := by rw [← h7]; exact hc
        rw [if_pos hc, if_pos hc']
        exact ⟨h1, h2, h3, rfl, rfl, rfl, h7, h8⟩
      · have hc' : ¬ (q.sha256 == sha) = true := by rw [← h7]; exact hc
        rw [if_neg hc, if_neg hc']
        exact ⟨h1, h2, h3, h4, h5, h6, h7, h8⟩

theorem payloadBasicsUpdate_rel_congr (a b : Store) (hrel : StoreRelSig a b)
    (payload : JsonVal) (sha : String) :
    StoreRelSig (payloadBasicsUpdate a payload sha) (payloadBasicsUpdate b payload sha) := by
  obtain ⟨hpk, hev, hnpk, hnev, hnpl, hpls⟩ := hrel
  exact ⟨hpk, hev, hnpk, hnev, hnpl, forall2_sig_map _ _ _ _ _ _ hpls⟩

theorem upsert_rel_congr (a b : Store) (hrel : StoreRelSig a b) (now number : String)
    (carrier : Int) (param : String) (label tag lang : Option String)
    (ar : Option Bool) (env : Option String) :
    StoreRelSig (upsert_package a now number carrier param label tag lang ar env).1
        (upsert_package b now number carrier param label tag lang ar env).1 ∧
    (upsert_package a now number carrier param label tag lang ar env).2 =
      (upsert_package b now number carrier param label tag lang ar env).2 := by
  obtain ⟨hpk, hev, hnpk, hnev, hnpl, hpls⟩ := hrel
  unfold upsert_package
  rw [hpk, hnpk]
  cases h : findByKey b.packages (normalise_number number) carrier param with
  | some existing => exact ⟨⟨rfl, hev, rfl, hnev, hnpl, hpls⟩, rfl⟩
  | none => exact ⟨⟨rfl, hev, rfl, hnev, hnpl, hpls⟩, rfl⟩

theorem ensurePackage_rel_congr (a b : Store) (hrel : StoreRelSig a b)
    (number_s : String) (ci : Int) (param tag : String) (env : Option String) (now : String) :
    StoreRelSig (ensurePackage a number_s ci param tag env now).1
        (ensurePackage b number_s ci param tag env now).1 ∧
    (ensurePackage a number_s ci param tag env now).2 =
      (ensurePackage b number_s ci param tag env now).2 := by
  have hpk := hrel.pk
  unfold ensurePackage
  rw [hpk]
  cases h : findByKeyDesc b.packages number_s ci param with
  | some p => exact ⟨hrel, rfl⟩
  | none =>
      exact upsert_rel_congr a b hrel now number_s ci param none (some tag)
        (some ((pyOrS env (some "en")).getD "en")) (some true) env

theorem apply_update_congr (a b : Store) (hpk : a.packages = b.packages)
    (hev : a.events = b.events) (hnev : a.nextEventId = b.nextEventId)
    (pkg : PackageRow) (item : JsonVal) (sha? : Option String) (src now : String) :
    (apply_update_from_trackinfo a pkg item sha? src now = none ∧
     apply_update_from_trackinfo b pkg item sha? src now = none) ∨
    (∃ a' b' c sm,
      apply_update_from_trackinfo a pkg item sha? src now = some (a', c, sm) ∧
      apply_update_from_trackinfo b pkg item sha? src now = some (b', c, sm) ∧
      a'.packages = b'.packages ∧ a'.events = b'.events ∧ a'.nextEventId = b'.nextEventId ∧
      a'.payloads = a.payloads ∧ b'.payloads = b.payloads ∧
      a'.nextPackageId = a.nextPackageId ∧ b'.nextPackageId = b.nextPackageId ∧
      a'.nextPayloadId = a.nextPayloadId ∧ b'.nextPayloadId = b.nextPayloadId) := by
  unfold apply_update_from_trackinfo
  rw [hpk, hev, hnev]
  cases hex : extract_latest_fields (trackInfoOf item) with
  | none => left; exact ⟨rfl, rfl⟩
  | some latest =>
      simp only [Option.some_bind]
      cases hfind : b.packages.find? (fun r => r.id == pkg.id) with
      | none => left; exact ⟨rfl, rfl⟩
      | some prev =>
          simp only [Option.some_bind]
          by_cases hc : (!truthyS sha? &&
              (truthyS latest.last_event_time_utc || truthyS latest.last_event_desc ||
               truthyS latest.last_status || truthyS latest.last_sub_status)) = true
          · left
            rw [if_pos hc, if_pos hc]
            exact ⟨rfl, rfl⟩
          · right
            rw [if_neg hc, if_neg hc]
            exact ⟨_, _, _, _, rfl, rfl, rfl, rfl, rfl, rfl, rfl, rfl, rfl, rfl, rfl⟩

/-- Relation between two `ingest_obj` runs over stores that differ
only in signature columns, with possibly different summary
annotations. -/
theorem ingest_obj_congr (a b : Store) (hrel : StoreRelSig a b) (payload : JsonVal)
    (df : List (String × JsonVal)) (sha src : String) (env : Option String) (now : String)
    (annA annB : String → String) :
    StoreRelSig (ingest_obj a payload df sha src env now annA).1
        (ingest_obj b payload df sha src env now annB).1 ∧
    ((∃ msg, (ingest_obj a payload df sha src env now annA).2 = .error msg ∧
        (ingest_obj b payload df sha src env now annB).2 = .error msg) ∨
     (∃ c s, (ingest_obj a payload df sha src env now annA).2 = .ok (c, s) ∧
        (ingest_obj b payload df sha src env now annB).2 = .ok (c, s)) ∨
     (∃ c s0, (ingest_obj a payload df sha src env now annA).2 = .ok (c, annA s0) ∧
        (ingest_obj b payload df sha src env now annB).2 = .ok (c, annB s0))) := by
  have hrel2 := payloadBasicsUpdate_rel_congr a b hrel payload sha
  cases hci : pyInt (pyOrV (match (JsonVal.obj df).get? "carrier" with
      | some v => v
      | none => JsonVal.null) (JsonVal.num 0)) with
  | none =>
      simp only [ingest_obj, hci]
      exact ⟨hrel2, Or.inl ⟨_, rfl, rfl⟩⟩
  | some ci =>
      simp only [ingest_obj, hci]
      obtain ⟨hep, hpkg⟩ := ensurePackage_rel_congr
        (payloadBasicsUpdate a payload sha) (payloadBasicsUpdate b payload sha) hrel2
        (normalise_number (pyStrOrEmpty ((JsonVal.obj df).get? "number"))) ci
        (pyStrOrEmpty ((JsonVal.obj df).get? "param"))
        (pyStrOrEmpty ((JsonVal.obj df).get? "tag")) env now
      rw [← hpkg]
      rcases apply_update_congr
          (ensurePackage (payloadBasicsUpdate a payload sha)
            (normalise_number (pyStrOrEmpty ((JsonVal.obj df).get? "number"))) ci
            (pyStrOrEmpty ((JsonVal.obj df).get? "param"))
            (pyStrOrEmpty ((JsonVal.obj df).get? "tag")) env now).1
          (ensurePackage (payloadBasicsUpdate b payload sha)
            (normalise_number (pyStrOrEmpty ((JsonVal.obj df).get? "number"))) ci
            (pyStrOrEmpty ((JsonVal.obj df).get? "param"))
            (pyStrOrEmpty ((JsonVal.obj df).get? "tag")) env now).1
          hep.pk hep.ev hep.nev
          (ensurePackage (payloadBasicsUpdate a payload sha)
            (normalise_number (pyStrOrEmpty ((JsonVal.obj df).get? "number"))) ci
            (pyStrOrEmpty ((JsonVal.obj df).get? "param"))
            (pyStrOrEmpty ((JsonVal.obj df).get? "tag")) env now).2
          (JsonVal.obj df) (some sha) src now with
        ⟨hna, hnb⟩ |
        ⟨a2, b2, c, sm, hsa, hsb, hpk2, hev2, hnev2, hplA, hplB,
         hnpkA, hnpkB, hnplA, hnplB⟩
      · rw [hna, hnb]
        exact ⟨hep, Or.inl ⟨_, rfl, rfl⟩⟩
      · rw [hsa, hsb]
        refine ⟨⟨hpk2, hev2, ?_, hnev2, ?_, ?_⟩,
          Or.inr (Or.inr ⟨c, sm, rfl, rfl⟩)⟩
        · show a2.nextPackageId = b2.nextPackageId
          rw [hnpkA, hnpkB]
          exact hep.npk
        · show a2.nextPayloadId = b2.nextPayloadId
          rw [hnplA, hnplB]
          exact hep.npl
        · show List.Forall₂ payloadRowEqExceptSig a2.payloads b2.payloads
          rw [hplA, hplB]
          exact hep.pls

/-- Relation between two `ingest_parsed` runs over stores that differ
only in signature columns, with possibly different summary
annotations. -/
theorem ingest_parsed_congr (a b : Store) (hrel : StoreRelSig a b) (payload : JsonVal)
    (sha src : String) (env : Option String) (now : String) (annA annB : String → String) :
    StoreRelSig (ingest_parsed a payload sha src env now annA).1
        (ingest_parsed b payload sha src env now annB).1 ∧
    ((∃ msg, (ingest_parsed a payload sha src env now annA).2 = .error msg ∧
        (ingest_parsed b payload sha src env now annB).2 = .error msg) ∨
     (∃ c s, (ingest_parsed a payload sha src env now annA).2 = .ok (c, s) ∧
        (ingest_parsed b payload sha src env now annB).2 = .ok (c, s)) ∨
     (∃ c s0, (ingest_parsed a payload sha src env now annA).2 = .ok (c, annA s0) ∧
        (ingest_parsed b payload sha src env now annB).2 = .ok (c, annB s0))) := by
  have hrel2 := payloadBasicsUpdate_rel_congr a b hrel payload sha
  unfold ingest_parsed
  cases hd : payload.get? "data" with
  | none => exact ⟨hrel2, Or.inr (Or.inl ⟨_, _, rfl, rfl⟩)⟩
  | some v =>
      cases v with
      | null => exact ⟨hrel2, Or.inr (Or.inl ⟨_, _, rfl, rfl⟩)⟩
      | bool bb => exact ⟨hrel2, Or.inr (Or.inl ⟨_, _, rfl, rfl⟩)⟩
      | num nn => exact ⟨hrel2, Or.inr (Or.inl ⟨_, _, rfl, rfl⟩)⟩
      | str ss => exact ⟨hrel2, Or.inr (Or.inl ⟨_, _, rfl, rfl⟩)⟩
      | arr xs => exact ⟨hrel2, Or.inr (Or.inl ⟨_, _, rfl, rfl⟩)⟩
      | obj df => exact ingest_obj_congr a b hrel payload df sha src env now annA annB

/-- Relation between two `ingest_tail` runs over stores that differ
only in signature columns, with possibly different summary
annotations. -/
theorem ingest_tail_congr (a b : Store) (hrel : StoreRelSig a b) (raw : Bytes)
    (sha src : String) (env : Option String) (now : String) (annA annB : String → String) :
    StoreRelSig (ingest_tail a raw sha src env now annA).1
        (ingest_tail b raw sha src env now annB).1 ∧
    ((∃ msg, (ingest_tail a raw sha src env now annA).2 = .error msg ∧
        (ingest_tail b raw sha src env now annB).2 = .error msg) ∨
     (∃ c s, (ingest_tail a raw sha src env now annA).2 = .ok (c, s) ∧
        (ingest_tail b raw sha src env now annB).2 = .ok (c, s)) ∨
     (∃ c s0, (ingest_tail a raw sha src env now annA).2 = .ok (c, annA s0) ∧
        (ingest_tail b raw sha src env now annB).2 = .ok (c, annB s0))) := by
  unfold ingest_tail
  cases hload : jsonLoads raw with
  | none => exact ⟨hrel, Or.inl ⟨_, rfl, rfl⟩⟩
  | some payload => exact ingest_parsed_congr a b hrel payload sha src env now annA annB


/-! ## Claim C9: no secret configured, verification skipped -/

theorem verifyFlag_none (headers : List (String × String)) :
    verifyFlag none headers = false := rfl

theorem expectedSig_none (headers : List (String × String)) (raw : Bytes) :
    expectedSig none headers raw = none := rfl

theorem sigValidOf_none (headers : List (String × String)) (raw : Bytes) :
    sigValidOf none headers raw = none := by
  unfold sigValidOf
  rw [expectedSig_none]

theorem annotateSummary_none (headers : List (String × String)) (raw : Bytes) (s : String) :
    annotateSummary none headers raw s = s := rfl

/-- Two `store_payload` runs differing only in the signature and
signature-validity column values give stores that agree outside the
signature columns. -/
theorem store_payload_rel (st : Store) (now : String) (raw : Bytes) (src : String)
    (et n c : Option JsonVal) (sgA sgB : Option String) (svA svB : Option Bool) :
    StoreRelSig (store_payload st now raw src et n c sgA svA).1
      (store_payload st now raw src et n c sgB svB).1 := by
  by_cases h : (st.payloads.any fun p => p.sha256 == sha256hex raw) = true
  · rw [store_payload_hit st now raw src et n c sgA svA h,
        store_payload_hit st now raw src et n c sgB svB h]
    exact storeRelSig_refl st
  · have h2 : (st.payloads.any fun p => p.sha256 == sha256hex raw) = false :=
      Bool.eq_false_iff.mpr h
    rw [store_payload_miss st now raw src et n c sgA svA h2,
        store_payload_miss st now raw src et n c sgB svB h2]
    refine ⟨rfl, rfl, rfl, rfl, rfl, ?_⟩
    refine List.rel_append ((List.forall₂_same).mpr (fun p _ => payloadRowEqExceptSig_refl p)) ?_
    exact List.Forall₂.cons ⟨rfl, rfl, rfl, rfl, rfl, rfl, rfl, rfl⟩ List.Forall₂.nil

/-- `upsert_package` never touches the payloads table. -/
theorem upsert_package_payloads (st : Store) (now number : String) (carrier : Int)
    (param : String) (label tag lang : Option String) (ar : Option Bool)
    (env : Option String) :
    (upsert_package st now number carrier param label tag lang ar env).1.payloads =
      st.payloads := by
  unfold upsert_package
  cases h : findByKey st.packages (normalise_number number) carrier param with
  | some existing => rfl
  | none => rfl

/-- `ensurePackage` never touches the payloads table. -/
theorem ensurePackage_payloads (st2 : Store) (number_s : String) (ci : Int)
    (param tag : String) (env : Option String) (now : String) :
    (ensurePackage st2 number_s ci param tag env now).1.payloads = st2.payloads := by
  unfold ensurePackage
  cases h : findByKeyDesc st2.packages number_s ci param with
  | some p => rfl
  | none =>
      exact upsert_package_payloads st2 now number_s ci param none (some tag)
        (some ((pyOrS env (some "en")).getD "en")) (some true) env

/-- `apply_update_from_trackinfo` never touches the payloads table. -/
theorem apply_update_payloads (st : Store) (pkg : PackageRow) (item : JsonVal)
    (sha? : Option String) (src now : String) :
    apply_update_from_trackinfo st pkg item sha? src now = none ∨
    ∃ st2 c sm, apply_update_from_trackinfo st pkg item sha? src now = some (st2, c, sm) ∧
      st2.payloads = st.payloads := by
  unfold apply_update_from_trackinfo
  cases hex : extract_latest_fields (trackInfoOf item) with
  | none => left; rfl
  | some latest =>
      simp only [Option.some_bind]
      cases hfind : st.packages.find? (fun r => r.id == pkg.id) with
      | none => left; rfl
      | some prev =>
          simp only [Option.some_bind]
          by_cases hc : (!truthyS sha? &&
              (truthyS latest.last_event_time_utc || truthyS latest.last_event_desc ||
               truthyS latest.last_status || truthyS latest.last_sub_status)) = true
          · left
            rw [if_pos hc]
          · right
            rw [if_neg hc]
            exact ⟨_, _, _, rfl, rfl⟩

/-- The payloads table after `ingest_obj` is the basics-updated one. -/
theorem ingest_obj_payloads (st1 : Store) (payload : JsonVal)
    (df : List (String × JsonVal)) (sha src : String) (env : Option String)
    (now : String) (ann : String → String) :
    (ingest_obj st1 payload df sha src env now ann).1.payloads =
      (payloadBasicsUpdate st1 payload sha).payloads := by
  cases hci : pyInt (pyOrV (match (JsonVal.obj df).get? "carrier" with
      | some v => v
      | none => JsonVal.null) (JsonVal.num 0)) with
  | none => simp only [ingest_obj, hci]
  | some ci =>
      simp only [ingest_obj, hci]
      rcases apply_update_payloads
          (ensurePackage (payloadBasicsUpdate st1 payload sha)
            (normalise_number (pyStrOrEmpty ((JsonVal.obj df).get? "number"))) ci
            (pyStrOrEmpty ((JsonVal.obj df).get? "param"))
            (pyStrOrEmpty ((JsonVal.obj df).get? "tag")) env now).1
          (ensurePackage (payloadBasicsUpdate st1 payload sha)
            (normalise_number (pyStrOrEmpty ((JsonVal.obj df).get? "number"))) ci
            (pyStrOrEmpty ((JsonVal.obj df).get? "param"))
            (pyStrOrEmpty ((JsonVal.obj df).get? "tag")) env now).2
          (JsonVal.obj df) (some sha) src now with hnone | ⟨st2, c, sm, hsome, hpl⟩
      · rw [hnone]
        exact ensurePackage_payloads (payloadBasicsUpdate st1 payload sha)
          (normalise_number (pyStrOrEmpty ((JsonVal.obj df).get? "number"))) ci
          (pyStrOrEmpty ((JsonVal.obj df).get? "param"))
          (pyStrOrEmpty ((JsonVal.obj df).get? "tag")) env now
      · rw [hsome]
        show st2.payloads = (payloadBasicsUpdate st1 payload sha).payloads
        rw [hpl]
        exact ensurePackage_payloads (payloadBasicsUpdate st1 payload sha)
          (normalise_number (pyStrOrEmpty ((JsonVal.obj df).get? "number"))) ci
          (pyStrOrEmpty ((JsonVal.obj df).get? "param"))
          (pyStrOrEmpty ((JsonVal.obj df).get? "tag")) env now

/-- The payloads table after `ingest_parsed` is the basics-updated one. -/
theorem ingest_parsed_payloads (st1 : Store) (payload : JsonVal) (sha src : String)
    (env : Option String) (now : String) (ann : String → String) :
    (ingest_parsed st1 payload sha src env now ann).1.payloads =
      (payloadBasicsUpdate st1 payload sha).payloads := by
  unfold ingest_parsed
  cases hd : payload.get? "data" with
  | none => rfl
  | some v =>
      cases v with
      | null => rfl
      | bool bb => rfl
      | num nn => rfl
      | str ss => rfl
      | arr xs => rfl
      | obj df => exact ingest_obj_payloads st1 payload df sha src env now ann

/-- The payloads table after `ingest_tail` is either untouched (invalid
JSON) or the basics-updated one. -/
theorem ingest_tail_payloads (st1 : Store) (raw : Bytes) (sha src : String)
    (env : Option String) (now : String) (ann : String → String) :
    (ingest_tail st1 raw sha src env now ann).1.payloads = st1.payloads ∨
    ∃ payload, jsonLoads raw = some payload ∧
      (ingest_tail st1 raw sha src env now ann).1.payloads =
        (payloadBasicsUpdate st1 payload sha).payloads := by
  cases hl : jsonLoads raw with
  | none =>
      left
      simp only [ingest_tail, hl]
  | some payload =>
      right
      refine ⟨payload, rfl, ?_⟩
      simp only [ingest_tail, hl]
      exact ingest_parsed_payloads st1 payload sha src env now ann

/-- Rows of the basics-updated payloads table come from rows of the
original table with the same hash and signature columns. -/
theorem payloadBasicsUpdate_mem_rev (st1 : Store) (payload : JsonVal) (sha : String)
    (p : PayloadRow) (hp : p ∈ (payloadBasicsUpdate st1 payload sha).payloads) :
    ∃ q, q ∈ st1.payloads ∧ p.sha256 = q.sha256 ∧
      p.signature_valid = q.signature_valid := by
  obtain ⟨q, hq, hfq⟩ := List.mem_map.mp hp
  refine ⟨q, hq, ?_, ?_⟩ <;> rw [← hfq] <;>
    by_cases hc : (q.sha256 == sha) = true <;> simp [hc]

theorem countPayloadSha_zero_not (ps : List PayloadRow) (sha : String)
    (h : countPayloadSha ps sha = 0) (p : PayloadRow) (hp : p ∈ ps) :
    p.sha256 ≠ sha := by
  intro he
  have hmem : p ∈ ps.filter (fun q => q.sha256 == sha) :=
    List.mem_filter.mpr ⟨hp, by simp [he]⟩
  unfold countPayloadSha at h
  rw [List.length_eq_zero] at h
  rw [h] at hmem
  exact absurd hmem (List.not_mem_nil p)

/-- The fresh payload row appended by a missing-hash `store_payload`. -/
def newPayloadRow (st : Store) (now src : String) (raw : Bytes)
    (sg : Option String) (sv : Option Bool) : PayloadRow :=
  { id := st.nextPayloadId, received_at := now, source := src, event_type := none,
    number := none, carrier := none, signature := sg, signature_valid := sv,
    sha256 := sha256hex raw, raw_json := utf8DecodeReplace raw }

/-- C9: when no webhook secret is configured, signature verification is
skipped entirely: the guard is false and `sig_valid` is `None`; the
payload row stored for a fresh body records `signature_valid = NULL`
even when an arbitrary (possibly wrong) signature header is present;
and the returned result is identical to the result of the same
ingestion with no headers at all, so the summary carries no
signature-validity annotation. -/
theorem c9_no_secret_skips_verification
    (st : Store) (raw : Bytes) (headers : List (String × String)) (src : String)
    (envLang : Option String) (now : String)
    (hfresh : countPayloadSha st.payloads (sha256hex raw) = 0) :
    verifyFlag none headers = false ∧
    sigValidOf none headers raw = none ∧
    (∃ p, p ∈ (ingest_payload st raw headers src none envLang now).1.payloads ∧
       p.sha256 = sha256hex raw ∧ p.signature_valid = none) ∧
    (∀ p, p ∈ (ingest_payload st raw headers src none envLang now).1.payloads →
       p.sha256 = sha256hex raw → p.signature_valid = none) ∧
    (ingest_payload st raw headers src none envLang now).2 =
      (ingest_payload st raw [] src none envLang now).2 := by
  have hgA : (verifyFlag none headers && (expectedSig none headers raw).isNone) = false := by
    rw [verifyFlag_none]
    rfl
  have hgB : (verifyFlag none [] && (expectedSig none [] raw).isNone) = false := by
    rw [verifyFlag_none]
    rfl
  have hmainA : ingest_payload st raw headers src none envLang now =
      ingest_tail (store_payload st now raw src none none none (sigValueOf headers)
          (sigValidOf none headers raw)).1 raw
        (store_payload st now raw src none none none (sigValueOf headers)
          (sigValidOf none headers raw)).2 src envLang now
        (annotateSummary none headers raw) := by
    unfold ingest_payload
    rw [hgA]
    simp
  have hmainB : ingest_payload st raw [] src none envLang now =
      ingest_tail (store_payload st now raw src none none none (sigValueOf [])
          (sigValidOf none [] raw)).1 raw
        (store_payload st now raw src none none none (sigValueOf [])
          (sigValidOf none [] raw)).2 src envLang now
        (annotateSummary none [] raw) := by
    unfold ingest_payload
    rw [hgB]
    simp
  have hshaA : (store_payload st now raw src none none none (sigValueOf headers)
      (sigValidOf none headers raw)).2 = sha256hex raw :=
    (store_payload_parts st now raw src none none none (sigValueOf headers)
      (sigValidOf none headers raw)).1
  have hshaB : (store_payload st now raw src none none none (sigValueOf [])
      (sigValidOf none [] raw)).2 = sha256hex raw :=
    (store_payload_parts st now raw src none none none (sigValueOf [])
      (sigValidOf none [] raw)).1
  rw [hshaA] at hmainA
  rw [hshaB] at hmainB
  have hrelS := store_payload_rel st now raw src none none none
    (sigValueOf headers) (sigValueOf []) (sigValidOf none headers raw) (sigValidOf none [] raw)
  obtain ⟨hrelF, hdisj⟩ := ingest_tail_congr
    (store_payload st now raw src none none none (sigValueOf headers)
      (sigValidOf none headers raw)).1
    (store_payload st now raw src none none none (sigValueOf [])
      (sigValidOf none [] raw)).1
    hrelS raw (sha256hex raw) src envLang now
    (annotateSummary none headers raw) (annotateSummary none [] raw)
  have hany : (st.payloads.any (fun p => p.sha256 == sha256hex raw)) = false := by
    rw [any_sha_eq_count, hfresh]
    rfl
  have hmiss := store_payload_miss st now raw src none none none (sigValueOf headers)
    (sigValidOf none headers raw) hany
  have hplA : (store_payload st now raw src none none none (sigValueOf headers)
      (sigValidOf none headers raw)).1.payloads =
      st.payloads ++
        [newPayloadRow st now src raw (sigValueOf headers) (sigValidOf none headers raw)] := by
    rw [hmiss]
    rfl
  refine ⟨verifyFlag_none headers, sigValidOf_none headers raw, ?_, ?_, ?_⟩
  · rw [hmainA]
    rcases ingest_tail_payloads
        (store_payload st now raw src none none none (sigValueOf headers)
          (sigValidOf none headers raw)).1 raw (sha256hex raw) src envLang now
        (annotateSummary none headers raw) with hsame | ⟨payload, hparse, hupd⟩
    · refine ⟨newPayloadRow st now src raw (sigValueOf headers)
           (sigValidOf none headers raw), ?_,
         rfl, sigValidOf_none headers raw⟩
      rw [hsame, hplA]
      simp
    · have hmem0 : newPayloadRow st now src raw (sigValueOf headers)
          (sigValidOf none headers raw) ∈
          (store_payload st now raw src none none none (sigValueOf headers)
            (sigValidOf none headers raw)).1.payloads := by
        rw [hplA]
        simp
      obtain ⟨q, hqmem, hqsha, hqsv, _⟩ := payloadBasicsUpdate_mem
        (store_payload st now raw src none none none (sigValueOf headers)
          (sigValidOf none headers raw)).1 payload (sha256hex raw) _ hmem0
      refine ⟨q, ?_, ?_, ?_⟩
      · rw [hupd]
        exact hqmem
      · exact hqsha
      · rw [hqsv]
        exact sigValidOf_none headers raw
  · intro p hp hpsha
    rw [hmainA] at hp
    have hp2 : ∃ q, q ∈ (store_payload st now raw src none none none (sigValueOf headers)
        (sigValidOf none headers raw)).1.payloads ∧
        p.sha256 = q.sha256 ∧ p.signature_valid = q.signature_valid := by
      rcases ingest_tail_payloads
          (store_payload st now raw src none none none (sigValueOf headers)
            (sigValidOf none headers raw)).1 raw (sha256hex raw) src envLang now
          (annotateSummary none headers raw) with hsame | ⟨payload, hparse, hupd⟩
      · rw [hsame] at hp
        exact ⟨p, hp, rfl, rfl⟩
      · rw [hupd] at hp
        exact payloadBasicsUpdate_mem_rev _ payload (sha256hex raw) p hp
    obtain ⟨q, hqmem, hqsha, hqsv⟩ := hp2
    rw [hplA] at hqmem
    rcases List.mem_append.mp hqmem with hqold | hqnew
    · exact absurd (hqsha.symm.trans hpsha)
        (countPayloadSha_zero_not st.payloads (sha256hex raw) hfresh q hqold)
    · have hqeq := List.mem_singleton.mp hqnew
      rw [hqsv, hqeq]
      exact sigValidOf_none headers raw
  · rw [hmainA, hmainB]
    rcases hdisj with ⟨msg, ha, hb⟩ | ⟨c, s, ha, hb⟩ | ⟨c, s0, ha, hb⟩
    · rw [ha, hb]
    · rw [ha, hb]
    · rw [ha, hb, annotateSummary_none, annotateSummary_none]

/-- Concrete body for the C9 witness. -/
def c9raw : Bytes := utf8Bytes (jsonDump (.obj [("event", .str "PING")]))

/-- Arbitrary wrong signature header for the C9 witness. -/
def c9headers : List (String × String) := [("signature", "deadbeef")]

/-- C9 witness: the statement evaluated with a wrong signature header
over the empty store. -/
theorem c9_no_secret_skips_verification_witness :
    countPayloadSha Store.empty.payloads (sha256hex c9raw) = 0 ∧
    (verifyFlag none c9headers = false ∧
     sigValidOf none c9headers c9raw = none ∧
     (∃ p, p ∈ (ingest_payload Store.empty c9raw c9headers "webhook" none none "t1").1.payloads ∧
        p.sha256 = sha256hex c9raw ∧ p.signature_valid = none) ∧
     (∀ p, p ∈ (ingest_payload Store.empty c9raw c9headers "webhook" none none "t1").1.payloads →
        p.sha256 = sha256hex c9raw → p.signature_valid = none) ∧
     (ingest_payload Store.empty c9raw c9headers "webhook" none none "t1").2 =
       (ingest_payload Store.empty c9raw [] "webhook" none none "t1").2) :=
  ⟨by decide,
   c9_no_secret_skips_verification Store.empty c9raw c9headers "webhook" none "t1" (by decide)⟩



/-! ## Claim C7: the webhook signature formula and invalid signatures -/

theorem utf8BytesAux_append (l : List Char) (acc : Bytes) :
    l.foldr (fun c a => charUtf8 c ++ a) acc =
      l.foldr (fun c a => charUtf8 c ++ a) [] ++ acc := by
  induction l with
  | nil => simp
  | cons c t ih => simp [ih, List.append_assoc]

theorem utf8Bytes_append (a b : String) :
    utf8Bytes (a ++ b) = utf8Bytes a ++ utf8Bytes b := by
  unfold utf8Bytes
  rw [String.data_append, List.foldr_append, utf8BytesAux_append]

/-- The raw body of the spec example: the seven bytes of the JSON
text with a single key x and value 1. -/
def c7raw : Bytes := [123, 34, 120, 34, 58, 49, 125]

/-- The decoded text of `c7raw`. -/
def c7txt : String := String.mk [lbrace, '"', 'x', '"', ':', '1', rbrace]

/-- C7: the expected webhook signature is the hex SHA-256 of the utf-8
bytes of the decoded body text, a slash, and the secret (equivalently
of the byte concatenation, since utf-8 encoding distributes over
string concatenation); on the spec example body and secret "s3cr3t" it
equals the hex SHA-256 of the raw bytes followed by the bytes of
"/s3cr3t"; and a request whose provided signature differs from the
expected value is flagged invalid — the stored payload row carries
`signature_valid = false`, yet the payload is stored and reconciled
exactly like a secretless ingestion up to the INVALID summary prefix,
not rejected outright. -/
theorem c7_signature_verification
    (st : Store) (raw : Bytes) (headers : List (String × String)) (src : String)
    (sec : String) (envLang : Option String) (now : String) (txt : String)
    (hdec : utf8Decode raw = some txt)
    (hsec : sec ≠ "")
    (hn sv : String)
    (hsv : guess_signature_header headers = some (hn, sv))
    (hsvne : sv ≠ "")
    (hneq : strToLower (sha256hex (utf8Bytes txt ++ utf8Bytes "/" ++ utf8Bytes sec)) ≠
      strToLower sv)
    (hfresh : countPayloadSha st.payloads (sha256hex raw) = 0) :
    compute_webhook_signature raw sec =
      some (sha256hex (utf8Bytes txt ++ utf8Bytes "/" ++ utf8Bytes sec)) ∧
    compute_webhook_signature c7raw "s3cr3t" =
      some (sha256hex (c7raw ++ utf8Bytes "/s3cr3t")) ∧
    sigValidOf (some sec) headers raw = some false ∧
    (∃ p, p ∈ (ingest_payload st raw headers src (some sec) envLang now).1.payloads ∧
       p.sha256 = sha256hex raw ∧ p.signature_valid = some false) ∧
    StoreRelSig (ingest_payload st raw headers src (some sec) envLang now).1
      (ingest_payload st raw headers src none envLang now).1 ∧
    ((∃ msg, (ingest_payload st raw headers src (some sec) envLang now).2 = .error msg ∧
        (ingest_payload st raw headers src none envLang now).2 = .error msg) ∨
     (∃ c s, (ingest_payload st raw headers src (some sec) envLang now).2 = .ok (c, s) ∧
        (ingest_payload st raw headers src none envLang now).2 = .ok (c, s)) ∨
     (∃ c s0, (ingest_payload st raw headers src (some sec) envLang now).2 =
          .ok (c, "[INVALID signature via " ++ hn ++ "] " ++ s0) ∧
        (ingest_payload st raw headers src none envLang now).2 = .ok (c, s0))) := by
  have hA : compute_webhook_signature raw sec =
      some (sha256hex (utf8Bytes (txt ++ "/" ++ sec))) := by
    unfold compute_webhook_signature
    rw [hdec]
    rfl
  rw [utf8Bytes_append, utf8Bytes_append] at hA
  have hd7 : utf8Decode c7raw = some c7txt := by decide
  have hB : compute_webhook_signature c7raw "s3cr3t" =
      some (sha256hex (utf8Bytes (c7txt ++ "/" ++ "s3cr3t"))) := by
    unfold compute_webhook_signature
    rw [hd7]
    rfl
  have hbytes : utf8Bytes (c7txt ++ "/" ++ "s3cr3t") = c7raw ++ utf8Bytes "/s3cr3t" := by
    decide
  rw [hbytes] at hB
  have hsigval : sigValueOf headers = some sv := by
    unfold sigValueOf
    rw [hsv]
    rfl
  have hhn : sigHeaderNameOf headers = some hn := by
    unfold sigHeaderNameOf
    rw [hsv]
    rfl
  have hvf : verifyFlag (some sec) headers = true := by
    unfold verifyFlag
    rw [hsigval]
    simp [truthyS, hsec, hsvne]
  have hexp : expectedSig (some sec) headers raw =
      some (sha256hex (utf8Bytes txt ++ utf8Bytes "/" ++ utf8Bytes sec)) := by
    simp [expectedSig, hvf, hsigval, hA]
  have hbe : (strToLower (sha256hex (utf8Bytes txt ++ utf8Bytes "/" ++ utf8Bytes sec)) ==
      strToLower sv) = false := beq_eq_false_iff_ne.mpr hneq
  have hval : sigValidOf (some sec) headers raw = some false := by
    unfold sigValidOf
    rw [hexp, hsigval]
    show some (strToLower (sha256hex (utf8Bytes txt ++ utf8Bytes "/" ++ utf8Bytes sec)) ==
      strToLower sv) = some false
    rw [hbe]
  have hann : ∀ s, annotateSummary (some sec) headers raw s =
      "[INVALID signature via " ++ hn ++ "] " ++ s := by
    intro s
    unfold annotateSummary
    rw [hvf, hval, hhn]
    rfl
  have hgA : (verifyFlag (some sec) headers &&
      (expectedSig (some sec) headers raw).isNone) = false := by
    rw [hexp]
    simp
  have hgB : (verifyFlag none headers && (expectedSig none headers raw).isNone) = false := by
    rw [verifyFlag_none]
    rfl
  have hmainA : ingest_payload st raw headers src (some sec) envLang now =
      ingest_tail (store_payload st now raw src none none none (sigValueOf headers)
          (sigValidOf (some sec) headers raw)).1 raw
        (store_payload st now raw src none none none (sigValueOf headers)
          (sigValidOf (some sec) headers raw)).2 src envLang now
        (annotateSummary (some sec) headers raw) := by
    unfold ingest_payload
    rw [hgA]
    simp
  have hmainB : ingest_payload st raw headers src none envLang now =
      ingest_tail (store_payload st now raw src none none none (sigValueOf headers)
          (sigValidOf none headers raw)).1 raw
        (store_payload st now raw src none none none (sigValueOf headers)
          (sigValidOf none headers raw)).2 src envLang now
        (annotateSummary none headers raw) := by
    unfold ingest_payload
    rw [hgB]
    simp
  have hshaA : (store_payload st now raw src none none none (sigValueOf headers)
      (sigValidOf (some sec) headers raw)).2 = sha256hex raw :=
    (store_payload_parts st now raw src none none none (sigValueOf headers)
      (sigValidOf (some sec) headers raw)).1
  have hshaB : (store_payload st now raw src none none none (sigValueOf headers)
      (sigValidOf none headers raw)).2 = sha256hex raw :=
    (store_payload_parts st now raw src none none none (sigValueOf headers)
      (sigValidOf none headers raw)).1
  rw [hshaA] at hmainA
  rw [hshaB] at hmainB
  have hrelS := store_payload_rel st now raw src none none none
    (sigValueOf headers) (sigValueOf headers)
    (sigValidOf (some sec) headers raw) (sigValidOf none headers raw)
  obtain ⟨hrelF, hdisj⟩ := ingest_tail_congr
    (store_payload st now raw src none none none (sigValueOf headers)
      (sigValidOf (some sec) headers raw)).1
    (store_payload st now raw src none none none (sigValueOf headers)
      (sigValidOf none headers raw)).1
    hrelS raw (sha256hex raw) src envLang now
    (annotateSummary (some sec) headers raw) (annotateSummary none headers raw)
  have hany : (st.payloads.any (fun p => p.sha256 == sha256hex raw)) = false := by
    rw [any_sha_eq_count, hfresh]
    rfl
  have hmiss := store_payload_miss st now raw src none none none (sigValueOf headers)
    (sigValidOf (some sec) headers raw) hany
  have hplA : (store_payload st now raw src none none none (sigValueOf headers)
      (sigValidOf (some sec) headers raw)).1.payloads =
      st.payloads ++
        [newPayloadRow st now src raw (sigValueOf headers)
          (sigValidOf (some sec) headers raw)] := by
    rw [hmiss]
    rfl
  refine ⟨hA, hB, hval, ?_, ?_, ?_⟩
  · rw [hmainA]
    rcases ingest_tail_payloads
        (store_payload st now raw src none none none (sigValueOf headers)
          (sigValidOf (some sec) headers raw)).1 raw (sha256hex raw) src envLang now
        (annotateSummary (some sec) headers raw) with hsame | ⟨payload, hparse, hupd⟩
    · refine ⟨newPayloadRow st now src raw (sigValueOf headers)
           (sigValidOf (some sec) headers raw), ?_, rfl, hval⟩
      rw [hsame, hplA]
      simp
    · have hmem0 : newPayloadRow st now src raw (sigValueOf headers)
          (sigValidOf (some sec) headers raw) ∈
          (store_payload st now raw src none none none (sigValueOf headers)
            (sigValidOf (some sec) headers raw)).1.payloads := by
        rw [hplA]
        simp
      obtain ⟨q, hqmem, hqsha, hqsv, _⟩ := payloadBasicsUpdate_mem
        (store_payload st now raw src none none none (sigValueOf headers)
          (sigValidOf (some sec) headers raw)).1 payload (sha256hex raw) _ hmem0
      refine ⟨q, ?_, ?_, ?_⟩
      · rw [hupd]
        exact hqmem
      · exact hqsha
      · rw [hqsv]
        exact hval
  · rw [hmainA, hmainB]
    exact hrelF
  · rw [hmainA, hmainB]
    rcases hdisj with ⟨msg, ha, hb⟩ | ⟨c, s, ha, hb⟩ | ⟨c, s0, ha, hb⟩
    · exact Or.inl ⟨msg, ha, hb⟩
    · exact Or.inr (Or.inl ⟨c, s, ha, hb⟩)
    · refine Or.inr (Or.inr ⟨c, s0, ?_, ?_⟩)
      · rw [ha, hann]
      · rw [hb, annotateSummary_none]

/-- Wrong-signature headers for the C7 witness. -/
def c7headers : List (String × String) := [("signature", "00")]

/-- C7 witness: the statement evaluated on the spec example body, the
secret "s3cr3t" and a wrong provided signature, over the empty
store. -/
theorem c7_signature_verification_witness :
    (utf8Decode c7raw = some c7txt ∧
     guess_signature_header c7headers = some ("signature", "00") ∧
     strToLower (sha256hex (utf8Bytes c7txt ++ utf8Bytes "/" ++ utf8Bytes "s3cr3t")) ≠
       strToLower "00" ∧
     countPayloadSha Store.empty.payloads (sha256hex c7raw) = 0) ∧
    (compute_webhook_signature c7raw "s3cr3t" =
       some (sha256hex (utf8Bytes c7txt ++ utf8Bytes "/" ++ utf8Bytes "s3cr3t")) ∧
     compute_webhook_signature c7raw "s3cr3t" =
       some (sha256hex (c7raw ++ utf8Bytes "/s3cr3t")) ∧
     sigValidOf (some "s3cr3t") c7headers c7raw = some false ∧
     (∃ p, p ∈ (ingest_payload Store.empty c7raw c7headers "webhook"
          (some "s3cr3t") none "t1").1.payloads ∧
        p.sha256 = sha256hex c7raw ∧ p.signature_valid = some false) ∧
     StoreRelSig (ingest_payload Store.empty c7raw c7headers "webhook"
         (some "s3cr3t") none "t1").1
       (ingest_payload Store.empty c7raw c7headers "webhook" none none "t1").1 ∧
     ((∃ msg, (ingest_payload Store.empty c7raw c7headers "webhook"
           (some "s3cr3t") none "t1").2 = .error msg ∧
         (ingest_payload Store.empty c7raw c7headers "webhook" none none "t1").2 =
           .error msg) ∨
      (∃ c s, (ingest_payload Store.empty c7raw c7headers "webhook"
           (some "s3cr3t") none "t1").2 = .ok (c, s) ∧
         (ingest_payload Store.empty c7raw c7headers "webhook" none none "t1").2 =
           .ok (c, s)) ∨
      (∃ c s0, (ingest_payload Store.empty c7raw c7headers "webhook"
           (some "s3cr3t") none "t1").2 =
           .ok (c, "[INVALID signature via " ++ "signature" ++ "] " ++ s0) ∧
         (ingest_payload Store.empty c7raw c7headers "webhook" none none "t1").2 =
           .ok (c, s0)))) :=
  ⟨⟨by decide, by decide, by decide, by decide⟩,
   c7_signature_verification Store.empty c7raw c7headers "webhook" "s3cr3t" none "t1"
     c7txt (by decide) (by decide) "signature" "00" (by decide) (by decide)
     (by decide) (by decide)⟩



/-! ## Claim C3: carrier correction in the add command -/

/-- Active (non-archived) rows for a (number, carrier, param) key. -/
def activeKeyCount (ps : List PackageRow) (n : String) (c : Int) (pa : String) : Nat :=
  (ps.filter (fun r => r.number == n && r.carrier == c && r.param == pa &&
    !r.archived)).length

/-- The arguments of `track17 add NUMBER --carrier 0` with no optional
flags. -/
def addArgs0 (number : String) (param? : Option String) : AddArgs :=
  { number := number, carrier := some 0, param := param?, label := none,
    tag := none, lang := none }

/-- The in-place rename applied by the add command when no row for the
resolved key exists. -/
def renameRow (nc : Int) (now : String) (r : PackageRow) : PackageRow :=
  { r with carrier := nc, api_registered := true, updated_at := now }

/-- The archival applied to the registered row when it is superseded. -/
def archiveRow (now : String) (r : PackageRow) : PackageRow :=
  { r with archived := true, updated_at := now }

theorem normalise_idem (n : String) :
    normalise_number (normalise_number n) = normalise_number n := by
  simp [normalise_number, List.filter_filter]

theorem upsertUpd_fields (label tag lang : Option String) (ar : Option Bool)
    (now : String) (r : PackageRow) :
    (upsertUpd label tag lang ar now r).id = r.id ∧
    (upsertUpd label tag lang ar now r).number = r.number ∧
    (upsertUpd label tag lang ar now r).carrier = r.carrier ∧
    (upsertUpd label tag lang ar now r).param = r.param ∧
    (upsertUpd label tag lang ar now r).archived = r.archived := by
  unfold upsertUpd
  cases label <;> cases tag <;> cases lang <;> cases ar <;>
    exact ⟨rfl, rfl, rfl, rfl, rfl⟩

theorem upsert_package_found (st : Store) (now number : String) (carrier : Int)
    (param : String) (label tag lang : Option String) (ar : Option Bool)
    (env : Option String) (existing : PackageRow)
    (hfind : findByKey st.packages (normalise_number number) carrier param = some existing) :
    upsert_package st now number carrier param label tag lang ar env =
      ({ st with packages := st.packages.map (fun r =>
          if r.number == normalise_number number && r.carrier == carrier &&
              r.param == param then upsertUpd label tag lang ar now r else r) },
       upsertUpd label tag lang ar now existing) := by
  unfold upsert_package
  rw [hfind]

theorem map_if_id (xs : List PackageRow) (f : PackageRow → Bool)
    (g : PackageRow → PackageRow) (h : xs.any f = false) :
    xs.map (fun r => if f r then g r else r) = xs := by
  induction xs with
  | nil => rfl
  | cons x t ih =>
      rw [List.any_cons, Bool.or_eq_false_iff] at h
      simp [h.1, ih h.2]

theorem filter_sub_nil (xs : List PackageRow) (f g : PackageRow → Bool)
    (h : xs.any f = false) (himp : ∀ r, g r = true → f r = true) :
    xs.filter g = [] := by
  rw [List.filter_eq_nil_iff]
  intro a ha hg
  exact absurd (himp a hg) (by
    have := List.any_eq_false.mp h a ha
    simpa using this)

/-- Pre-existing carrier-0 row for the concrete C3 scenario. -/
def c3row0 : PackageRow :=
  { id := 1, created_at := "t0", updated_at := "t0", label := none, number := "N",
    carrier := 0, param := "", tag := "", lang := "en", api_registered := false,
    tracking_status := none, package_status := none, last_status := none,
    last_sub_status := none, last_event_time_utc := none, last_event_desc := none,
    last_location := none, last_update_at := none, last_payload_sha := none,
    archived := false }

/-- Store holding only the carrier-0 row. -/
def c3st : Store :=
  { packages := [c3row0], events := [], payloads := [], nextPackageId := 2,
    nextEventId := 1, nextPayloadId := 1 }

/-- Provider register response resolving carrier 7 for the number. -/
def c3acc : JsonVal := .obj [("number", .str "N"), ("carrier", .num 7)]

def c3resp : JsonVal :=
  .obj [("code", .num 0),
        ("data", .obj [("accepted", .arr [c3acc]), ("rejected", .arr [])])]

/-- The store after the concrete C3 add run. -/
def c3final : Store :=
  match cmd_add_db c3st (addArgs0 "N" none) c3resp none "t1" with
  | .ok st => st
  | .error _ => c3st

/-- C3, counterexample: registering "N" with carrier 0 over a store that
already holds a carrier-0 row, with the provider resolving carrier 7
and no row for (N, 7, "") present, renames the pre-existing carrier-0
row in place: afterwards no row at all is archived (refuting "any
pre-existing carrier-0 row becomes archived"), although exactly one
active (N, 7, "") row exists. -/
theorem c3_counterexample :
    cmd_add_db c3st (addArgs0 "N" none) c3resp none "t1" = .ok c3final ∧
    (c3st.packages.any fun r =>
      r.number == "N" && r.carrier == 0 && r.param == "" && !r.archived) = true ∧
    (c3final.packages.any fun r => r.archived) = false ∧
    activeKeyCount c3final.packages "N" 7 "" = 1 ∧
    (c3final.packages.filter fun r => r.id == c3row0.id).map
      (fun r => (r.carrier, r.archived)) = [(7, false)] := by
  decide

/-- Rename case of the corrected carrier-correction behaviour: when no
row for the resolved key exists, the registered carrier-0 row is
renamed in place and nothing is archived. -/
theorem c3_rename_case (st0 : Store) (number : String) (param? : Option String)
    (resp : JsonVal) (now : String) (acc0 : JsonVal) (accRest : List JsonVal)
    (cv : JsonVal) (nc : Int) (pre post : List PackageRow) (r0 : PackageRow)
    (hpr : parse_response_items resp = .ok (acc0 :: accRest, []))
    (hcv : pyOrJ (acc0.get? "carrier") none = some cv)
    (hnci : pyInt cv = some nc) (hnc0 : nc ≠ 0)
    (hpk : st0.packages = pre ++ r0 :: post)
    (hr0n : r0.number = normalise_number number) (hr0c : r0.carrier = 0)
    (hr0p : r0.param = param?.getD "") (hr0a : r0.archived = false)
    (hpre0 : (pre.any fun r => r.number == normalise_number number &&
        r.carrier == (0 : Int) && r.param == param?.getD "") = false)
    (hpost0 : (post.any fun r => r.number == normalise_number number &&
        r.carrier == (0 : Int) && r.param == param?.getD "") = false)
    (hncnone : (st0.packages.any fun r => r.number == normalise_number number &&
        r.carrier == nc && r.param == param?.getD "") = false)
    (hids : ((pre ++ post).any fun r => r.id == r0.id) = false) :
    ∃ stF, cmd_add_db st0 (addArgs0 number param?) resp none now = .ok stF ∧
      activeKeyCount stF.packages (normalise_number number) nc (param?.getD "") = 1 ∧
      activeKeyCount stF.packages (normalise_number number) 0 (param?.getD "") = 0 ∧
      stF.packages.filter (fun r => r.archived) =
        st0.packages.filter (fun r => r.archived) ∧
      (∃ r1, r1 ∈ stF.packages ∧ r1.id = r0.id ∧ r1.carrier = nc ∧
        r1.archived = false) := by
  have hzne : ((0 : Int) == nc) = false := beq_eq_false_iff_ne.mpr (Ne.symm hnc0)
  have hfind0 : findByKey st0.packages (normalise_number (normalise_number number)) 0
      (param?.getD "") = some r0 := by
    rw [normalise_idem, hpk]
    unfold findByKey
    rw [List.find?_append]
    have h1 : pre.find? (fun r => r.number == normalise_number number &&
        r.carrier == (0 : Int) && r.param == param?.getD "") = none := by
      rw [List.find?_eq_none]
      intro x hx hpx
      exact absurd hpx (by
        have := List.any_eq_false.mp hpre0 x hx
        simpa using this)
    rw [h1, Option.none_or, List.find?_cons_of_pos]
    simp [hr0n, hr0c, hr0p]
  have hup1 := upsert_package_found st0 now (normalise_number number) 0 (param?.getD "")
    none (some "") (some "en") (some false) none r0 hfind0
  have hkey0 : (r0.number == normalise_number number && r0.carrier == (0 : Int) &&
      r0.param == param?.getD "") = true := by
    simp [hr0n, hr0c, hr0p]
  have heq1 : (upsert_package st0 now (normalise_number number) 0 (param?.getD "") none
      (some "") (some "en") (some false) none).1.packages =
      pre ++ upsertUpd none (some "") (some "en") (some false) now r0 :: post := by
    rw [hup1]
    show st0.packages.map (fun r =>
        if r.number == normalise_number (normalise_number number) &&
            r.carrier == (0 : Int) && r.param == param?.getD "" then
          upsertUpd none (some "") (some "en") (some false) now r else r) = _
    rw [normalise_idem, hpk, List.map_append, List.map_cons, map_if_id pre _ _ hpre0,
      map_if_id post _ _ hpost0, if_pos hkey0]
  have hrowid : (upsert_package st0 now (normalise_number number) 0 (param?.getD "") none
      (some "") (some "en") (some false) none).2.id = r0.id := by
    rw [hup1]
    exact (upsertUpd_fields none (some "") (some "en") (some false) now r0).1
  have hrowcar : (upsert_package st0 now (normalise_number number) 0 (param?.getD "") none
      (some "") (some "en") (some false) none).2.carrier = (0 : Int) := by
    rw [hup1]
    rw [(upsertUpd_fields none (some "") (some "en") (some false) now r0).2.2.1]
    exact hr0c
  have hupdcar : (upsertUpd none (some "") (some "en") (some false) now r0).carrier =
      (0 : Int) := by
    rw [(upsertUpd_fields none (some "") (some "en") (some false) now r0).2.2.1]
    exact hr0c
  rw [hpk, List.any_append, Bool.or_eq_false_iff] at hncnone
  obtain ⟨hncpre, hnccons⟩ := hncnone
  rw [List.any_cons, Bool.or_eq_false_iff] at hnccons
  obtain ⟨hncr0, hncpost⟩ := hnccons
  have hfindnc : findByKey (upsert_package st0 now (normalise_number number) 0
      (param?.getD "") none (some "") (some "en") (some false) none).1.packages
      (normalise_number number) nc (param?.getD "") = none := by
    unfold findByKey
    rw [List.find?_eq_none]
    intro x hx hpx
    rw [heq1] at hx
    rcases List.mem_append.mp hx with hxp | hxc
    · exact absurd hpx (by
        have := List.any_eq_false.mp hncpre x hxp
        simpa using this)
    · rcases List.mem_cons.mp hxc with hxe | hxpost
      · rw [hxe] at hpx
        rw [(upsertUpd_fields none (some "") (some "en") (some false) now r0).2.2.1,
          hr0c] at hpx
        simp [hzne] at hpx
      · exact absurd hpx (by
          have := List.any_eq_false.mp hncpost x hxpost
          simpa using this)
  have hmain : cmd_add_db st0 (addArgs0 number param?) resp none now =
      .ok (cmd_add_resolved
        (upsert_package st0 now (normalise_number number) 0 (param?.getD "") none
          (some "") (some "en") (some false) none).1
        (upsert_package st0 now (normalise_number number) 0 (param?.getD "") none
          (some "") (some "en") (some false) none).2
        (normalise_number number) (param?.getD "") none "" "en" none now nc) := by
    simp [cmd_add_db, addArgs0, hpr, hcv, hnci, pyOrS]
  have hbne : ((upsert_package st0 now (normalise_number number) 0 (param?.getD "") none
      (some "") (some "en") (some false) none).2.carrier != nc) = true := by
    rw [hrowcar]
    simpa using (Ne.symm hnc0)
  have hres : cmd_add_resolved
      (upsert_package st0 now (normalise_number number) 0 (param?.getD "") none
        (some "") (some "en") (some false) none).1
      (upsert_package st0 now (normalise_number number) 0 (param?.getD "") none
        (some "") (some "en") (some false) none).2
      (normalise_number number) (param?.getD "") none "" "en" none now nc =
      { (upsert_package st0 now (normalise_number number) 0 (param?.getD "") none
          (some "") (some "en") (some false) none).1 with
        packages := (upsert_package st0 now (normalise_number number) 0 (param?.getD "")
            none (some "") (some "en") (some false) none).1.packages.map (fun r =>
          if r.id == r0.id then renameRow nc now r else r) } := by
    unfold cmd_add_resolved
    rw [hbne, hfindnc, hrowid]
    rfl
  rw [List.any_append, Bool.or_eq_false_iff] at hids
  obtain ⟨hidpre, hidpost⟩ := hids
  have hupdid : (upsertUpd none (some "") (some "en") (some false) now r0).id = r0.id :=
    (upsertUpd_fields none (some "") (some "en") (some false) now r0).1
  have hfinal : (cmd_add_resolved
      (upsert_package st0 now (normalise_number number) 0 (param?.getD "") none
        (some "") (some "en") (some false) none).1
      (upsert_package st0 now (normalise_number number) 0 (param?.getD "") none
        (some "") (some "en") (some false) none).2
      (normalise_number number) (param?.getD "") none "" "en" none now nc).packages =
      pre ++ renameRow nc now (upsertUpd none (some "") (some "en") (some false) now r0)
        :: post := by
    rw [hres]
    show (upsert_package st0 now (normalise_number number) 0 (param?.getD "")
        none (some "") (some "en") (some false) none).1.packages.map (fun r =>
      if r.id == r0.id then renameRow nc now r else r) = _
    rw [heq1, List.map_append, List.map_cons, map_if_id pre _ _ hidpre,
      map_if_id post _ _ hidpost, if_pos (by simp [hupdid])]
  have hupdfields := upsertUpd_fields none (some "") (some "en") (some false) now r0
  refine ⟨_, hmain, ?_, ?_, ?_, ?_⟩
  · show activeKeyCount _ _ _ _ = 1
    unfold activeKeyCount
    rw [hfinal, List.filter_append, List.filter_cons]
    rw [filter_sub_nil pre _ _ hncpre (by
      intro r hr
      exact (Bool.and_eq_true_iff.mp hr).1)]
    rw [filter_sub_nil post _ _ hncpost (by
      intro r hr
      exact (Bool.and_eq_true_iff.mp hr).1)]
    have hren : ((renameRow nc now (upsertUpd none (some "") (some "en") (some false)
        now r0)).number == normalise_number number &&
        (renameRow nc now (upsertUpd none (some "") (some "en") (some false)
          now r0)).carrier == nc &&
        (renameRow nc now (upsertUpd none (some "") (some "en") (some false)
          now r0)).param == param?.getD "" &&
        !(renameRow nc now (upsertUpd none (some "") (some "en") (some false)
          now r0)).archived) = true := by
      show ((upsertUpd none (some "") (some "en") (some false) now r0).number ==
          normalise_number number && nc == nc &&
          (upsertUpd none (some "") (some "en") (some false) now r0).param ==
            param?.getD "" &&
          !(upsertUpd none (some "") (some "en") (some false) now r0).archived) = true
      rw [hupdfields.2.1, hupdfields.2.2.2.1, hupdfields.2.2.2.2, hr0n, hr0p, hr0a]
      simp
    rw [if_pos hren]
    simp
  · show activeKeyCount _ _ _ _ = 0
    unfold activeKeyCount
    rw [hfinal, List.filter_append, List.filter_cons]
    rw [filter_sub_nil pre _ _ hpre0 (by
      intro r hr
      exact (Bool.and_eq_true_iff.mp hr).1)]
    rw [filter_sub_nil post _ _ hpost0 (by
      intro r hr
      exact (Bool.and_eq_true_iff.mp hr).1)]
    have hren : ((renameRow nc now (upsertUpd none (some "") (some "en") (some false)
        now r0)).number == normalise_number number &&
        (renameRow nc now (upsertUpd none (some "") (some "en") (some false)
          now r0)).carrier == (0 : Int) &&
        (renameRow nc now (upsertUpd none (some "") (some "en") (some false)
          now r0)).param == param?.getD "" &&
        !(renameRow nc now (upsertUpd none (some "") (some "en") (some false)
          now r0)).archived) = false := by
      show ((upsertUpd none (some "") (some "en") (some false) now r0).number ==
          normalise_number number && nc == (0 : Int) &&
          (upsertUpd none (some "") (some "en") (some false) now r0).param ==
            param?.getD "" &&
          !(upsertUpd none (some "") (some "en") (some false) now r0).archived) = false
      have : (nc == (0 : Int)) = false := beq_eq_false_iff_ne.mpr hnc0
      simp [this]
    rw [if_neg (by simp [hren])]
    simp
  · rw [hfinal, hpk, List.filter_append, List.filter_append, List.filter_cons,
      List.filter_cons]
    have h1 : (renameRow nc now (upsertUpd none (some "") (some "en") (some false)
        now r0)).archived = false := by
      show (upsertUpd none (some "") (some "en") (some false) now r0).archived = false
      rw [hupdfields.2.2.2.2]
      exact hr0a
    rw [h1, hr0a]
    simp
  · refine ⟨renameRow nc now (upsertUpd none (some "") (some "en") (some false) now r0),
      ?_, ?_, rfl, ?_⟩
    · rw [hfinal]
      simp
    · show (upsertUpd none (some "") (some "en") (some false) now r0).id = r0.id
      exact hupdid
    · show (upsertUpd none (some "") (some "en") (some false) now r0).archived = false
      rw [hupdfields.2.2.2.2]
      exact hr0a



/-- Archive case of the corrected carrier-correction behaviour: when a
row for the resolved key already exists, the provider data is merged
into it and the registered carrier-0 row is archived. -/
theorem c3_archive_case (st0 : Store) (number : String) (param? : Option String)
    (resp : JsonVal) (now : String) (acc0 : JsonVal) (accRest : List JsonVal)
    (cv : JsonVal) (nc : Int) (pre mid post : List PackageRow) (r0 rex : PackageRow)
    (hpr : parse_response_items resp = .ok (acc0 :: accRest, []))
    (hcv : pyOrJ (acc0.get? "carrier") none = some cv)
    (hnci : pyInt cv = some nc) (hnc0 : nc ≠ 0)
    (hpk : st0.packages = pre ++ r0 :: (mid ++ rex :: post))
    (hr0n : r0.number = normalise_number number) (hr0c : r0.carrier = 0)
    (hr0p : r0.param = param?.getD "") (hr0a : r0.archived = false)
    (hrexn : rex.number = normalise_number number) (hrexc : rex.carrier = nc)
    (hrexp : rex.param = param?.getD "") (hrexa : rex.archived = false)
    (hpre0 : (pre.any fun r => r.number == normalise_number number &&
        r.carrier == (0 : Int) && r.param == param?.getD "") = false)
    (hmid0 : (mid.any fun r => r.number == normalise_number number &&
        r.carrier == (0 : Int) && r.param == param?.getD "") = false)
    (hpost0 : (post.any fun r => r.number == normalise_number number &&
        r.carrier == (0 : Int) && r.param == param?.getD "") = false)
    (hprenc : (pre.any fun r => r.number == normalise_number number &&
        r.carrier == nc && r.param == param?.getD "") = false)
    (hmidnc : (mid.any fun r => r.number == normalise_number number &&
        r.carrier == nc && r.param == param?.getD "") = false)
    (hpostnc : (post.any fun r => r.number == normalise_number number &&
        r.carrier == nc && r.param == param?.getD "") = false)
    (hids : ((pre ++ (mid ++ rex :: post)).any fun r => r.id == r0.id) = false) :
    ∃ stF, cmd_add_db st0 (addArgs0 number param?) resp none now = .ok stF ∧
      activeKeyCount stF.packages (normalise_number number) nc (param?.getD "") = 1 ∧
      activeKeyCount stF.packages (normalise_number number) 0 (param?.getD "") = 0 ∧
      (∃ r1, r1 ∈ stF.packages ∧ r1.id = r0.id ∧ r1.archived = true) := by
  have hzne : ((0 : Int) == nc) = false := beq_eq_false_iff_ne.mpr (Ne.symm hnc0)
  have hncz : (nc == (0 : Int)) = false := beq_eq_false_iff_ne.mpr hnc0
  have hfind0 : findByKey st0.packages (normalise_number (normalise_number number)) 0
      (param?.getD "") = some r0 := by
    rw [normalise_idem, hpk]
    unfold findByKey
    rw [List.find?_append]
    have h1 : pre.find? (fun r => r.number == normalise_number number &&
        r.carrier == (0 : Int) && r.param == param?.getD "") = none := by
      rw [List.find?_eq_none]
      intro x hx hpx
      exact absurd hpx (by
        have := List.any_eq_false.mp hpre0 x hx
        simpa using this)
    rw [h1, Option.none_or, List.find?_cons_of_pos]
    simp [hr0n, hr0c, hr0p]
  have hup1 := upsert_package_found st0 now (normalise_number number) 0 (param?.getD "")
    none (some "") (some "en") (some false) none r0 hfind0
  have hkey0 : (r0.number == normalise_number number && r0.carrier == (0 : Int) &&
      r0.param == param?.getD "") = true := by
    simp [hr0n, hr0c, hr0p]
  have hrex0 : (rex.number == normalise_number number && rex.carrier == (0 : Int) &&
      rex.param == param?.getD "") = false := by
    rw [hrexc]
    simp [hncz]
  have heq1 : (upsert_package st0 now (normalise_number number) 0 (param?.getD "") none
      (some "") (some "en") (some false) none).1.packages =
      pre ++ upsertUpd none (some "") (some "en") (some false) now r0 ::
        (mid ++ rex :: post) := by
    rw [hup1]
    show st0.packages.map (fun r =>
        if r.number == normalise_number (normalise_number number) &&
            r.carrier == (0 : Int) && r.param == param?.getD "" then
          upsertUpd none (some "") (some "en") (some false) now r else r) = _
    rw [normalise_idem, hpk, List.map_append, List.map_cons, List.map_append,
      List.map_cons, map_if_id pre _ _ hpre0, map_if_id mid _ _ hmid0,
      map_if_id post _ _ hpost0, if_pos hkey0, if_neg (by simp [hrex0])]
  have hupdfields := upsertUpd_fields none (some "") (some "en") (some false) now r0
  have hrowid : (upsert_package st0 now (normalise_number number) 0 (param?.getD "") none
      (some "") (some "en") (some false) none).2.id = r0.id := by
    rw [hup1]
    exact hupdfields.1
  have hrowcar : (upsert_package st0 now (normalise_number number) 0 (param?.getD "") none
      (some "") (some "en") (some false) none).2.carrier = (0 : Int) := by
    rw [hup1]
    rw [hupdfields.2.2.1]
    exact hr0c
  have hupd0nc : ((upsertUpd none (some "") (some "en") (some false) now r0).number ==
      normalise_number number &&
      (upsertUpd none (some "") (some "en") (some false) now r0).carrier == nc &&
      (upsertUpd none (some "") (some "en") (some false) now r0).param ==
        param?.getD "") = false := by
    rw [hupdfields.2.2.1, hr0c]
    simp [hzne]
  have hfindrex : findByKey (upsert_package st0 now (normalise_number number) 0
      (param?.getD "") none (some "") (some "en") (some false) none).1.packages
      (normalise_number number) nc (param?.getD "") = some rex := by
    unfold findByKey
    rw [heq1, List.find?_append]
    have h1 : pre.find? (fun r => r.number == normalise_number number &&
        r.carrier == nc && r.param == param?.getD "") = none := by
      rw [List.find?_eq_none]
      intro x hx hpx
      exact absurd hpx (by
        have := List.any_eq_false.mp hprenc x hx
        simpa using this)
    rw [h1, Option.none_or, List.find?_cons_of_neg _ (by simp [hupd0nc]),
      List.find?_append]
    have h2 : mid.find? (fun r => r.number == normalise_number number &&
        r.carrier == nc && r.param == param?.getD "") = none := by
      rw [List.find?_eq_none]
      intro x hx hpx
      exact absurd hpx (by
        have := List.any_eq_false.mp hmidnc x hx
        simpa using this)
    rw [h2, Option.none_or, List.find?_cons_of_pos]
    simp [hrexn, hrexc, hrexp]
  have hmain : cmd_add_db st0 (addArgs0 number param?) resp none now =
      .ok (cmd_add_resolved
        (upsert_package st0 now (normalise_number number) 0 (param?.getD "") none
          (some "") (some "en") (some false) none).1
        (upsert_package st0 now (normalise_number number) 0 (param?.getD "") none
          (some "") (some "en") (some false) none).2
        (normalise_number number) (param?.getD "") none "" "en" none now nc) := by
    simp [cmd_add_db, addArgs0, hpr, hcv, hnci, pyOrS]
  have hbne : ((upsert_package st0 now (normalise_number number) 0 (param?.getD "") none
      (some "") (some "en") (some false) none).2.carrier != nc) = true := by
    rw [hrowcar]
    simpa using (Ne.symm hnc0)
  have hres : cmd_add_resolved
      (upsert_package st0 now (normalise_number number) 0 (param?.getD "") none
        (some "") (some "en") (some false) none).1
      (upsert_package st0 now (normalise_number number) 0 (param?.getD "") none
        (some "") (some "en") (some false) none).2
      (normalise_number number) (param?.getD "") none "" "en" none now nc =
      { (upsert_package
          (upsert_package st0 now (normalise_number number) 0 (param?.getD "") none
            (some "") (some "en") (some false) none).1 now (normalise_number number) nc
          (param?.getD "") rex.label (some rex.tag) (some "en") (some true) none).1 with
        packages := (upsert_package
            (upsert_package st0 now (normalise_number number) 0 (param?.getD "") none
              (some "") (some "en") (some false) none).1 now (normalise_number number) nc
            (param?.getD "") rex.label (some rex.tag) (some "en") (some true) none).1.packages.map
          (fun r => if r.id == r0.id then archiveRow now r else r) } := by
    unfold cmd_add_resolved
    rw [hbne, hfindrex, hrowid]
    rfl
  have hup2 := upsert_package_found
    (upsert_package st0 now (normalise_number number) 0 (param?.getD "") none
      (some "") (some "en") (some false) none).1 now (normalise_number number) nc
    (param?.getD "") rex.label (some rex.tag) (some "en") (some true) none rex
    (by rw [normalise_idem]; exact hfindrex)
  have hu2fields := upsertUpd_fields rex.label (some rex.tag) (some "en") (some true)
    now rex
  have heq2 : (upsert_package
      (upsert_package st0 now (normalise_number number) 0 (param?.getD "") none
        (some "") (some "en") (some false) none).1 now (normalise_number number) nc
      (param?.getD "") rex.label (some rex.tag) (some "en") (some true) none).1.packages =
      pre ++ upsertUpd none (some "") (some "en") (some false) now r0 ::
        (mid ++ upsertUpd rex.label (some rex.tag) (some "en") (some true) now rex ::
          post) := by
    rw [hup2]
    show (upsert_package st0 now (normalise_number number) 0 (param?.getD "") none
        (some "") (some "en") (some false) none).1.packages.map (fun r =>
        if r.number == normalise_number (normalise_number number) && r.carrier == nc &&
            r.param == param?.getD "" then
          upsertUpd rex.label (some rex.tag) (some "en") (some true) now r else r) = _
    rw [normalise_idem, heq1, List.map_append, List.map_cons, List.map_append,
      List.map_cons, map_if_id pre _ _ hprenc, map_if_id mid _ _ hmidnc,
      map_if_id post _ _ hpostnc, if_neg (by simp [hupd0nc]),
      if_pos (by simp [hrexn, hrexc, hrexp])]
  simp only [List.any_append, List.any_cons, Bool.or_eq_false_iff] at hids
  obtain ⟨hidpre, hidmid, hidrex, hidpost⟩ := hids
  have hu2id : (upsertUpd rex.label (some rex.tag) (some "en") (some true) now rex).id =
      rex.id := hu2fields.1
  have hfinal : (cmd_add_resolved
      (upsert_package st0 now (normalise_number number) 0 (param?.getD "") none
        (some "") (some "en") (some false) none).1
      (upsert_package st0 now (normalise_number number) 0 (param?.getD "") none
        (some "") (some "en") (some false) none).2
      (normalise_number number) (param?.getD "") none "" "en" none now nc).packages =
      pre ++ archiveRow now (upsertUpd none (some "") (some "en") (some false) now r0) ::
        (mid ++ upsertUpd rex.label (some rex.tag) (some "en") (some true) now rex ::
          post) := by
    rw [hres]
    show (upsert_package
        (upsert_package st0 now (normalise_number number) 0 (param?.getD "") none
          (some "") (some "en") (some false) none).1 now (normalise_number number) nc
        (param?.getD "") rex.label (some rex.tag) (some "en") (some true) none).1.packages.map
        (fun r => if r.id == r0.id then archiveRow now r else r) = _
    rw [heq2, List.map_append, List.map_cons, List.map_append, List.map_cons,
      map_if_id pre _ _ hidpre, map_if_id mid _ _ hidmid,
      map_if_id post _ _ hidpost, if_pos (by simp [hupdfields.1]),
      if_neg (by simp [hu2id, hidrex])]
  refine ⟨_, hmain, ?_, ?_, ?_⟩
  · show activeKeyCount _ _ _ _ = 1
    unfold activeKeyCount
    rw [hfinal, List.filter_append, List.filter_cons, List.filter_append,
      List.filter_cons]
    rw [filter_sub_nil pre _ _ hprenc (by
      intro r hr
      exact (Bool.and_eq_true_iff.mp hr).1)]
    rw [filter_sub_nil mid _ _ hmidnc (by
      intro r hr
      exact (Bool.and_eq_true_iff.mp hr).1)]
    rw [filter_sub_nil post _ _ hpostnc (by
      intro r hr
      exact (Bool.and_eq_true_iff.mp hr).1)]
    have harch : ((archiveRow now (upsertUpd none (some "") (some "en") (some false)
        now r0)).number == normalise_number number &&
        (archiveRow now (upsertUpd none (some "") (some "en") (some false)
          now r0)).carrier == nc &&
        (archiveRow now (upsertUpd none (some "") (some "en") (some false)
          now r0)).param == param?.getD "" &&
        !(archiveRow now (upsertUpd none (some "") (some "en") (some false)
          now r0)).archived) = false := by
      show ((upsertUpd none (some "") (some "en") (some false) now r0).number ==
          normalise_number number &&
          (upsertUpd none (some "") (some "en") (some false) now r0).carrier == nc &&
          (upsertUpd none (some "") (some "en") (some false) now r0).param ==
            param?.getD "" && !true) = false
      simp
    have hu2key : ((upsertUpd rex.label (some rex.tag) (some "en") (some true)
        now rex).number == normalise_number number &&
        (upsertUpd rex.label (some rex.tag) (some "en") (some true)
          now rex).carrier == nc &&
        (upsertUpd rex.label (some rex.tag) (some "en") (some true)
          now rex).param == param?.getD "" &&
        !(upsertUpd rex.label (some rex.tag) (some "en") (some true)
          now rex).archived) = true := by
      rw [hu2fields.2.1, hu2fields.2.2.1, hu2fields.2.2.2.1, hu2fields.2.2.2.2,
        hrexn, hrexc, hrexp, hrexa]
      simp
    rw [if_neg (by simp [harch]), if_pos hu2key]
    simp
  · show activeKeyCount _ _ _ _ = 0
    unfold activeKeyCount
    rw [hfinal, List.filter_append, List.filter_cons, List.filter_append,
      List.filter_cons]
    rw [filter_sub_nil pre _ _ hpre0 (by
      intro r hr
      exact (Bool.and_eq_true_iff.mp hr).1)]
    rw [filter_sub_nil mid _ _ hmid0 (by
      intro r hr
      exact (Bool.and_eq_true_iff.mp hr).1)]
    rw [filter_sub_nil post _ _ hpost0 (by
      intro r hr
      exact (Bool.and_eq_true_iff.mp hr).1)]
    have harch : ((archiveRow now (upsertUpd none (some "") (some "en") (some false)
        now r0)).number == normalise_number number &&
        (archiveRow now (upsertUpd none (some "") (some "en") (some false)
          now r0)).carrier == (0 : Int) &&
        (archiveRow now (upsertUpd none (some "") (some "en") (some false)
          now r0)).param == param?.getD "" &&
        !(archiveRow now (upsertUpd none (some "") (some "en") (some false)
          now r0)).archived) = false := by
      show ((upsertUpd none (some "") (some "en") (some false) now r0).number ==
          normalise_number number &&
          (upsertUpd none (some "") (some "en") (some false) now r0).carrier ==
            (0 : Int) &&
          (upsertUpd none (some "") (some "en") (some false) now r0).param ==
            param?.getD "" && !true) = false
      simp
    have hu2key : ((upsertUpd rex.label (some rex.tag) (some "en") (some true)
        now rex).number == normalise_number number &&
        (upsertUpd rex.label (some rex.tag) (some "en") (some true)
          now rex).carrier == (0 : Int) &&
        (upsertUpd rex.label (some rex.tag) (some "en") (some true)
          now rex).param == param?.getD "" &&
        !(upsertUpd rex.label (some rex.tag) (some "en") (some true)
          now rex).archived) = false := by
      rw [hu2fields.2.2.1, hrexc]
      simp [hncz]
    rw [if_neg (by simp [harch]), if_neg (by simp [hu2key])]
    simp
  · refine ⟨archiveRow now (upsertUpd none (some "") (some "en") (some false) now r0),
      ?_, ?_, rfl⟩
    · rw [hfinal]
      simp
    · show (upsertUpd none (some "") (some "en") (some false) now r0).id = r0.id
      exact hupdfields.1



/-- C3 (amended): registering a number with carrier 0 where the
provider resolves a non-zero carrier leaves exactly one active row for
(number, resolved, param) and no active carrier-0 row; but the
pre-existing carrier-0 row is archived only when a row for the
resolved key already existed (archive-and-supersede) — otherwise it is
renamed to the resolved carrier in place, keeping its id and staying
unarchived, and nothing in the store is archived by the command. -/
theorem c3_carrier_correction_amended :
    (∀ (st0 : Store) (number : String) (param? : Option String)
        (resp : JsonVal) (now : String) (acc0 : JsonVal) (accRest : List JsonVal)
        (cv : JsonVal) (nc : Int) (pre post : List PackageRow) (r0 : PackageRow),
      parse_response_items resp = .ok (acc0 :: accRest, []) →
      pyOrJ (acc0.get? "carrier") none = some cv →
      pyInt cv = some nc → nc ≠ 0 →
      st0.packages = pre ++ r0 :: post →
      r0.number = normalise_number number → r0.carrier = 0 →
      r0.param = param?.getD "" → r0.archived = false →
      (pre.any fun r => r.number == normalise_number number &&
        r.carrier == (0 : Int) && r.param == param?.getD "") = false →
      (post.any fun r => r.number == normalise_number number &&
        r.carrier == (0 : Int) && r.param == param?.getD "") = false →
      (st0.packages.any fun r => r.number == normalise_number number &&
        r.carrier == nc && r.param == param?.getD "") = false →
      ((pre ++ post).any fun r => r.id == r0.id) = false →
      ∃ stF, cmd_add_db st0 (addArgs0 number param?) resp none now = .ok stF ∧
        activeKeyCount stF.packages (normalise_number number) nc (param?.getD "") = 1 ∧
        activeKeyCount stF.packages (normalise_number number) 0 (param?.getD "") = 0 ∧
        stF.packages.filter (fun r => r.archived) =
          st0.packages.filter (fun r => r.archived) ∧
        (∃ r1, r1 ∈ stF.packages ∧ r1.id = r0.id ∧ r1.carrier = nc ∧
          r1.archived = false)) ∧
    (∀ (st0 : Store) (number : String) (param? : Option String)
        (resp : JsonVal) (now : String) (acc0 : JsonVal) (accRest : List JsonVal)
        (cv : JsonVal) (nc : Int) (pre mid post : List PackageRow) (r0 rex : PackageRow),
      parse_response_items resp = .ok (acc0 :: accRest, []) →
      pyOrJ (acc0.get? "carrier") none = some cv →
      pyInt cv = some nc → nc ≠ 0 →
      st0.packages = pre ++ r0 :: (mid ++ rex :: post) →
      r0.number = normalise_number number → r0.carrier = 0 →
      r0.param = param?.getD "" → r0.archived = false →
      rex.number = normalise_number number → rex.carrier = nc →
      rex.param = param?.getD "" → rex.archived = false →
      (pre.any fun r => r.number == normalise_number number &&
        r.carrier == (0 : Int) && r.param == param?.getD "") = false →
      (mid.any fun r => r.number == normalise_number number &&
        r.carrier == (0 : Int) && r.param == param?.getD "") = false →
      (post.any fun r => r.number == normalise_number number &&
        r.carrier == (0 : Int) && r.param == param?.getD "") = false →
      (pre.any fun r => r.number == normalise_number number &&
        r.carrier == nc && r.param == param?.getD "") = false →
      (mid.any fun r => r.number == normalise_number number &&
        r.carrier == nc && r.param == param?.getD "") = false →
      (post.any fun r => r.number == normalise_number number &&
        r.carrier == nc && r.param == param?.getD "") = false →
      ((pre ++ (mid ++ rex :: post)).any fun r => r.id == r0.id) = false →
      ∃ stF, cmd_add_db st0 (addArgs0 number param?) resp none now = .ok stF ∧
        activeKeyCount stF.packages (normalise_number number) nc (param?.getD "") = 1 ∧
        activeKeyCount stF.packages (normalise_number number) 0 (param?.getD "") = 0 ∧
        (∃ r1, r1 ∈ stF.packages ∧ r1.id = r0.id ∧ r1.archived = true)) :=
  ⟨c3_rename_case, c3_archive_case⟩

/-- Pre-existing resolved-carrier row for the concrete C3 archive
scenario. -/
def c3rex : PackageRow := { c3row0 with id := 2, carrier := 7 }

/-- Store holding both the carrier-0 row and the resolved row. -/
def c3stB : Store :=
  { packages := [c3row0, c3rex], events := [], payloads := [], nextPackageId := 3,
    nextEventId := 1, nextPayloadId := 1 }

/-- C3 witness: both corrected behaviours evaluated on concrete
stores — rename-in-place when only the carrier-0 row exists, archive
when a resolved-carrier row also exists. -/
theorem c3_carrier_correction_amended_witness :
    (parse_response_items c3resp = .ok (c3acc :: [], []) ∧
     c3st.packages = [] ++ c3row0 :: [] ∧
     c3stB.packages = [] ++ c3row0 :: ([] ++ c3rex :: []) ∧
     (7 : Int) ≠ 0) ∧
    (∃ stF, cmd_add_db c3st (addArgs0 "N" none) c3resp none "t1" = .ok stF ∧
       activeKeyCount stF.packages (normalise_number "N") 7 "" = 1 ∧
       activeKeyCount stF.packages (normalise_number "N") 0 "" = 0 ∧
       stF.packages.filter (fun r => r.archived) =
         c3st.packages.filter (fun r => r.archived) ∧
       (∃ r1, r1 ∈ stF.packages ∧ r1.id = c3row0.id ∧ r1.carrier = 7 ∧
         r1.archived = false)) ∧
    (∃ stF, cmd_add_db c3stB (addArgs0 "N" none) c3resp none "t1" = .ok stF ∧
       activeKeyCount stF.packages (normalise_number "N") 7 "" = 1 ∧
       activeKeyCount stF.packages (normalise_number "N") 0 "" = 0 ∧
       (∃ r1, r1 ∈ stF.packages ∧ r1.id = c3row0.id ∧ r1.archived = true)) :=
  ⟨⟨by decide, by decide, by decide, by decide⟩,
   c3_carrier_correction_amended.1 c3st "N" none c3resp "t1" c3acc [] (.num 7) 7 [] []
     c3row0 (by decide) (by decide) (by decide) (by decide) (by decide) (by decide)
     (by decide) (by decide) (by decide) (by decide) (by decide) (by decide) (by decide),
   c3_carrier_correction_amended.2 c3stB "N" none c3resp "t1" c3acc [] (.num 7) 7 [] [] []
     c3row0 c3rex (by decide) (by decide) (by decide) (by decide) (by decide) (by decide)
     (by decide) (by decide) (by decide) (by decide) (by decide) (by decide) (by decide)
     (by decide) (by decide) (by decide) (by decide) (by decide) (by decide) (by decide)⟩



/-! ## Claim C5: spool backpressure eviction -/

/-- Spool directory with three payloads and their three sidecars. -/
def c5files : List (String × Bytes) :=
  [("a.json", [49]), ("a.headers.json", [50]), ("b.json", [51]),
   ("b.headers.json", [52]), ("c.json", [53]), ("c.headers.json", [54])]

/-- A fresh distinct payload body. -/
def c5raw : Bytes := utf8Bytes "new"

/-- C5, counterexample: the `*.json` glob used to enforce the cap also
matches the `.headers.json` sidecars, so a directory with 3 spooled
payloads (6 files) is over a cap of 3 by 4: the four lexicographically
smallest names are evicted.  After spooling a fourth distinct payload
only 2 payload files remain (the claim promises 3), and the
second-oldest payload `b.json` is gone as well (the claim promises only
the single oldest is evicted). -/
theorem c5_counterexample :
    ((spool c5files c5raw [] "d" 3).filter (fun p => strEndsWith p.1 ".json" &&
      !strEndsWith p.1 ".headers.json")).length = 2 ∧
    ((spool c5files c5raw [] "d" 3).any fun p => p.1 == "a.json") = false ∧
    ((spool c5files c5raw [] "d" 3).any fun p => p.1 == "b.json") = false ∧
    ((spool c5files c5raw [] "d" 3).any fun p => p.1 == "c.json") = true := by
  decide

theorem any_name_filter (fs : List (String × Bytes)) (q : String × Bytes → Bool)
    (n : String) (h : (fs.any fun p => p.1 == n) = false) :
    ((fs.filter q).any fun p => p.1 == n) = false := by
  rw [List.any_eq_false] at h ⊢
  intro x hx
  exact h x (List.mem_filter.mp hx).1

theorem evictStep_abs (fs : List (String × Bytes)) (old n : String)
    (h : (fs.any fun p => p.1 == n) = false) :
    ((evictStep fs old).any fun p => p.1 == n) = false := by
  simp only [evictStep]
  split
  · exact any_name_filter _ _ _ (any_name_filter _ _ _ h)
  · exact any_name_filter _ _ _ h

theorem evictStep_kills (fs : List (String × Bytes)) (n : String) :
    ((evictStep fs n).any fun p => p.1 == n) = false := by
  have h : ((fs.filter (fun p => p.1 != n)).any fun p => p.1 == n) = false := by
    rw [List.any_eq_false]
    intro x hx
    have h2 := (List.mem_filter.mp hx).2
    simpa using h2
  simp only [evictStep]
  split
  · exact any_name_filter _ _ _ h
  · exact h

theorem evictStep_pres (fs : List (String × Bytes)) (old n : String)
    (h1 : n ≠ old) (h2 : withSuffix old ".headers.json" ≠ n)
    (h : (fs.any fun p => p.1 == n) = true) :
    ((evictStep fs old).any fun p => p.1 == n) = true := by
  obtain ⟨x, hx, hxn⟩ := List.any_eq_true.mp h
  have hxn2 : x.1 = n := by simpa using hxn
  have hmem : x ∈ fs.filter (fun p => p.1 != old) := by
    rw [List.mem_filter]
    refine ⟨hx, ?_⟩
    simp [hxn2, h1]
  simp only [evictStep]
  split
  · rw [List.any_eq_true]
    refine ⟨x, ?_, hxn⟩
    rw [List.mem_filter]
    refine ⟨hmem, ?_⟩
    simp [hxn2]
    exact fun he => h2 he.symm
  · rw [List.any_eq_true]
    exact ⟨x, hmem, hxn⟩

theorem deleteOld_pres_abs (files : List (String × Bytes)) (olds : List String)
    (n : String) (h : (files.any fun p => p.1 == n) = false) :
    ((deleteOld files olds).any fun p => p.1 == n) = false := by
  induction olds generalizing files with
  | nil => exact h
  | cons o t ih => exact ih (evictStep files o) (evictStep_abs files o n h)

theorem deleteOld_abs (files : List (String × Bytes)) (olds : List String)
    (n : String) (hn : n ∈ olds) :
    ((deleteOld files olds).any fun p => p.1 == n) = false := by
  induction olds generalizing files with
  | nil => cases hn
  | cons o t ih =>
      rcases List.mem_cons.mp hn with he | ht
      · subst he
        exact deleteOld_pres_abs (evictStep files n) t n (evictStep_kills files n)
      · exact ih (evictStep files o) ht

theorem deleteOld_pres (files : List (String × Bytes)) (olds : List String)
    (n : String) (h1 : ∀ m ∈ olds, n ≠ m)
    (h2 : ∀ m ∈ olds, withSuffix m ".headers.json" ≠ n)
    (h : (files.any fun p => p.1 == n) = true) :
    ((deleteOld files olds).any fun p => p.1 == n) = true := by
  induction olds generalizing files with
  | nil => exact h
  | cons o t ih =>
      exact ih (evictStep files o) (fun m hm => h1 m (List.mem_cons_of_mem o hm))
        (fun m hm => h2 m (List.mem_cons_of_mem o hm))
        (evictStep_pres files o n (h1 o (List.mem_cons_self o t))
          (h2 o (List.mem_cons_self o t)) h)

theorem fsWrite_any_self (fs : List (String × Bytes)) (n : String) (c : Bytes) :
    ((fsWrite fs n c).any fun p => p.1 == n) = true := by
  unfold fsWrite
  split
  · rename_i h
    obtain ⟨x, hx, hxn⟩ := List.any_eq_true.mp h
    rw [List.any_eq_true]
    refine ⟨(n, c), List.mem_map.mpr ⟨x, hx, ?_⟩, by simp⟩
    rw [if_pos hxn]
  · rw [List.any_eq_true]
    exact ⟨(n, c), by simp, by simp⟩

theorem fsWrite_pres_true (fs : List (String × Bytes)) (m : String) (c : Bytes)
    (n : String) (hne : n ≠ m) (h : (fs.any fun p => p.1 == n) = true) :
    ((fsWrite fs m c).any fun p => p.1 == n) = true := by
  unfold fsWrite
  obtain ⟨x, hx, hxn⟩ := List.any_eq_true.mp h
  have hxn2 : x.1 = n := by simpa using hxn
  have hxm : (x.1 == m) = false := by
    rw [hxn2]
    exact beq_eq_false_iff_ne.mpr hne
  split
  · rw [List.any_eq_true]
    refine ⟨x, List.mem_map.mpr ⟨x, hx, ?_⟩, hxn⟩
    rw [if_neg (by simp [hxm])]
  · rw [List.any_eq_true]
    exact ⟨x, List.mem_append.mpr (Or.inl hx), hxn⟩

theorem fsWrite_pres_false (fs : List (String × Bytes)) (m : String) (c : Bytes)
    (n : String) (hne : n ≠ m) (h : (fs.any fun p => p.1 == n) = false) :
    ((fsWrite fs m c).any fun p => p.1 == n) = false := by
  unfold fsWrite
  rw [List.any_eq_false] at h
  split
  · rw [List.any_eq_false]
    intro x hx
    obtain ⟨y, hy, hyx⟩ := List.mem_map.mp hx
    by_cases hc : (y.1 == m) = true
    · rw [if_pos hc] at hyx
      rw [← hyx]
      simp
      exact fun he => hne he.symm
    · rw [if_neg hc] at hyx
      rw [← hyx]
      exact h y hy
  · rw [List.any_eq_false]
    intro x hx
    rcases List.mem_append.mp hx with hxl | hxr
    · exact h x hxl
    · have : x = (m, c) := List.mem_singleton.mp hxr
      rw [this]
      simp
      exact fun he => hne he.symm

/-- C5 (amended): the cap check counts every `*.json` name — the
`.headers.json` sidecars included — and at or above the cap it evicts
the `len - max_files + 1` lexicographically smallest such names, each
with its sidecar, before writing the new payload and sidecar.  So
spooling a fresh payload into a directory whose sorted `*.json` listing
is `I` with `|I| ≥ N` deletes the names `I.take (|I| - N + 1)` (they
are absent afterwards), keeps every file that is neither evicted nor an
evicted name's sidecar, and writes the new payload and its sidecar. -/
theorem c5_spool_eviction (files : List (String × Bytes)) (raw : Bytes)
    (headers : List (String × String)) (ts : String) (N : Nat) (I : List String)
    (hfresh : (files.any fun p => p.1 == spoolFname raw ts) = false)
    (hI : sortedJsonNames files = I)
    (hlen : N ≤ I.length)
    (hdiff : spoolFname raw ts ≠ withSuffix (spoolFname raw ts) ".headers.json") :
    spool files raw headers ts N =
      fsWrite (fsWrite (deleteOld files (I.take (I.length - N + 1)))
          (spoolFname raw ts) raw)
        (withSuffix (spoolFname raw ts) ".headers.json") (headersDumpBytes headers) ∧
    ((spool files raw headers ts N).any fun p => p.1 == spoolFname raw ts) = true ∧
    ((spool files raw headers ts N).any fun p =>
        p.1 == withSuffix (spoolFname raw ts) ".headers.json") = true ∧
    (∀ n, n ∈ I.take (I.length - N + 1) → n ≠ spoolFname raw ts →
      n ≠ withSuffix (spoolFname raw ts) ".headers.json" →
      ((spool files raw headers ts N).any fun p => p.1 == n) = false) ∧
    (∀ n, (∀ m ∈ I.take (I.length - N + 1), n ≠ m) →
      (∀ m ∈ I.take (I.length - N + 1), withSuffix m ".headers.json" ≠ n) →
      (files.any fun p => p.1 == n) = true →
      ((spool files raw headers ts N).any fun p => p.1 == n) = true) := by
  have heq : spool files raw headers ts N =
      fsWrite (fsWrite (deleteOld files (I.take (I.length - N + 1)))
          (spoolFname raw ts) raw)
        (withSuffix (spoolFname raw ts) ".headers.json") (headersDumpBytes headers) := by
    simp only [spool]
    rw [hfresh]
    simp only [Bool.false_eq_true, if_false]
    rw [hI, if_pos hlen]
    rfl
  refine ⟨heq, ?_, ?_, ?_, ?_⟩
  · rw [heq]
    exact fsWrite_pres_true _ _ _ _ hdiff (fsWrite_any_self _ _ _)
  · rw [heq]
    exact fsWrite_any_self _ _ _
  · intro n hn hnf hns
    rw [heq]
    exact fsWrite_pres_false _ _ _ _ hns
      (fsWrite_pres_false _ _ _ _ hnf (deleteOld_abs files _ n hn))
  · intro n h1 h2 hpres
    rw [heq]
    by_cases hnf : n = spoolFname raw ts
    · rw [hnf]
      exact fsWrite_pres_true _ _ _ _ hdiff (fsWrite_any_self _ _ _)
    · by_cases hns : n = withSuffix (spoolFname raw ts) ".headers.json"
      · rw [hns]
        exact fsWrite_any_self _ _ _
      · exact fsWrite_pres_true _ _ _ _ hns
          (fsWrite_pres_true _ _ _ _ hnf (deleteOld_pres files _ n h1 h2 hpres))

/-- Sorted glob listing of the concrete C5 directory. -/
def c5I : List String :=
  ["a.headers.json", "a.json", "b.headers.json", "b.json", "c.headers.json", "c.json"]

/-- C5 witness: the amended eviction statement evaluated on the
three-payload directory with cap 3. -/
theorem c5_spool_eviction_witness :
    ((c5files.any fun p => p.1 == spoolFname c5raw "d") = false ∧
     sortedJsonNames c5files = c5I ∧
     3 ≤ c5I.length ∧
     spoolFname c5raw "d" ≠ withSuffix (spoolFname c5raw "d") ".headers.json") ∧
    (spool c5files c5raw [] "d" 3 =
       fsWrite (fsWrite (deleteOld c5files (c5I.take (c5I.length - 3 + 1)))
           (spoolFname c5raw "d") c5raw)
         (withSuffix (spoolFname c5raw "d") ".headers.json") (headersDumpBytes []) ∧
     ((spool c5files c5raw [] "d" 3).any fun p => p.1 == spoolFname c5raw "d") = true ∧
     ((spool c5files c5raw [] "d" 3).any fun p =>
         p.1 == withSuffix (spoolFname c5raw "d") ".headers.json") = true ∧
     (∀ n, n ∈ c5I.take (c5I.length - 3 + 1) → n ≠ spoolFname c5raw "d" →
       n ≠ withSuffix (spoolFname c5raw "d") ".headers.json" →
       ((spool c5files c5raw [] "d" 3).any fun p => p.1 == n) = false) ∧
     (∀ n, (∀ m ∈ c5I.take (c5I.length - 3 + 1), n ≠ m) →
       (∀ m ∈ c5I.take (c5I.length - 3 + 1), withSuffix m ".headers.json" ≠ n) →
       (c5files.any fun p => p.1 == n) = true →
       ((spool c5files c5raw [] "d" 3).any fun p => p.1 == n) = true)) :=
  ⟨⟨by decide, by decide, by decide, by decide⟩,
   c5_spool_eviction c5files c5raw [] "d" 3 c5I (by decide) (by decide) (by decide)
     (by decide)⟩


end Track17
